import Mathlib

/-!
CSV reshaping and forecasting helpers of the emigration dashboard.

A shallow embedding of the data-processing functions of
`src/services/components/CSVupload.jsx` and
`src/services/charts/ForecastingComponent.jsx`, with the properties
established about them.

Conventions of the embedding:

* a JavaScript string is a Lean `String`, read through its list of characters;
* an integer-valued JavaScript number is an `Int`; a number that may be `NaN`
  is an `Option Int` with `none` for `NaN`. `parseInt` gives the integer that
  the digits it reads denote; `cleanNumeric` turns it into the double nearest
  to it (`nearestDouble`), and `String` of a number is `numberToString`. The
  value `Infinity`, which a digit string of more than 308 digits can give, has
  no counterpart in `Int`;
* real-valued numbers of the forecasting code are rationals;
* a thrown exception is an `Except.error`.
-/

namespace Case3

/-! ## JavaScript values and text primitives -/

deriving instance DecidableEq for Except

/-- A table cell as the parsers read it: `row[i]` is `undefined` past the end
of the row, otherwise whatever the CSV reader stored there. The reader is
called with `dynamicTyping: false` and stores text; a `num` cell stands for an
integer-valued number, such as a value that `clean` returned, and holds an
integer that is a double. -/
inductive Cell where
  | undefined : Cell
  | null : Cell
  | str (s : String) : Cell
  | num (n : Int) : Cell
  deriving DecidableEq, Repr

/-- A row of a parsed CSV file. -/
abbrev Row := List Cell

/-- Indexing `row[i]`: reading past the end gives `undefined`. -/
def Row.at (row : Row) (i : Nat) : Cell := row.getD i Cell.undefined

/-- Indexing `row[colIndex]` where `colIndex` is itself the result of an array
read and so may be `undefined`, which names no element. -/
def Row.atIndex (row : Row) (colIndex : Option Nat) : Cell :=
  match colIndex with
  | none => Cell.undefined
  | some i => Row.at row i

/-- Optional chaining `row?.[colIndex]` on a row that may be `null`. -/
def rowAt? (row : Option Row) (colIndex : Option Nat) : Cell :=
  match row with
  | none => Cell.undefined
  | some r => Row.atIndex r colIndex

/-! ## Numbers as doubles -/

/-- The number of low bits that a double cannot keep of the natural number `n`:
the least `e` with `n / 2 ^ e < 2 ^ 53`. The first argument bounds the
search. -/
def doubleShift : Nat → Nat → Nat
  | 0, _ => 0
  | fuel + 1, n => if n < 2 ^ 53 then 0 else doubleShift fuel (n / 2) + 1

/-- The Number value for a natural number: the double nearest to it, and of
two doubles equally near the one with the even significand. The result is the
value of the JavaScript number for every `n` below `2 ^ 1024 - 2 ^ 970`; from
there on JavaScript has `Infinity`. -/
def nearestDouble (n : Nat) : Nat :=
  let p := 2 ^ doubleShift n n
  let q := n / p
  let r := n % p
  if 2 * r < p ∨ (2 * r = p ∧ q % 2 = 0) then q * p else (q + 1) * p

/-- The Number value for an integer. -/
def toNumber (n : Int) : Int :=
  if n < 0 then -((nearestDouble n.natAbs : Nat) : Int) else ((nearestDouble n.natAbs : Nat) : Int)

/-- One step of the digit choice of `Number::toString` for the double `x` of
`n` decimal digits: the `k`-digit number `s`, if there is one, for which
`s * 10 ^ (n - k)` has `x` as its nearest double, with the position of the
decimal point; of two such `s` the one nearer to `x`, and the even one when
both are equally near. -/
def decimalCandidate (x n k : Nat) : Option (Nat × Nat) :=
  let p := 10 ^ (n - k)
  let lo := x / p
  let hi := lo + 1
  let okLo := decide (nearestDouble (lo * p) = x)
  let okHi := decide (nearestDouble (hi * p) = x)
  let pick (s : Nat) : Nat × Nat := if s = 10 ^ k then (1, n + 1) else (s, n)
  if okLo && okHi then
    if x - lo * p < hi * p - x then some (pick lo)
    else if hi * p - x < x - lo * p then some (pick hi)
    else if lo % 2 = 0 then some (pick lo) else some (pick hi)
  else if okLo then some (pick lo)
  else if okHi then some (pick hi)
  else none

/-- The digits `s` and the exponent `n` that `Number::toString` chooses for the
double `x`: the fewest digits that still denote `x`. Seventeen digits always
suffice for a double. -/
def shortestDecimal (x : Nat) : Nat × Nat :=
  let n := (toString x).length
  match (List.range 17).findSome? (fun i => decimalCandidate x n (i + 1)) with
  | some d => d
  | none => (x, n)

/-- The exponent notation of `Number::toString`, used from `1e21` on: the first
digit, a point and the other digits when there are any, then `e+` and the
exponent. -/
def exponentText (x : Nat) : String :=
  let d := shortestDecimal x
  let mantissa : List Char :=
    match (toString d.1).data with
    | [] => []
    | [c] => [c]
    | c :: rest => c :: '.' :: rest
  String.mk mantissa ++ "e+" ++ toString (d.2 - 1)

/-- JavaScript `String(n)` for an integer-valued number: plain decimal digits
below `1e21` in absolute value, exponent notation from there on. -/
def numberToString (n : Int) : String :=
  if n.natAbs < 10 ^ 21 then toString n
  else if n < 0 then "-" ++ exponentText n.natAbs
  else exponentText n.natAbs

/-- JavaScript `String(v)`. -/
def Cell.toText : Cell → String
  | Cell.undefined => "undefined"
  | Cell.null => "null"
  | Cell.str s => s
  | Cell.num n => numberToString n

/-- JavaScript truthiness of a cell. -/
def Cell.truthy : Cell → Bool
  | Cell.undefined => false
  | Cell.null => false
  | Cell.str s => s.data ≠ []
  | Cell.num n => n ≠ 0

/-- The expression `String(v || '')`. -/
def Cell.textOrEmpty (c : Cell) : String :=
  if c.truthy then c.toText else ""

/-- Characters removed by `String.prototype.trim` (WhiteSpace and
LineTerminator of ECMAScript). -/
def isWhiteSpace (c : Char) : Bool :=
  let n := c.toNat
  n = 0x09 || n = 0x0A || n = 0x0B || n = 0x0C || n = 0x0D || n = 0x20 ||
  n = 0xA0 || n = 0x1680 || (0x2000 ≤ n && n ≤ 0x200A) || n = 0x2028 ||
  n = 0x2029 || n = 0x202F || n = 0x205F || n = 0x3000 || n = 0xFEFF

/-- The regular-expression class `\d`: the ASCII digits. -/
def isDigit (c : Char) : Bool := 48 ≤ c.toNat && c.toNat ≤ 57

/-- Value of an ASCII digit. -/
def digitValue (c : Char) : Nat := c.toNat - 48

/-- Characters accepted as hexadecimal digits by `parseInt`. -/
def isHexDigit (c : Char) : Bool :=
  isDigit c || (97 ≤ c.toNat && c.toNat ≤ 102) || (65 ≤ c.toNat && c.toNat ≤ 70)

/-- Value of a hexadecimal digit. -/
def hexValue (c : Char) : Nat :=
  if isDigit c then c.toNat - 48
  else if 97 ≤ c.toNat then c.toNat - 87
  else c.toNat - 55

/-- JavaScript `s.trim()`. -/
def trim (s : String) : String :=
  ⟨((s.data.dropWhile isWhiteSpace).reverse.dropWhile isWhiteSpace).reverse⟩

/-- Lower-casing of one character, on the ASCII letters. -/
def lowerChar (c : Char) : Char :=
  if 65 ≤ c.toNat ∧ c.toNat ≤ 90 then Char.ofNat (c.toNat + 32) else c

/-- JavaScript `s.toLowerCase()` on ASCII letters; other characters are kept.
The parsers only compare lower-cased text with ASCII literals, and a character
outside ASCII never lower-cases to a letter sequence of those literals, so
every comparison below is decided as in JavaScript. -/
def toLowerCase (s : String) : String := ⟨s.data.map lowerChar⟩

/-- JavaScript `s.includes(t)`: `t` occurs in `s` as a contiguous substring. -/
def includes (s t : String) : Bool :=
  s.data.tails.any (fun u => t.data.isPrefixOf u)

/-- The test `/^\d{4}$/.test(s)`. -/
def isFourDigits (s : String) : Bool :=
  s.data.length = 4 && s.data.all isDigit

/-- The replacement `s.replace(/[^\d]/g, '')`. -/
def stripNonDigits (s : String) : String := ⟨s.data.filter isDigit⟩

/-- Accumulates a run of digits in the given radix, most significant first. -/
def digitsToNat (radix : Nat) (value : Char → Nat) (ds : List Char) : Nat :=
  ds.foldl (fun acc c => acc * radix + value c) 0

/-- Sign handling of `parseInt`: a leading `-` or `+` is consumed. -/
def stripSign : List Char → Bool × List Char
  | [] => (false, [])
  | c :: r => if c = '-' then (true, r) else if c = '+' then (false, r) else (false, c :: r)

/-- Prefix handling of `parseInt` without a radix: `0x` or `0X` selects
base 16. -/
def stripHexPrefix : List Char → Option (List Char)
  | a :: b :: r => if a = '0' ∧ (b = 'x' ∨ b = 'X') then some r else none
  | _ => none

/-- JavaScript `parseInt(s)` (no radix argument): leading white space and a
sign are skipped, a `0x` prefix selects base 16, then the longest run of digits
is read; `none` is `NaN`. The result is the integer that the digits denote,
before it is made a Number. -/
def parseInt (s : String) : Option Int :=
  let body := stripSign (s.data.dropWhile isWhiteSpace)
  let magnitude : Option Nat :=
    match stripHexPrefix body.2 with
    | some rest =>
      let ds := rest.takeWhile isHexDigit
      if ds.isEmpty then none else some (digitsToNat 16 hexValue ds)
    | none =>
      let ds := body.2.takeWhile isDigit
      if ds.isEmpty then none else some (digitsToNat 10 digitValue ds)
  match magnitude with
  | none => none
  | some m => some (if body.1 then -(m : Int) else (m : Int))

/-- The helper `clean` that every transposed parser declares: nothing for an
absent or empty cell, otherwise the digits of the cell read as one number,
which is the double nearest to the integer that the digits denote. -/
def cleanNumeric (val : Cell) : Int :=
  if val = Cell.undefined ∨ val = Cell.null ∨ val = Cell.str "" then 0
  else
    let str := stripNonDigits val.toText
    if str = "" then 0
    else
      match parseInt str with
      | none => 0
      | some num => toNumber num

/-- Decimal value of a digit string as the spec words it: the base-10 number
whose digits, least significant first, are the characters read backwards. -/
def decimalValue (s : String) : Nat :=
  Nat.ofDigits 10 (s.data.reverse.map digitValue)

/-! ## Year columns of a transposed table -/

/-- The two parallel arrays `yearCols` and `yearIndices` that each transposed
parser fills from the header row. -/
structure YearColumns where
  yearCols : List (Option Int)
  yearIndices : List Nat
  deriving DecidableEq, Repr

/-- Body of the `headerRow.forEach((cell, idx) => ...)` callback. -/
def yearScanStep (acc : YearColumns) (entry : Nat × Cell) : YearColumns :=
  if entry.1 = 0 then acc
  else
    let trimmed := trim entry.2.toText
    if isFourDigits trimmed then
      ⟨acc.yearCols ++ [parseInt trimmed], acc.yearIndices ++ [entry.1]⟩
    else acc

/-- The header scan that opens every transposed parser. -/
def detectYearColumns (headerRow : Row) : YearColumns :=
  headerRow.enum.foldl yearScanStep ⟨[], []⟩

/-- A year column as the spec words it: a column other than the first whose
trimmed text is exactly four digits. -/
def isYearColumn (headerRow : Row) (i : Nat) : Bool :=
  decide (1 ≤ i) && isFourDigits (trim (Row.at headerRow i).toText)

/-! ## The transposed parsers -/

/-- The category label of a data row, `String(row[0] || '').trim()`. -/
def rowLabel (row : Row) : String := trim (Row.at row 0).textOrEmpty

/-- A record of `parseTotalTransposedFromArray`. -/
structure TotalRecord where
  year : Option Int
  total : Int
  deriving DecidableEq, Repr

/-- The inner loop of `parseTotalTransposedFromArray`: one pass over the data
rows for the column `colIndex`, skipping the excluded labels. -/
def totalOfColumn (body : List Row) (colIndex : Option Nat) : Int :=
  body.foldl (fun total row =>
    let ageGroup := toLowerCase (rowLabel row)
    if ageGroup = "" ∨ ageGroup = "not reported" ∨ includes ageGroup "no response" = true then
      total
    else total + cleanNumeric (Row.atIndex row colIndex)) 0

/-- The function `parseTotalTransposedFromArray`; reading the header of a table
without rows throws. -/
def parseTotalTransposedFromArray (data : List Row) : Except String (List TotalRecord) :=
  match data with
  | [] => Except.error "TypeError: headerRow is undefined"
  | headerRow :: body =>
    let cols := detectYearColumns headerRow
    if cols.yearCols.length = 0 then Except.ok []
    else
      Except.ok (cols.yearCols.enum.map (fun entry =>
        let colIndex := cols.yearIndices[entry.1]?
        { year := entry.2, total := totalOfColumn body colIndex }))

/-- A record of `parseAgeTransposedFromArray`. -/
structure AgeRecord where
  year : Option Int
  ageGroup : String
  count : Int
  deriving DecidableEq, Repr

/-- Body of the row loop of `parseAgeTransposedFromArray`. -/
def ageRowStep (year : Option Int) (colIndex : Option Nat) (results : List AgeRecord)
    (row : Row) : List AgeRecord :=
  let ageGroup := rowLabel row
  if ageGroup = "" ∨ toLowerCase ageGroup = "not reported" ∨
      includes (toLowerCase ageGroup) "no response" = true then results
  else
    let count := cleanNumeric (Row.atIndex row colIndex)
    if count > 0 then results ++ [{ year := year, ageGroup := ageGroup, count := count }]
    else results

/-- The function `parseAgeTransposedFromArray`. -/
def parseAgeTransposedFromArray (data : List Row) : Except String (List AgeRecord) :=
  match data with
  | [] => Except.error "TypeError: headerRow is undefined"
  | headerRow :: body =>
    let cols := detectYearColumns headerRow
    if cols.yearCols.length = 0 then Except.ok []
    else
      Except.ok (cols.yearCols.enum.foldl (fun results entry =>
        body.foldl (ageRowStep entry.2 cols.yearIndices[entry.1]?) results) [])

/-- A record of `parseOccupationTransposedFromArray`. -/
structure OccupationRecord where
  year : Option Int
  occupation : String
  count : Int
  deriving DecidableEq, Repr

/-- Body of the row loop of `parseOccupationTransposedFromArray`. -/
def occupationRowStep (year : Option Int) (colIndex : Option Nat)
    (results : List OccupationRecord) (row : Row) : List OccupationRecord :=
  let occupation := rowLabel row
  if occupation = "" ∨ toLowerCase occupation = "not reported" ∨
      toLowerCase occupation = "no occupation reported" ∨
      includes (toLowerCase occupation) "no response" = true then results
  else
    let count := cleanNumeric (Row.atIndex row colIndex)
    if count > 0 then results ++ [{ year := year, occupation := occupation, count := count }]
    else results

/-- The function `parseOccupationTransposedFromArray`. -/
def parseOccupationTransposedFromArray (data : List Row) :
    Except String (List OccupationRecord) :=
  match data with
  | [] => Except.error "TypeError: headerRow is undefined"
  | headerRow :: body =>
    let cols := detectYearColumns headerRow
    if cols.yearCols.length = 0 then Except.ok []
    else
      Except.ok (cols.yearCols.enum.foldl (fun results entry =>
        body.foldl (occupationRowStep entry.2 cols.yearIndices[entry.1]?) results) [])

/-- The inner loop of `findRow`: does the label equal one of the spellings,
both lower-cased. -/
def matchesVariation (categoryName : String) : List String → Bool
  | [] => false
  | variation :: rest =>
    if categoryName = toLowerCase variation then true else matchesVariation categoryName rest

/-- The helper `findRow` of the education parser, over the data rows
`data.slice(1)`; `none` is `null`. -/
def findRow (body : List Row) (variations : List String) : Option Row :=
  match body with
  | [] => none
  | row :: rest =>
    if matchesVariation (toLowerCase (rowLabel row)) variations then some row
    else findRow rest variations

/-- A record of `parseEducationTransposedFromArray`. -/
structure EducationRecord where
  year : Option Int
  elementary : Int
  highSchool : Int
  college : Int
  postgraduate : Int
  deriving DecidableEq, Repr

/-- The function `parseEducationTransposedFromArray`. -/
def parseEducationTransposedFromArray (data : List Row) :
    Except String (List EducationRecord) :=
  match data with
  | [] => Except.error "TypeError: headerRow is undefined"
  | headerRow :: body =>
    let cols := detectYearColumns headerRow
    let elementaryL := findRow body ["Elementary Level", "Elementary level"]
    let elementaryG := findRow body ["Elementary Graduate", "Elementary graduate"]
    let hsL := findRow body ["High School Level", "High school level"]
    let hsG := findRow body ["High School Graduate", "High school graduate"]
    let collegeL := findRow body ["College Level", "College level"]
    let collegeG := findRow body ["College Graduate", "College graduate"]
    let pgL := findRow body ["Post Graduate Level", "Postgraduate Level"]
    let pg := findRow body ["Post Graduate", "Postgraduate"]
    Except.ok (cols.yearCols.enum.map (fun entry =>
      let colIndex := cols.yearIndices[entry.1]?
      { year := entry.2
        elementary := cleanNumeric (rowAt? elementaryL colIndex) +
          cleanNumeric (rowAt? elementaryG colIndex)
        highSchool := cleanNumeric (rowAt? hsL colIndex) + cleanNumeric (rowAt? hsG colIndex)
        college := cleanNumeric (rowAt? collegeL colIndex) +
          cleanNumeric (rowAt? collegeG colIndex)
        postgraduate := cleanNumeric (rowAt? pgL colIndex) + cleanNumeric (rowAt? pg colIndex) }))

/-- A data row counts towards a total, as the spec words it: its trimmed,
lower-cased label is non-empty, is not "not reported" and does not contain
"no response". -/
def contributes (row : Row) : Bool :=
  decide (toLowerCase (rowLabel row) ≠ "") &&
  decide (toLowerCase (rowLabel row) ≠ "not reported") &&
  !includes (toLowerCase (rowLabel row)) "no response"

/-- The column total as the spec words it: the sum of the cleaned cells of the
contributing rows. -/
def columnTotal (body : List Row) (col : Nat) : Int :=
  ((body.filter contributes).map (fun row => cleanNumeric (Row.at row col))).sum

/-- The cleaned cell, in column `col`, of the first data row whose label is one
of the accepted spellings compared without case; 0 when there is no such row. -/
def categoryCount (body : List Row) (spellings : List String) (col : Nat) : Int :=
  match body.find? (fun row => decide (toLowerCase (rowLabel row) ∈ spellings.map toLowerCase)) with
  | none => 0
  | some row => cleanNumeric (Row.at row col)

/-! ## Joining occupation and education records -/

/-- The expression `x || 0` on a number. -/
def orZero (x : Int) : Int := if x ≠ 0 then x else 0

/-- An entry of the object `educationByYear`. -/
structure EducationValues where
  elementary : Int
  highSchool : Int
  college : Int
  postgraduate : Int
  deriving DecidableEq, Repr

/-- The object `educationByYear`: a finite map from the year used as property
key to the stored entry, `none` for a key that was never set. -/
abbrev EducationByYear := Option Int → Option EducationValues

/-- Body of `educationData.forEach`: the assignment
`educationByYear[item.year] = ...`, which overwrites an earlier entry. -/
def setEducation (educationByYear : EducationByYear) (item : EducationRecord) :
    EducationByYear :=
  fun key =>
    if key = item.year then
      some { elementary := orZero item.elementary
             highSchool := orZero item.highSchool
             college := orZero item.college
             postgraduate := orZero item.postgraduate }
    else educationByYear key

/-- A record of `mergeOccupationEducationData`. -/
structure MergedRecord where
  year : Option Int
  occupation : String
  totalOccupation : Int
  totalEducation : Int
  elementary : Int
  highSchool : Int
  college : Int
  postgraduate : Int
  deriving DecidableEq, Repr

/-- Body of `occupationData.forEach`. -/
def mergeStep (educationByYear : EducationByYear) (merged : List MergedRecord)
    (occItem : OccupationRecord) : List MergedRecord :=
  match educationByYear occItem.year with
  | some eduItem =>
    let totalEducation :=
      eduItem.elementary + eduItem.highSchool + eduItem.college + eduItem.postgraduate
    merged ++ [{ year := occItem.year
                 occupation := occItem.occupation
                 totalOccupation := occItem.count
                 totalEducation := totalEducation
                 elementary := eduItem.elementary
                 highSchool := eduItem.highSchool
                 college := eduItem.college
                 postgraduate := eduItem.postgraduate }]
  | none => merged

/-- The function `mergeOccupationEducationData`. -/
def mergeOccupationEducationData (occupationData : List OccupationRecord)
    (educationData : List EducationRecord) : List MergedRecord :=
  let educationByYear := educationData.foldl setEducation (fun _ => none)
  occupationData.foldl (mergeStep educationByYear) []

/-- The education record for a year as the spec words it: the last record of
the series with that year. -/
def lastEducationOf (educationData : List EducationRecord) (year : Option Int) :
    Option EducationRecord :=
  educationData.reverse.find? (fun e => decide (e.year = year))

/-- The merged record built from an occupation record and its education
record. -/
def joinRecords (o : OccupationRecord) (e : EducationRecord) : MergedRecord :=
  { year := o.year
    occupation := o.occupation
    totalOccupation := o.count
    totalEducation := e.elementary + e.highSchool + e.college + e.postgraduate
    elementary := e.elementary
    highSchool := e.highSchool
    college := e.college
    postgraduate := e.postgraduate }

/-! ## The forecasting helpers -/

/-- JavaScript `data.slice(start, stop)` for indices that are not negative. -/
def slice {α : Type} (data : List α) (start stop : Nat) : List α :=
  (data.take stop).drop start

/-- The pair `{ X, y }` returned by `createSequences`. -/
structure Sequences (α : Type) where
  X : List (List α)
  y : List α
  deriving DecidableEq, Repr

/-- The loop `for (let i = lookback; i < data.length; i++)` of
`createSequences`, with the loop counter `i` and the arrays built so far; the
first argument bounds the number of iterations. -/
def createSequencesLoop {α : Type} (data : List α) (lookback : Nat) :
    Nat → Nat → Sequences α → Sequences α
  | 0, _, acc => acc
  | fuel + 1, i, acc =>
    if h : i < data.length then
      createSequencesLoop data lookback fuel (i + 1)
        ⟨acc.X ++ [slice data (i - lookback) i], acc.y ++ [data[i]]⟩
    else acc

/-- The function `createSequences` of `ForecastingComponent.jsx` and of
`trainmodel.js` (the two bodies are the same). The loop runs at most
`data.length` times. -/
def createSequences {α : Type} (data : List α) (lookback : Nat) : Sequences α :=
  createSequencesLoop data lookback data.length lookback ⟨[], []⟩

/-- The function `normalizeData`. Values are rationals; the quotient by a zero
range, which JavaScript evaluates to `NaN` or an infinity, is only meaningful
here when `max` differs from `min`. -/
def normalizeData (data : List ℚ) (min max : ℚ) : List ℚ :=
  let range := max - min
  data.map (fun val => (val - min) / range)

/-- The function `denormalizeData`. -/
def denormalizeData (data : List ℚ) (min max : ℚ) : List ℚ :=
  let range := max - min
  data.map (fun val => val * range + min)

/-- A record of the historical series; a field that the record does not carry
is `none`. -/
structure HistoricalRecord where
  year : Int
  value : Option ℚ
  total : Option ℚ
  totalEmigrants : Option ℚ
  male : Option ℚ
  female : Option ℚ
  deriving DecidableEq, Repr

/-- The attributes offered by the selector of the forecasting panel. -/
inductive Attribute where
  | value | total | totalEmigrants | male | female
  deriving DecidableEq, Repr

/-- The property read `d[selectedAttribute]`. -/
def HistoricalRecord.field (d : HistoricalRecord) : Attribute → Option ℚ
  | Attribute.value => d.value
  | Attribute.total => d.total
  | Attribute.totalEmigrants => d.totalEmigrants
  | Attribute.male => d.male
  | Attribute.female => d.female

/-- JavaScript truthiness of a number that may be absent: present and not 0. -/
def truthyNumber : Option ℚ → Bool
  | none => false
  | some q => decide (q ≠ 0)

/-- The operator `a || b`. -/
def orElse (a b : Option ℚ) : Option ℚ := if truthyNumber a then a else b

/-- The expression
`d[selectedAttribute] || d.value || d.totalEmigrants || d.total || 0`. -/
def extractValue (selectedAttribute : Attribute) (d : HistoricalRecord) : ℚ :=
  (orElse (orElse (orElse (orElse (d.field selectedAttribute) d.value) d.totalEmigrants)
    d.total) (some 0)).getD 0

/-- The object stored by `setModel` after training; `predict` stands for the
fitted network applied to a window, read back as one number. -/
structure TrainedModel where
  predict : List ℚ → ℚ
  lookback : Nat
  min : ℚ
  max : ℚ
  trainYears : List Int

/-- A forecast point pushed by `generateForecasts`. -/
structure ForecastPoint where
  year : Int
  value : Int
  normalizedValue : ℚ
  deriving DecidableEq, Repr

/-- JavaScript `Math.round`: the nearest integer, halves rounded up. -/
def mathRound (x : ℚ) : Int := Rat.floor (x + 1 / 2)

/-- JavaScript `data.slice(-k)` for `k ≥ 0`: the last `k` elements, and the
whole array for `k = 0` since `-0` is the index 0. -/
def sliceLast {α : Type} (data : List α) (k : Nat) : List α :=
  if k = 0 then data else data.drop (data.length - k)

/-- The filter and sort `historicalData.filter(...).sort((a, b) => a.year - b.year)`;
the sort is stable. -/
def selectTrainData (historicalData : List HistoricalRecord) (trainStartYear trainEndYear : Int) :
    List HistoricalRecord :=
  (historicalData.filter
    (fun d => decide (d.year ≥ trainStartYear) && decide (d.year ≤ trainEndYear))).insertionSort
    (fun a b => a.year ≤ b.year)

/-- State of the forecasting loop: the sliding window and the points so far. -/
structure ForecastState where
  sequence : List ℚ
  predictions : List ForecastPoint

/-- Body of the loop `for (let i = 0; i < forecastYears; i++)`. -/
def forecastStep (m : TrainedModel) (lastTrainYear : Int) (st : ForecastState) (i : Nat) :
    ForecastState :=
  let predictedValue := m.predict st.sequence
  let denormalized := denormalizeData [predictedValue] m.min m.max
  let forecastYear := lastTrainYear + (i : Int) + 1
  { sequence := slice st.sequence 1 st.sequence.length ++ [predictedValue]
    predictions := st.predictions ++
      [{ year := forecastYear, value := mathRound (denormalized.headD 0),
         normalizedValue := predictedValue }] }

/-- The function `generateForecasts`: the forecast points it stores, or the
error message it reports. The values are rationals: when the stored `max`
equals `min` the code's normalized values are `NaN`, which the rationals do
not hold, and the values computed here are those of a quotient taken as 0; the
years and the number of the points are the code's in every case. -/
def generateForecasts (model : Option TrainedModel) (historicalData : List HistoricalRecord)
    (trainStartYear trainEndYear : Int) (selectedAttribute : Attribute) (forecastYears : Nat) :
    Except String (List ForecastPoint) :=
  match model with
  | none => Except.error "Please train the model first"
  | some m =>
    if historicalData.length = 0 then Except.error "No historical data available"
    else
      let trainData := selectTrainData historicalData trainStartYear trainEndYear
      let recentValues := (sliceLast trainData m.lookback).map (extractValue selectedAttribute)
      if recentValues.length < m.lookback then
        Except.error ("Failed to generate forecasts: Insufficient data. Need at least " ++
          toString m.lookback ++ " data points.")
      else
        let sequence := normalizeData recentValues m.min m.max
        let final := (List.range forecastYears).foldl (forecastStep m trainEndYear)
          { sequence := sequence, predictions := [] }
        Except.ok final.predictions

/-- The seven-point series of the end-to-end scenario of the spec. -/
def scenarioSeries : List HistoricalRecord :=
  [⟨2003, some 130, none, none, none, none⟩, ⟨2000, some 100, none, none, none, none⟩,
   ⟨2001, some 110, none, none, none, none⟩, ⟨2002, some 120, none, none, none, none⟩,
   ⟨2004, some 140, none, none, none, none⟩, ⟨2005, some 150, none, none, none, none⟩,
   ⟨2006, some 160, none, none, none, none⟩]

/-- A stand-in for a fitted network on the scenario series: it continues the
window by its last step. -/
def scenarioModel : TrainedModel :=
  { predict := fun w => 2 * w.getD 4 0 - w.getD 3 0
    lookback := 5
    min := 100
    max := 160
    trainYears := [2000, 2001, 2002, 2003, 2004, 2005, 2006] }

/-- The last `k` elements of a list. -/
def lastN {α : Type} (k : Nat) (l : List α) : List α := l.drop (l.length - k)

/-- The predictions of an autoregressive rollout as the spec words it: the
`k`-th prediction is `f` applied to the last `lookback` elements of the initial
window followed by the predictions before it. The list holds the first `n`. -/
def rolloutPredictions (f : List ℚ → ℚ) (lookback : Nat) (init : List ℚ) : Nat → List ℚ
  | 0 => []
  | n + 1 =>
    rolloutPredictions f lookback init n ++
      [f (lastN lookback (init ++ rolloutPredictions f lookback init n))]

/-- The window with which `generateForecasts` starts: the normalized last
`lookback` values of the training range. -/
def initialWindow (m : TrainedModel) (historicalData : List HistoricalRecord)
    (trainStartYear trainEndYear : Int) (selectedAttribute : Attribute) : List ℚ :=
  normalizeData
    ((sliceLast (selectTrainData historicalData trainStartYear trainEndYear) m.lookback).map
      (extractValue selectedAttribute)) m.min m.max

/-- The state of the forecasting loop after `k` iterations. -/
def forecastStateAfter (m : TrainedModel) (lastTrainYear : Int) (init : List ℚ) (k : Nat) :
    ForecastState :=
  (List.range k).foldl (forecastStep m lastTrainYear) { sequence := init, predictions := [] }

/-! ## Training -/

/-- The quotient `a / b` of two JavaScript numbers; `none` stands for a result
that is not a finite number (`NaN` for `0 / 0`, an infinity otherwise). -/
def jsQuotient (a b : ℚ) : Option ℚ := if b = 0 then none else some (a / b)

/-- The function `normalizeData` with the quotient of JavaScript: a value
normalized over a zero range is not a finite number. -/
def normalizeDataJs (data : List ℚ) (min max : ℚ) : List (Option ℚ) :=
  let range := max - min
  data.map (fun val => jsQuotient (val - min) range)

/-- JavaScript `Math.min(...values)` on a non-empty array (on an empty one
JavaScript gives `Infinity`; training calls it on at least seven values). -/
def mathMin (values : List ℚ) : ℚ :=
  match values with
  | [] => 0
  | v :: rest => rest.foldl min v

/-- JavaScript `Math.max(...values)` on a non-empty array. -/
def mathMax (values : List ℚ) : ℚ :=
  match values with
  | [] => 0
  | v :: rest => rest.foldl max v

/-- The errors that `trainModelOnData` reports. -/
inductive TrainError where
  /-- The message "No historical data available". -/
  | noHistoricalData
  /-- The message "Please select year range". -/
  | noYearRange
  /-- The message "Need at least 7 years of data for training. Please select a
  wider year range." -/
  | needSevenYears
  /-- The message "All values are 0. Check your data field names. ..." -/
  | allZero
  /-- The message "Insufficient data after creating sequences". -/
  | insufficientSequences
  deriving DecidableEq, Repr

/-- The year-filtered records and the values read from them. -/
structure TrainingData where
  filteredData : List HistoricalRecord
  values : List ℚ
  deriving DecidableEq, Repr

/-- The part of `trainModelOnData` that precedes normalization: the checks on
the inputs and the extraction of the values. A year that is `null` or 0 is
falsy. -/
def selectTrainingValues (historicalData : List HistoricalRecord)
    (trainStartYear trainEndYear : Option Int) (selectedAttribute : Attribute) :
    Except TrainError TrainingData :=
  if historicalData.length = 0 then Except.error TrainError.noHistoricalData
  else
    match trainStartYear, trainEndYear with
    | some startYear, some endYear =>
      if startYear = 0 ∨ endYear = 0 then Except.error TrainError.noYearRange
      else
        let filteredData := selectTrainData historicalData startYear endYear
        if filteredData.length < 7 then Except.error TrainError.needSevenYears
        else
          let values := filteredData.map (extractValue selectedAttribute)
          if values.all (fun v => decide (v = 0)) then Except.error TrainError.allZero
          else Except.ok { filteredData := filteredData, values := values }
    | _, _ => Except.error TrainError.noYearRange

/-- The guard `X.length < 5` that follows `createSequences`. -/
def tooFewSequences {α : Type} (sequences : Sequences α) : Bool :=
  decide (sequences.X.length < 5)

/-- What `trainModelOnData` hands to `fit` and stores with the fitted model. -/
structure TrainingSet where
  X : List (List (Option ℚ))
  y : List (Option ℚ)
  lookback : Nat
  min : ℚ
  max : ℚ
  trainYears : List Int
  deriving DecidableEq, Repr

/-- The function `trainModelOnData` up to the call of `fit`: an error when a
check refuses the data, otherwise the training set that reaches fitting. -/
def trainModelOnData (historicalData : List HistoricalRecord)
    (trainStartYear trainEndYear : Option Int) (selectedAttribute : Attribute) :
    Except TrainError TrainingSet :=
  match selectTrainingValues historicalData trainStartYear trainEndYear selectedAttribute with
  | Except.error err => Except.error err
  | Except.ok selected =>
    let min := mathMin selected.values
    let max := mathMax selected.values
    let normalizedValues := normalizeDataJs selected.values min max
    let lookback := 5
    let sequences := createSequences normalizedValues lookback
    if tooFewSequences sequences then Except.error TrainError.insufficientSequences
    else
      Except.ok { X := sequences.X, y := sequences.y, lookback := lookback, min := min,
                  max := max, trainYears := selected.filteredData.map (fun d => d.year) }

/-- A series of `n` yearly points from the year 2000 on, all with the same
value. -/
def constantSeries (n : Nat) (value : ℚ) : List HistoricalRecord :=
  (List.range n).map (fun (i : Nat) =>
    { year := 2000 + (i : Int), value := some value, total := none, totalEmigrants := none,
      male := none, female := none })

/-! ## Back-test accuracy -/

/-- The expression
`actual[selectedAttribute] || actual.value || actual.totalEmigrants || actual.total`. -/
def actualValueOf (selectedAttribute : Attribute) (d : HistoricalRecord) : Option ℚ :=
  orElse (orElse (orElse (d.field selectedAttribute) d.value) d.totalEmigrants) d.total

/-- An entry of the array `comparisons` of `calculateForecastAccuracy`. -/
structure Comparison where
  year : Int
  actual : ℚ
  predicted : Int
  error : ℚ
  percentError : ℚ
  deriving DecidableEq, Repr

/-- The callback of `predictions.map(...)` in `calculateForecastAccuracy`;
`none` is the `null` that `filter(Boolean)` removes. -/
def compareForecast (historicalData : List HistoricalRecord) (selectedAttribute : Attribute)
    (pred : ForecastPoint) : Option Comparison :=
  match historicalData.find? (fun d => decide (d.year = pred.year)) with
  | some actual =>
    match actualValueOf selectedAttribute actual with
    | some actualValue =>
      if actualValue ≠ 0 then
        let error := |actualValue - (pred.value : ℚ)|
        let percentError := error / actualValue * 100
        some { year := pred.year, actual := actualValue, predicted := pred.value,
               error := error, percentError := percentError }
      else none
    | none => none
  | none => none

/-- The array `comparisons` of `calculateForecastAccuracy`. -/
def forecastComparisons (historicalData : List HistoricalRecord)
    (selectedAttribute : Attribute) (predictions : List ForecastPoint) : List Comparison :=
  predictions.filterMap (compareForecast historicalData selectedAttribute)

/-- The function `calculateForecastAccuracy`: the average error `avgError` it
logs, `none` when it returns early or has nothing to compare. -/
def calculateForecastAccuracy (historicalData : List HistoricalRecord)
    (selectedAttribute : Attribute) (predictions : List ForecastPoint) : Option ℚ :=
  if predictions.length = 0 then none
  else
    let comparisons := forecastComparisons historicalData selectedAttribute predictions
    if comparisons.length > 0 then
      some (comparisons.foldl (fun sum c => sum + c.percentError) 0 / (comparisons.length : ℚ))
    else none

/-- The accuracy shown on the card of a forecast, before it is formatted by
`toFixed(1)`: the outer `none` when there is no actual value (`hasActual` is
false), the inner `none` when the quotient by the actual value is not a finite
number. -/
def cardAccuracy (historicalData : List HistoricalRecord) (selectedAttribute : Attribute)
    (forecast : ForecastPoint) : Option (Option ℚ) :=
  let actualValue : Option ℚ :=
    match historicalData.find? (fun d => decide (d.year = forecast.year)) with
    | some actualData => actualValueOf selectedAttribute actualData
    | none => none
  match actualValue with
  | none => none
  | some a =>
    some ((jsQuotient (a - (forecast.value : ℚ)) a).map (fun q => 100 - |q| * 100))

/-- Two forecast points for the scenario series: one for its last year and one
past its end. -/
def scenarioForecasts : List ForecastPoint :=
  [{ year := 2006, value := 152, normalizedValue := 1 },
   { year := 2007, value := 170, normalizedValue := 1 }]

/-! ## The flat parsers -/

/-- Upper-casing of one character, on the ASCII letters. -/
def upperChar (c : Char) : Char :=
  if 97 ≤ c.toNat ∧ c.toNat ≤ 122 then Char.ofNat (c.toNat - 32) else c

/-- JavaScript `s.toUpperCase()` on ASCII letters; other characters are kept.
The geographic parser only compares upper-cased text with "YEAR" and "TOTAL",
which no text with a character outside ASCII upper-cases to. -/
def toUpperCase (s : String) : String := ⟨s.data.map upperChar⟩

/-- JavaScript `array.findIndex(p)`; `none` is the result `-1`. -/
def findIndex {α : Type} (p : α → Bool) : List α → Option Nat
  | [] => none
  | a :: rest => if p a then some 0 else (findIndex p rest).map (fun i => i + 1)

/-- The call `parseInt(cell)`, whose argument is first turned into text. -/
def parseIntCell (c : Cell) : Option Int := parseInt c.toText

/-- The expression `parseInt(cell) || 0`. -/
def parseIntOrZero (c : Cell) : Int :=
  match parseIntCell c with
  | none => 0
  | some n => if n ≠ 0 then n else 0

/-- The lower-cased header `data[0].map(h => String(h).trim().toLowerCase())`. -/
def lowerHeaders (headerRow : Row) : List String :=
  headerRow.map (fun h => toLowerCase (trim h.toText))

/-- A record of `parseGenderDataFromArray`. -/
structure GenderRecord where
  year : Option Int
  male : Int
  female : Int
  deriving DecidableEq, Repr

/-- The function `parseGenderDataFromArray`. -/
def parseGenderDataFromArray (data : List Row) : Except String (List GenderRecord) :=
  match data with
  | [] => Except.error "TypeError: data[0] is undefined"
  | headerRow :: body =>
    let headers := lowerHeaders headerRow
    let yearIdx := findIndex (fun h => includes h "year") headers
    let maleIdx := findIndex (fun h => includes h "male" && !includes h "female") headers
    let femaleIdx := findIndex (fun h => includes h "female") headers
    match yearIdx, maleIdx, femaleIdx with
    | some yearIdx, some maleIdx, some femaleIdx =>
      Except.ok ((body.map (fun row =>
        ({ year := parseIntCell (Row.at row yearIdx)
           male := parseIntOrZero (Row.at row maleIdx)
           female := parseIntOrZero (Row.at row femaleIdx) } : GenderRecord))).filter
        (fun record => record.year.isSome))
    | _, _, _ => Except.ok []

/-- The function `parseTotalDataFromArray`; the field `total` is never `NaN`,
so the filter only tests the year. -/
def parseTotalDataFromArray (data : List Row) : Except String (List TotalRecord) :=
  match data with
  | [] => Except.error "TypeError: data[0] is undefined"
  | headerRow :: body =>
    let headers := lowerHeaders headerRow
    let yearIdx := findIndex (fun h => includes h "year") headers
    let totalIdx := findIndex (fun h => includes h "total") headers
    match yearIdx, totalIdx with
    | some yearIdx, some totalIdx =>
      Except.ok ((body.map (fun row =>
        ({ year := parseIntCell (Row.at row yearIdx)
           total := parseIntOrZero (Row.at row totalIdx) } : TotalRecord))).filter
        (fun record => record.year.isSome))
    | _, _ => Except.ok []

/-- An entry of `countryColumns`. -/
structure CountryColumn where
  index : Nat
  name : String
  deriving DecidableEq, Repr

/-- A record of `parseGeographicDataFromArray`. -/
structure GeographicRecord where
  year : Option Int
  country : String
  count : Int
  deriving DecidableEq, Repr

/-- The loop `for (let i = yearIdx + 1; i < headerRow.length; i++)` that
collects the country columns. -/
def countryColumnsOf (headerRow : Row) (yearIdx : Nat) : List CountryColumn :=
  (List.range' (yearIdx + 1) (headerRow.length - (yearIdx + 1))).foldl (fun columns i =>
    let colName := toUpperCase (trim (Row.at headerRow i).toText)
    if colName ≠ "" ∧ colName ≠ "TOTAL" then
      columns ++ [{ index := i, name := trim (Row.at headerRow i).toText }]
    else columns) []

/-- Body of the row loop of `parseGeographicDataFromArray`. -/
def geographicRowStep (yearIdx : Nat) (countryColumns : List CountryColumn)
    (results : List GeographicRecord) (row : Row) : List GeographicRecord :=
  match parseIntCell (Row.at row yearIdx) with
  | none => results
  | some year =>
    countryColumns.foldl (fun results country =>
      let count := parseIntOrZero (Row.at row country.index)
      if count > 0 then
        results ++ [{ year := some year, country := country.name, count := count }]
      else results) results

/-- The function `parseGeographicDataFromArray`. -/
def parseGeographicDataFromArray (data : List Row) : Except String (List GeographicRecord) :=
  match data with
  | [] => Except.error "TypeError: headerRow is undefined"
  | headerRow :: body =>
    match findIndex (fun h => decide (toUpperCase (trim h.toText) = "YEAR")) headerRow with
    | none => Except.ok []
    | some yearIdx =>
      Except.ok (body.foldl (geographicRowStep yearIdx (countryColumnsOf headerRow yearIdx)) [])

/-! ## The upload handler -/

/-- The array `transformedData` shown in the preview: the records of whichever
reshaper ran, or the initial empty array when none did. -/
inductive Records where
  | empty : Records
  | gender (records : List GenderRecord) : Records
  | education (records : List EducationRecord) : Records
  | age (records : List AgeRecord) : Records
  | geographic (records : List GeographicRecord) : Records
  | total (records : List TotalRecord) : Records
  | merged (records : List MergedRecord) : Records
  deriving DecidableEq, Repr

/-- The property `transformedData.length`. -/
def Records.length : Records → Nat
  | Records.empty => 0
  | Records.gender records => records.length
  | Records.education records => records.length
  | Records.age records => records.length
  | Records.geographic records => records.length
  | Records.total records => records.length
  | Records.merged records => records.length

/-- The state variables of the component `CSVUpload`; `none` is `null`. -/
structure UploadState where
  uploading : Bool
  preview : Option Records
  parseError : Option String
  selectedChartType : String
  rawData : Option (List Row)
  occupationData : Option (List OccupationRecord)
  educationDataForOccupation : Option (List EducationRecord)
  deriving DecidableEq, Repr

/-- What an upload event delivers: no file chosen, a failure reported to the
`error` callback of the CSV reader, or the rows given to its `complete`
callback. -/
inductive UploadInput where
  | noFile : UploadInput
  | readError (message : String) : UploadInput
  | parsed (data : List Row) : UploadInput
  deriving DecidableEq, Repr

/-- The test `firstRow.slice(1).some(cell => /^\d{4}$/.test(String(cell).trim()))`. -/
def hasYearHeaders (firstRow : Row) : Bool :=
  (firstRow.drop 1).any (fun cell => isFourDigits (trim cell.toText))

/-- The dispatch on `dataType` of the `complete` callback for the types other
than the occupation pair: the reshaper that runs on the rows `data`, whose
first row is `firstRow`. -/
def reshape (dataType : String) (firstRow : Row) (data : List Row) : Except String Records :=
  if dataType = "education" then
    (parseEducationTransposedFromArray data).map Records.education
  else if dataType = "age" then
    if hasYearHeaders firstRow then (parseAgeTransposedFromArray data).map Records.age
    else Except.ok Records.empty
  else if dataType = "geographic" then
    (parseGeographicDataFromArray data).map Records.geographic
  else if dataType = "total" then
    if hasYearHeaders firstRow then (parseTotalTransposedFromArray data).map Records.total
    else (parseTotalDataFromArray data).map Records.total
  else if dataType = "gender" then
    (parseGenderDataFromArray data).map Records.gender
  else Except.ok Records.empty

/-- The state after the three assignments that open `handleFileUpload`. -/
def startUpload (st : UploadState) (dataType : String) : UploadState :=
  { st with
    uploading := true
    parseError := none
    selectedChartType := if dataType = "occupation" then "occupation" else dataType }

/-- The function `handleFileUpload` together with the callback that the CSV
reader runs afterwards: the state that their assignments produce. The callback
reads `occupationData` and `educationDataForOccupation` as they were when the
handler was created. A reshaper that throws leaves the state as the assignments
made so far set it. The renders that React performs in between are the matter
of `uploadAndRender`. -/
def handleFileUpload (st : UploadState) (input : UploadInput) (dataType : String) :
    UploadState :=
  match input with
  | UploadInput.noFile => st
  | UploadInput.readError message =>
    { startUpload st dataType with
      parseError := some ("Error parsing CSV: " ++ message)
      uploading := false }
  | UploadInput.parsed [] =>
    { startUpload st dataType with
      parseError := some "No data found in CSV file."
      uploading := false }
  | UploadInput.parsed (firstRow :: rest) =>
    let stored := { startUpload st dataType with rawData := some (firstRow :: rest) }
    if dataType = "occupation-occupation" then
      match parseOccupationTransposedFromArray (firstRow :: rest) with
      | Except.error _ => stored
      | Except.ok parsed =>
        match st.educationDataForOccupation with
        | some educationData =>
          { stored with
            occupationData := some parsed
            preview := some (Records.merged (mergeOccupationEducationData parsed educationData))
            uploading := false }
        | none =>
          { stored with
            occupationData := some parsed
            parseError := some
              "Occupation data uploaded. Please also upload Education data for the occupation chart."
            uploading := false }
    else if dataType = "occupation-education" then
      match parseEducationTransposedFromArray (firstRow :: rest) with
      | Except.error _ => stored
      | Except.ok parsed =>
        match st.occupationData with
        | some occupationData =>
          { stored with
            educationDataForOccupation := some parsed
            preview := some (Records.merged (mergeOccupationEducationData occupationData parsed))
            uploading := false }
        | none =>
          { stored with
            educationDataForOccupation := some parsed
            parseError := some
              "Education data uploaded. Please also upload Occupation data for the occupation chart."
            uploading := false }
    else
      match reshape dataType firstRow (firstRow :: rest) with
      | Except.error _ => stored
      | Except.ok transformedData =>
        if transformedData.length = 0 then
          { stored with
            parseError := some "No valid processed data. Please check your CSV format."
            uploading := false }
        else { stored with preview := some transformedData, uploading := false }

/-- An upload state after a successful gender upload. -/
def genderUploaded : UploadState :=
  { uploading := false
    preview := some (Records.gender [{ year := some 1981, male := 10, female := 20 }])
    parseError := none
    selectedChartType := "gender"
    rawData := some [[Cell.str "Year", Cell.str "Male", Cell.str "Female"],
      [Cell.str "1981", Cell.str "10", Cell.str "20"]]
    occupationData := none
    educationDataForOccupation := none }

/-! ## The document id of a geographic record -/

/-- The replacement `s.replace(/\s+/g, '_')` on the characters of `s`: every
maximal run of white space becomes one underscore. The flag tells that the
previous character was white space. -/
def replaceWhitespaceRuns (inRun : Bool) : List Char → List Char
  | [] => []
  | c :: rest =>
    if isWhiteSpace c then
      if inRun then replaceWhitespaceRuns true rest
      else '_' :: replaceWhitespaceRuns true rest
    else c :: replaceWhitespaceRuns false rest

/-- The text of a number inside a template literal: `NaN` or its decimal
notation. -/
def numberText (year : Option Int) : String :=
  match year with
  | none => "NaN"
  | some n => toString n

/-- The country part of the document id. -/
def countryKey (country : String) : String := ⟨replaceWhitespaceRuns false country.data⟩

/-- The document id that `addEmigrantByGeography` builds,
the template literal of `data.year`, an underscore and
`data.country.replace(/\s+/g, '_')`. -/
def geographyDocId (data : GeographicRecord) : String :=
  numberText data.year ++ "_" ++ countryKey data.country

/-! ## The training script `trainmodel.js` -/

/-- The field `scaler` of `EmigrantForecaster`. -/
structure Scaler where
  min : ℚ
  max : ℚ
  range : ℚ
  deriving DecidableEq, Repr

/-- The method `EmigrantForecaster.normalize`: the scaler it stores and the
normalized values it returns. -/
def EmigrantForecaster.normalize (values : List ℚ) : Scaler × List (Option ℚ) :=
  let scaler : Scaler :=
    { min := mathMin values, max := mathMax values, range := mathMax values - mathMin values }
  (scaler, values.map (fun v => jsQuotient (v - scaler.min) scaler.range))

/-- The method `EmigrantForecaster.denormalize` for a given scaler. -/
def EmigrantForecaster.denormalize (scaler : Scaler) (normalizedValues : List ℚ) : List ℚ :=
  normalizedValues.map (fun v => v * scaler.range + scaler.min)

/-- A point `{ year, value }` of the series of `public/Models/trainModel.js`. -/
structure SeriesPoint where
  year : Int
  value : ℚ
  deriving DecidableEq, Repr

/-- A point `{ year, normalizedValue }` of `public/Models/trainModel.js`. -/
structure NormalizedPoint where
  year : Int
  normalizedValue : Option ℚ
  deriving DecidableEq, Repr

/-- The result `{ normalized, min, max }` of `normalizeData` in
`public/Models/trainModel.js`. -/
structure NormalizedSeries where
  normalized : List NormalizedPoint
  min : ℚ
  max : ℚ
  deriving DecidableEq, Repr

/-- The function `normalizeData` of `public/Models/trainModel.js` (the same
body is in `ModelTrainer.jsx`). -/
def ModelTrainer.normalizeData (data : List SeriesPoint) : NormalizedSeries :=
  let values := data.map (fun d => d.value)
  let min := mathMin values
  let max := mathMax values
  { normalized := data.map (fun d =>
      { year := d.year, normalizedValue := jsQuotient (d.value - min) (max - min) })
    min := min
    max := max }

/-- The numeric settings of the object `CONFIG` of `trainmodel.js`. -/
structure Config where
  lookback : Nat
  trainTestSplit : ℚ
  epochs : Nat
  batchSize : Nat
  patience : Nat
  deriving DecidableEq, Repr

/-- The constant `CONFIG`. -/
def CONFIG : Config :=
  { lookback := 5, trainTestSplit := 4 / 5, epochs := 100, batchSize := 16, patience := 20 }

/-- The index that `array.slice` derives from an integer argument: a negative
argument counts from the end, and the result is kept within the array. -/
def sliceIndex (length : Nat) (k : Int) : Nat :=
  if k < 0 then (max ((length : Int) + k) 0).toNat else (min k (length : Int)).toNat

/-- JavaScript `array.slice(start, stop)` with integer arguments; `stop` is
`none` when the second argument is left out. -/
def jsSlice {α : Type} (data : List α) (start : Int) (stop : Option Int) : List α :=
  let first := sliceIndex data.length start
  let last :=
    match stop with
    | none => data.length
    | some k => sliceIndex data.length k
  (data.take last).drop first

/-- The four arrays into which `EmigrantForecaster.train` splits the windows
and the targets. -/
structure TrainValSplit (α : Type) where
  X_train_data : List (List α)
  X_val_data : List (List α)
  y_train_data : List α
  y_val_data : List α
  deriving DecidableEq, Repr

/-- The index `Math.floor(X.length * this.config.trainTestSplit)`. -/
def splitIdx (config : Config) (windows : Nat) : Int :=
  Rat.floor ((windows : ℚ) * config.trainTestSplit)

/-- The split of `EmigrantForecaster.train`: four calls of `slice` at
`splitIdx`. -/
def EmigrantForecaster.splitTrainVal {α : Type} (config : Config) (sequences : Sequences α) :
    TrainValSplit α :=
  let k := splitIdx config sequences.X.length
  { X_train_data := jsSlice sequences.X 0 (some k)
    X_val_data := jsSlice sequences.X k none
    y_train_data := jsSlice sequences.y 0 (some k)
    y_val_data := jsSlice sequences.y k none }

/-- The first number that is present and not 0 in a list of candidates, and 0
when there is none: the value of a chain `a || b || ... || 0` as the spec words
it. -/
def firstNonZero (candidates : List (Option ℚ)) : ℚ :=
  ((candidates.filterMap id).find? (fun q => decide (q ≠ 0))).getD 0

/-- A record without a `value` field that carries a total of 5 and a
`totalEmigrants` of 7. -/
def twoTotalsRecord : HistoricalRecord :=
  { year := 2000, value := none, total := some 5, totalEmigrants := some 7, male := none,
    female := none }

/-- The leading, optionally signed, integer prefix of a text as the spec words
it: an optional sign followed by the longest run of decimal digits, `none`
when there is no digit. -/
def signedIntegerPrefix (s : String) : Option Int :=
  let body := stripSign s.data
  let ds := body.2.takeWhile isDigit
  if ds.isEmpty then none
  else
    some (if body.1 then -((digitsToNat 10 digitValue ds : Nat) : Int)
      else ((digitsToNat 10 digitValue ds : Nat) : Int))

/-- The prefix reading with 0 for a text without integer prefix. -/
def prefixOrZero (s : String) : Int :=
  match signedIntegerPrefix s with
  | none => 0
  | some n => n

/-- The text of a cell without its leading white space. -/
def skipWhiteSpace (s : String) : String := ⟨s.data.dropWhile isWhiteSpace⟩

/-! ## Confirming an upload -/

/-- The initial values of the state variables of `CSVUpload`. -/
def initialUploadState : UploadState :=
  { uploading := false
    preview := none
    parseError := none
    selectedChartType := "gender"
    rawData := none
    occupationData := none
    educationDataForOccupation := none }

/-- The function `handleConfirmUpload`: the arguments with which it calls
`onUploadComplete`, `none` when there is no preview. -/
def handleConfirmUpload (st : UploadState) : Option (Records × String) :=
  match st.preview with
  | some preview => some (preview, st.selectedChartType)
  | none => none

/-- The chart types for which `App.handleCSVUpload` saves the data. -/
def isPersistedChartType (chartType : String) : Bool :=
  decide (chartType = "gender") || decide (chartType = "education") ||
  decide (chartType = "total") || decide (chartType = "age") ||
  decide (chartType = "geographic") ||
  (decide (chartType = "occupation") || decide (chartType = "occupation-education"))

/-- The views among which `App` chooses for a chart. -/
inductive ChartView where
  | genderChart | educationChart | occupationScatterPlot | totalChart | ageHistogram
  | geographicMap | forecasting | unknownChartType
  deriving DecidableEq, Repr

/-- The chain of conditions on `chart.type` with which `App` renders a chart. -/
def chartViewOf (chartType : String) : ChartView :=
  if chartType = "gender" then ChartView.genderChart
  else if chartType = "education" then ChartView.educationChart
  else if chartType = "occupation" ∨ chartType = "occupation-education" then
    ChartView.occupationScatterPlot
  else if chartType = "total" then ChartView.totalChart
  else if chartType = "age" then ChartView.ageHistogram
  else if chartType = "geographic" then ChartView.geographicMap
  else if chartType = "forecast" then ChartView.forecasting
  else ChartView.unknownChartType

/-- A small occupation table in the transposed layout. -/
def occupationFile : List Row :=
  [[Cell.str "Occupation", Cell.str "2000", Cell.str "2001"],
   [Cell.str "Nurse", Cell.str "5", Cell.str "6"]]

/-- A small education table in the transposed layout. -/
def educationFile : List Row :=
  [[Cell.str "Level", Cell.str "2000", Cell.str "2001"],
   [Cell.str "Elementary Level", Cell.str "1", Cell.str "2"],
   [Cell.str "College Graduate", Cell.str "3", Cell.str "4"]]

/-- The pair `{ sequences, targets }` returned by the `createSequences` of
`public/Models/trainModel.js`. -/
structure ForwardSequences where
  sequences : List (List (Option ℚ))
  targets : List (Option ℚ)
  deriving DecidableEq, Repr

/-- The loop `for (let i = 0; i < data.length - sequenceLength; i++)` of the
`createSequences` of `public/Models/trainModel.js`, with the loop counter `i`
and the arrays built so far; the first argument bounds the number of
iterations. The bound of the loop is a difference that may be negative. -/
def ModelTrainer.createSequencesLoop (data : List NormalizedPoint) (sequenceLength : Nat) :
    Nat → Nat → ForwardSequences → ForwardSequences
  | 0, _, acc => acc
  | fuel + 1, i, acc =>
    if h : (i : Int) < (data.length : Int) - (sequenceLength : Int) then
      let sequence := (slice data i (i + sequenceLength)).map (fun d => d.normalizedValue)
      let target := (data.get ⟨i + sequenceLength, by omega⟩).normalizedValue
      ModelTrainer.createSequencesLoop data sequenceLength fuel (i + 1)
        ⟨acc.sequences ++ [sequence], acc.targets ++ [target]⟩
    else acc

/-- The function `createSequences` of `public/Models/trainModel.js` (the same
body is in `ModelTrainer.jsx`). The loop runs at most `data.length` times. -/
def ModelTrainer.createSequences (data : List NormalizedPoint) (sequenceLength : Nat) :
    ForwardSequences :=
  ModelTrainer.createSequencesLoop data sequenceLength data.length 0 ⟨[], []⟩

/-! ## Training with early stopping -/

/-- The four numbers that `trainModel` reads from one call of `model.fit` with
`epochs: 1`. -/
structure EpochResult where
  loss : ℚ
  valLoss : ℚ
  mae : ℚ
  valMae : ℚ
  deriving DecidableEq, Repr

/-- The object `history` of `trainModel`. -/
structure History where
  loss : List ℚ
  valLoss : List ℚ
  mae : List ℚ
  valMae : List ℚ
  deriving DecidableEq, Repr

/-- The four `push` calls of one epoch. -/
def History.push (history : History) (h : EpochResult) : History :=
  { loss := history.loss ++ [h.loss]
    valLoss := history.valLoss ++ [h.valLoss]
    mae := history.mae ++ [h.mae]
    valMae := history.valMae ++ [h.valMae] }

/-- The variables that the loop of `trainModel` updates; `bestValLoss` is
`none` while it is still `Infinity`. -/
structure TrainingState where
  bestValLoss : Option ℚ
  patienceCount : Nat
  history : History
  deriving DecidableEq, Repr

/-- The test `valLoss < bestValLoss`. -/
def belowBest (valLoss : ℚ) : Option ℚ → Bool
  | none => true
  | some bestValLoss => decide (valLoss < bestValLoss)

/-- The loop `for (let epoch = 0; epoch < this.config.epochs; epoch++)` of
`trainModel`, with the loop counter and the variables it updates; `fit epoch`
is what `model.fit` reports at that epoch, and the first argument bounds the
number of iterations. -/
def EmigrantForecaster.trainModelLoop (config : Config) (fit : Nat → EpochResult) :
    Nat → Nat → TrainingState → TrainingState
  | 0, _, st => st
  | fuel + 1, epoch, st =>
    if epoch < config.epochs then
      let h := fit epoch
      let history := st.history.push h
      if belowBest h.valLoss st.bestValLoss then
        EmigrantForecaster.trainModelLoop config fit fuel (epoch + 1)
          { bestValLoss := some h.valLoss, patienceCount := 0, history := history }
      else
        let patienceCount := st.patienceCount + 1
        if patienceCount ≥ config.patience then
          { bestValLoss := st.bestValLoss, patienceCount := patienceCount, history := history }
        else
          EmigrantForecaster.trainModelLoop config fit fuel (epoch + 1)
            { bestValLoss := st.bestValLoss, patienceCount := patienceCount, history := history }
    else st

/-- The training part of `EmigrantForecaster.trainModel`: the loop run from
`bestValLoss = Infinity`, `patienceCount = 0` and an empty history. The loop
runs at most `config.epochs` times. The evaluation that follows the loop is
not part of this definition. -/
def EmigrantForecaster.trainModel (config : Config) (fit : Nat → EpochResult) : TrainingState :=
  EmigrantForecaster.trainModelLoop config fit config.epochs 0
    { bestValLoss := none, patienceCount := 0, history := ⟨[], [], [], []⟩ }

/-- The number of epochs that `trainModel` runs: the length of the list of
validation losses in its history. -/
def epochsRun (config : Config) (fit : Nat → EpochResult) : Nat :=
  (EmigrantForecaster.trainModel config fit).history.valLoss.length

/-- The history with one entry for each of the first `n` epochs. -/
def historyOf (fit : Nat → EpochResult) (n : Nat) : History :=
  { loss := (List.range n).map (fun e => (fit e).loss)
    valLoss := (List.range n).map (fun e => (fit e).valLoss)
    mae := (List.range n).map (fun e => (fit e).mae)
    valMae := (List.range n).map (fun e => (fit e).valMae) }

/-- The validation loss of epoch `j` falls strictly below the best value seen
so far: it is strictly below the validation loss of every earlier epoch. -/
def improves (valLoss : Nat → ℚ) (j : Nat) : Bool :=
  (List.range j).all (fun i => decide (valLoss j < valLoss i))

/-- The number of consecutive epochs, the last of them the last of the first
`e` epochs, at which the validation loss did not fall strictly below the best
value seen so far. -/
def staleCount (valLoss : Nat → ℚ) : Nat → Nat
  | 0 => 0
  | e + 1 => if improves valLoss e then 0 else staleCount valLoss e + 1

/-! ## Rendering the preview -/

/-- Whether the rows of the preview have the fields that the preview table
reads with `.toLocaleString()` under the chart type `selectedChartType`: a
field that is missing is `undefined`, and the call throws. -/
def rowFieldsPresent (selectedChartType : String) (preview : Records) : Bool :=
  if selectedChartType = "geographic" ∨ selectedChartType = "age" then
    match preview with
    | Records.age _ => true
    | Records.geographic _ => true
    | _ => false
  else if selectedChartType = "occupation" then
    match preview with
    | Records.merged _ => true
    | _ => false
  else if selectedChartType = "gender" then
    match preview with
    | Records.gender _ => true
    | _ => false
  else if selectedChartType = "total" then
    match preview with
    | Records.total _ => true
    | _ => false
  else
    match preview with
    | Records.education _ => true
    | Records.merged _ => true
    | _ => false

/-- Whether the body of `CSVUpload` renders in the state `st`, `false` when it
throws. Without a preview nothing of it is read; with one, the table maps over
its first ten rows. -/
def previewRenders (st : UploadState) : Bool :=
  match st.preview with
  | none => true
  | some preview => preview.length = 0 || rowFieldsPresent st.selectedChartType preview

/-- An upload with the renders around it: the component is rendered after the
assignments that open `handleFileUpload`, before the CSV reader calls back,
and again after the callback. A render that throws unmounts the component,
for which `none` stands. -/
def uploadAndRender (st : UploadState) (input : UploadInput) (dataType : String) :
    Option UploadState :=
  match input with
  | UploadInput.noFile => some st
  | _ =>
    if previewRenders (startUpload st dataType) then
      if previewRenders (handleFileUpload st input dataType) then
        some (handleFileUpload st input dataType)
      else none
    else none

/-! ## Facts about the text primitives -/

theorem isWhiteSpace_of_isDigit {c : Char} (h : isDigit c = true) : isWhiteSpace c = false := by
  simp only [isDigit, Bool.and_eq_true, decide_eq_true_eq] at h
  simp only [isWhiteSpace, Bool.or_eq_false_iff, Bool.and_eq_false_imp, decide_eq_false_iff_not,
    decide_eq_true_eq]
  omega

theorem digitsToNat_eq_ofDigits (ds : List Char) :
    digitsToNat 10 digitValue ds = Nat.ofDigits 10 (ds.reverse.map digitValue) := by
  induction ds using List.reverseRecOn with
  | nil => simp [digitsToNat]
  | append_singleton l c ih =>
    unfold digitsToNat at ih ⊢
    rw [List.foldl_append, List.reverse_append]
    simp only [List.foldl_cons, List.foldl_nil, List.reverse_cons, List.reverse_nil,
      List.nil_append, List.singleton_append, List.map_cons, Nat.ofDigits_cons]
    rw [ih]
    omega

theorem stripSign_of_digits {c : Char} {r : List Char} (h : isDigit c = true) :
    stripSign (c :: r) = (false, c :: r) := by
  have h1 : c ≠ '-' := by rintro rfl; revert h; decide
  have h2 : c ≠ '+' := by rintro rfl; revert h; decide
  simp [stripSign, h1, h2]

theorem stripHexPrefix_of_digits {l : List Char} (h : l.all isDigit = true) :
    stripHexPrefix l = none := by
  match l, h with
  | [], _ => rfl
  | [_], _ => rfl
  | a :: b :: r, h =>
    have hb : isDigit b = true := by simp [List.all_cons] at h; exact h.2.1
    have h1 : b ≠ 'x' := by rintro rfl; revert hb; decide
    have h2 : b ≠ 'X' := by rintro rfl; revert hb; decide
    simp [stripHexPrefix, h1, h2]

/-- On a non-empty string of digits `parseInt` reads the whole string in
base 10. -/
theorem parseInt_digits (l : List Char) (hne : l ≠ []) (h : l.all isDigit = true) :
    parseInt ⟨l⟩ = some ((decimalValue ⟨l⟩ : Nat) : Int) := by
  obtain ⟨c, r, rfl⟩ := List.exists_cons_of_ne_nil hne
  have hc : isDigit c = true := by simp [List.all_cons] at h; exact h.1
  have hall : ∀ x ∈ c :: r, isDigit x = true := by simpa [List.all_eq_true] using h
  have htake : (c :: r).takeWhile isDigit = c :: r := List.takeWhile_eq_self_iff.mpr hall
  have hdrop : (c :: r).dropWhile isWhiteSpace = c :: r := by
    simp [List.dropWhile_cons, isWhiteSpace_of_isDigit hc]
  have hsign : stripSign (c :: r) = (false, c :: r) := stripSign_of_digits hc
  have hhex : stripHexPrefix (c :: r) = none := stripHexPrefix_of_digits h
  simp only [parseInt, hdrop, hsign, hhex, htake, decimalValue, digitsToNat_eq_ofDigits]
  simp

/-! ## Facts about doubles -/

theorem div_two_pow_succ (n k : Nat) : n / 2 ^ (k + 1) = n / 2 / 2 ^ k := by
  rw [pow_succ, Nat.mul_comm, Nat.div_div_eq_div_mul]

theorem doubleShift_spec : ∀ (fuel n : Nat), n < 2 ^ (53 + fuel) →
    n / 2 ^ doubleShift fuel n < 2 ^ 53 ∧
    (0 < doubleShift fuel n → 2 ^ 53 ≤ n / 2 ^ (doubleShift fuel n - 1)) := by
  intro fuel
  induction fuel with
  | zero =>
    intro n h
    simp only [doubleShift, pow_zero, Nat.div_one]
    exact ⟨h, fun h0 => absurd h0 (Nat.lt_irrefl 0)⟩
  | succ fuel ih =>
    intro n h
    unfold doubleShift
    by_cases hlt : n < 2 ^ 53
    · rw [if_pos hlt]
      simp only [pow_zero, Nat.div_one]
      exact ⟨hlt, fun h0 => absurd h0 (Nat.lt_irrefl 0)⟩
    · rw [if_neg hlt]
      have hhalf : n / 2 < 2 ^ (53 + fuel) := by
        apply Nat.div_lt_of_lt_mul
        have hpow : 2 ^ (53 + (fuel + 1)) = 2 * 2 ^ (53 + fuel) := by ring
        rw [← hpow]
        exact h
      obtain ⟨h1, h2⟩ := ih (n / 2) hhalf
      refine ⟨by rw [div_two_pow_succ]; exact h1, fun _ => ?_⟩
      simp only [Nat.add_sub_cancel]
      by_cases h0 : doubleShift fuel (n / 2) = 0
      · rw [h0, pow_zero, Nat.div_one]
        exact Nat.le_of_not_lt hlt
      · obtain ⟨k, hk⟩ := Nat.exists_eq_succ_of_ne_zero h0
        have h3 := h2 (Nat.pos_of_ne_zero h0)
        rw [hk] at h3 ⊢
        rw [div_two_pow_succ]
        simpa using h3

theorem lt_two_pow_add (n : Nat) : n < 2 ^ (53 + n) :=
  lt_of_lt_of_le (Nat.lt_two_pow n) (Nat.pow_le_pow_right (by norm_num) (by omega))

/-- The shift of `n` is the only `e` that leaves fewer than 54 bits and not
fewer than 53 when it is positive. -/
theorem doubleShift_unique (n e : Nat) (h1 : n / 2 ^ e < 2 ^ 53)
    (h2 : 0 < e → 2 ^ 53 ≤ n / 2 ^ (e - 1)) : doubleShift n n = e := by
  obtain ⟨s1, s2⟩ := doubleShift_spec n n (lt_two_pow_add n)
  have hanti : ∀ a b : Nat, a ≤ b → n / 2 ^ b ≤ n / 2 ^ a := fun a b hab =>
    Nat.div_le_div_left (Nat.pow_le_pow_right (by norm_num) hab) (by positivity)
  rcases Nat.lt_trichotomy (doubleShift n n) e with hlt | heq | hgt
  · have h3 := h2 (by omega)
    have h4 := hanti (doubleShift n n) (e - 1) (by omega)
    omega
  · exact heq
  · have h3 := s2 (by omega)
    have h4 := hanti e (doubleShift n n - 1) (by omega)
    omega

theorem nearestDouble_of_dvd (n : Nat) (h : 2 ^ doubleShift n n ∣ n) : nearestDouble n = n := by
  unfold nearestDouble
  have hr : n % 2 ^ doubleShift n n = 0 := Nat.mod_eq_zero_of_dvd h
  have hpos : 0 < 2 ^ doubleShift n n := by positivity
  simp only [hr, Nat.mul_zero, hpos, true_or, if_true]
  exact Nat.div_mul_cancel h

theorem nearestDouble_of_le (n : Nat) (h : n ≤ 2 ^ 53) : nearestDouble n = n := by
  apply nearestDouble_of_dvd
  rcases Nat.lt_or_eq_of_le h with hlt | heq
  · rw [doubleShift_unique n 0 (by simpa using hlt) (fun h0 => absurd h0 (Nat.lt_irrefl 0))]
    simp
  · rw [doubleShift_unique n 1 (by rw [heq]; norm_num) (fun _ => by rw [heq]; norm_num)]
    rw [heq]
    norm_num

theorem nearestDouble_idempotent (n : Nat) : nearestDouble (nearestDouble n) = nearestDouble n := by
  obtain ⟨s1, s2⟩ := doubleShift_spec n n (lt_two_pow_add n)
  rcases Nat.eq_zero_or_pos (doubleShift n n) with h0 | hpos
  · rw [h0, pow_zero, Nat.div_one] at s1
    rw [nearestDouble_of_le n (Nat.le_of_lt s1), nearestDouble_of_le n (Nat.le_of_lt s1)]
  · obtain ⟨e, he⟩ := Nat.exists_eq_succ_of_ne_zero (Nat.ne_of_gt hpos)
    have s3 := s2 hpos
    rw [he] at s1 s3
    simp only [Nat.succ_eq_add_one, Nat.add_sub_cancel] at s1 s3
    have hq : n / 2 ^ (e + 1) = n / 2 ^ e / 2 := by
      rw [pow_succ, Nat.div_div_eq_div_mul]
    have hq52 : 2 ^ 52 ≤ n / 2 ^ (e + 1) := by
      rw [hq]
      omega
    have key : ∀ q, 2 ^ 52 ≤ q → q ≤ 2 ^ 53 →
        nearestDouble (q * 2 ^ (e + 1)) = q * 2 ^ (e + 1) := by
      intro q hlo hhi
      apply nearestDouble_of_dvd
      have hdiv1 : q * 2 ^ (e + 1) / 2 ^ (e + 1) = q := Nat.mul_div_cancel _ (by positivity)
      have hdiv0 : q * 2 ^ (e + 1) / 2 ^ e = q * 2 := by
        rw [pow_succ, ← Nat.mul_assoc, Nat.mul_right_comm, Nat.mul_div_cancel _ (by positivity)]
      have hdiv2 : q * 2 ^ (e + 1) / 2 ^ (e + 2) = q / 2 := by
        rw [pow_succ 2 (e + 1), ← Nat.div_div_eq_div_mul, hdiv1]
      rcases Nat.lt_or_eq_of_le hhi with hlt | heq
      · rw [doubleShift_unique _ (e + 1) (by rw [hdiv1]; exact hlt)
          (fun _ => by simp only [Nat.add_sub_cancel]; rw [hdiv0]; omega)]
        exact Nat.dvd_mul_left _ _
      · rw [doubleShift_unique _ (e + 2) (by rw [hdiv2, heq]; norm_num)
          (fun _ => by
            have : e + 2 - 1 = e + 1 := by omega
            rw [this, hdiv1, heq])]
        rw [heq, pow_succ 2 (e + 1)]
        exact ⟨2 ^ 52, by ring⟩
    have hshape : nearestDouble n = n / 2 ^ (e + 1) * 2 ^ (e + 1) ∨
        nearestDouble n = (n / 2 ^ (e + 1) + 1) * 2 ^ (e + 1) := by
      unfold nearestDouble
      simp only [he, Nat.succ_eq_add_one]
      split
      · exact Or.inl rfl
      · exact Or.inr rfl
    rcases hshape with h | h
    · rw [h]
      exact key _ hq52 (Nat.le_of_lt s1)
    · rw [h]
      exact key _ (by omega) (by omega)

/-! ## Claim C1: `cleanNumeric` -/

theorem toNumber_natCast (n : Nat) : toNumber (n : Int) = ((nearestDouble n : Nat) : Int) := by
  unfold toNumber
  rw [if_neg (by omega), Int.natAbs_ofNat]

/-- In every case `cleanNumeric` is the double nearest to the base-10 value of
the digits of the cell's text, which is 0 when there is no digit. -/
theorem cleanNumeric_eq (c : Cell) :
    cleanNumeric c = ((nearestDouble (decimalValue (stripNonDigits c.toText)) : Nat) : Int) := by
  by_cases hd : (stripNonDigits c.toText).data = []
  · have hs : stripNonDigits c.toText = "" := String.ext hd
    have hzero : cleanNumeric c = 0 := by
      unfold cleanNumeric
      split
      · rfl
      · simp [hs]
    rw [hzero, hs]
    decide
  · have hs : stripNonDigits c.toText ≠ "" := fun h => hd (by rw [h])
    have hall : (stripNonDigits c.toText).data.all isDigit = true := by
      simp [stripNonDigits, List.all_eq_true]
    have hp := parseInt_digits (stripNonDigits c.toText).data hd hall
    have hguard : ¬ (c = Cell.undefined ∨ c = Cell.null ∨ c = Cell.str "") := by
      rintro (rfl | rfl | rfl) <;> exact hd (by decide)
    unfold cleanNumeric
    rw [if_neg hguard]
    simp only [hs, if_false]
    rw [hp]
    exact toNumber_natCast _

/-- Counterexample to claim C1 as stated: the digits of the cell
"9007199254740993" have the base-10 value `2 ^ 53 + 1`, and `cleanNumeric`
returns `2 ^ 53`, the double nearest to it. -/
theorem cleanNumeric_rounds_to_double :
    (stripNonDigits (Cell.str "9007199254740993").toText) = "9007199254740993" ∧
    decimalValue "9007199254740993" = 2 ^ 53 + 1 ∧
    cleanNumeric (Cell.str "9007199254740993") = 2 ^ 53 ∧
    cleanNumeric (Cell.str "9007199254740993") = 9007199254740992 := by
  refine ⟨by decide, ?_, by decide, by decide⟩
  rw [decimalValue, ← digitsToNat_eq_ofDigits]
  decide

/-- Claim C1, amended. `cleanNumeric` drops every character of the cell's text
that is not a digit; it returns 0 when no digit is left and when the cell is
`undefined`, `null` or the empty string; when the base-10 value of the
remaining digits is at most `2 ^ 53` it returns that value, and beyond, within
the range of the doubles, the double nearest to that value. In particular
"1,234" gives 1234, "" gives 0, "N/A" gives 0 and "(500)" gives 500. -/
theorem cleanNumeric_spec :
    (∀ c : Cell,
      (stripNonDigits c.toText).data = c.toText.data.filter isDigit ∧
      ((stripNonDigits c.toText).data = [] → cleanNumeric c = 0) ∧
      (decimalValue (stripNonDigits c.toText) ≤ 2 ^ 53 →
        cleanNumeric c = ((decimalValue (stripNonDigits c.toText) : Nat) : Int)) ∧
      (decimalValue (stripNonDigits c.toText) < 2 ^ 1024 - 2 ^ 970 →
        cleanNumeric c =
          ((nearestDouble (decimalValue (stripNonDigits c.toText)) : Nat) : Int))) ∧
    cleanNumeric Cell.undefined = 0 ∧ cleanNumeric Cell.null = 0 ∧
    cleanNumeric (Cell.str "") = 0 ∧
    cleanNumeric (Cell.str "1,234") = 1234 ∧ cleanNumeric (Cell.str "N/A") = 0 ∧
    cleanNumeric (Cell.str "(500)") = 500 := by
  refine ⟨fun c => ⟨rfl, ?_, ?_, fun _ => cleanNumeric_eq c⟩,
    by decide, by decide, by decide, by decide, by decide, by decide⟩
  · intro hd
    have hs : stripNonDigits c.toText = "" := String.ext hd
    rw [cleanNumeric_eq, hs]
    decide
  · intro hle
    rw [cleanNumeric_eq, nearestDouble_of_le _ hle]

/-- The theorem `cleanNumeric_spec` at the cells "1,234", "N/A" and
"9007199254740993". -/
theorem cleanNumeric_spec_witness :
    (decimalValue (stripNonDigits (Cell.str "1,234").toText) ≤ 2 ^ 53 ∧
      cleanNumeric (Cell.str "1,234") =
        ((decimalValue (stripNonDigits (Cell.str "1,234").toText) : Nat) : Int)) ∧
    ((stripNonDigits (Cell.str "N/A").toText).data = [] ∧ cleanNumeric (Cell.str "N/A") = 0) ∧
    (decimalValue (stripNonDigits (Cell.str "9007199254740993").toText) < 2 ^ 1024 - 2 ^ 970 ∧
      cleanNumeric (Cell.str "9007199254740993") =
        ((nearestDouble (decimalValue (stripNonDigits (Cell.str "9007199254740993").toText)) :
          Nat) : Int)) := by
  have h1 : decimalValue (stripNonDigits (Cell.str "1,234").toText) = 1234 := by
    rw [decimalValue, ← digitsToNat_eq_ofDigits]
    decide
  have h2 : decimalValue (stripNonDigits (Cell.str "9007199254740993").toText) =
      9007199254740993 := by
    rw [decimalValue, ← digitsToNat_eq_ofDigits]
    decide
  have hle : decimalValue (stripNonDigits (Cell.str "1,234").toText) ≤ 2 ^ 53 := by
    rw [h1]
    norm_num
  have hlt : decimalValue (stripNonDigits (Cell.str "9007199254740993").toText) <
      2 ^ 1024 - 2 ^ 970 := by
    rw [h2]
    norm_num
  exact ⟨⟨hle, (cleanNumeric_spec.1 (Cell.str "1,234")).2.2.1 hle⟩,
    ⟨by decide, (cleanNumeric_spec.1 (Cell.str "N/A")).2.1 (by decide)⟩,
    ⟨hlt, (cleanNumeric_spec.1 (Cell.str "9007199254740993")).2.2.2 hlt⟩⟩

/-! ## Claim C2: the year-column scan -/

theorem detectYearColumns_append (l : Row) (c : Cell) :
    detectYearColumns (l ++ [c]) = yearScanStep (detectYearColumns l) (l.length, c) := by
  simp [detectYearColumns, List.enum_append, List.foldl_append, List.enumFrom]

theorem isYearColumn_append_of_lt (l : Row) (c : Cell) {i : Nat} (h : i < l.length) :
    isYearColumn (l ++ [c]) i = isYearColumn l i := by
  simp only [isYearColumn, Row.at]
  rw [List.getD_append _ _ _ _ h]

/-- The scan keeps exactly the year columns, in column order, each with the
number `parseInt` reads from its trimmed text. -/
theorem detectYearColumns_eq (headerRow : Row) :
    detectYearColumns headerRow =
      ⟨((List.range headerRow.length).filter (isYearColumn headerRow)).map
          (fun i => parseInt (trim (Row.at headerRow i).toText)),
        (List.range headerRow.length).filter (isYearColumn headerRow)⟩ := by
  induction headerRow using List.reverseRecOn with
  | nil => rfl
  | append_singleton l c ih =>
    have hfilter : (List.range l.length).filter (isYearColumn (l ++ [c])) =
        (List.range l.length).filter (isYearColumn l) := by
      apply List.filter_congr
      intro i hi
      exact isYearColumn_append_of_lt l c (List.mem_range.mp hi)
    have hmap : ((List.range l.length).filter (isYearColumn l)).map
          (fun i => parseInt (trim (Row.at (l ++ [c]) i).toText)) =
        ((List.range l.length).filter (isYearColumn l)).map
          (fun i => parseInt (trim (Row.at l i).toText)) := by
      apply List.map_congr_left
      intro i hi
      have hlt : i < l.length := List.mem_range.mp (List.mem_filter.mp hi).1
      simp only [Row.at]
      rw [List.getD_append _ _ _ _ hlt]
    have hlast : Row.at (l ++ [c]) l.length = c := by
      simp [Row.at]
    rw [detectYearColumns_append, ih, List.length_append, List.length_singleton,
      List.range_succ, List.filter_append, hfilter, List.map_append, hmap]
    by_cases h0 : l.length = 0
    · simp [yearScanStep, isYearColumn, h0]
    · have h1 : 1 ≤ l.length := Nat.one_le_iff_ne_zero.mpr h0
      by_cases h4 : isFourDigits (trim c.toText) = true
      · simp [yearScanStep, isYearColumn, h0, h1, h4, hlast]
      · simp [yearScanStep, isYearColumn, h0, h4, hlast]

/-- On a string of exactly four digits `parseInt` gives its decimal value. -/
theorem parseInt_of_isFourDigits {s : String} (h : isFourDigits s = true) :
    parseInt s = some ((decimalValue s : Nat) : Int) := by
  simp only [isFourDigits, Bool.and_eq_true, decide_eq_true_eq] at h
  have hne : s.data ≠ [] := by
    intro h0
    rw [h0] at h
    simp at h
  exact parseInt_digits s.data hne h.2

/-- Claim C2. For every header row the year-column scan returns exactly the
column indices `i ≥ 1` whose trimmed text is four ASCII digits, in increasing
column order, each paired with the decimal value of that text; column 0 is
never a year column. The header `["Category","2000","Notes","2001"]` gives the
years `[2000, 2001]` at the indices `[1, 3]`. -/
theorem detectYearColumns_spec :
    (∀ headerRow : Row,
      (detectYearColumns headerRow).yearIndices =
        (List.range headerRow.length).filter (isYearColumn headerRow) ∧
      (∀ i : Nat, i ∈ (detectYearColumns headerRow).yearIndices ↔
        (1 ≤ i ∧ i < headerRow.length ∧
          (trim (Row.at headerRow i).toText).data.length = 4 ∧
          ∀ c ∈ (trim (Row.at headerRow i).toText).data, 48 ≤ c.toNat ∧ c.toNat ≤ 57)) ∧
      (detectYearColumns headerRow).yearIndices.Pairwise (fun i j => i < j) ∧
      (detectYearColumns headerRow).yearCols =
        (detectYearColumns headerRow).yearIndices.map
          (fun i => some ((decimalValue (trim (Row.at headerRow i).toText) : Nat) : Int)) ∧
      0 ∉ (detectYearColumns headerRow).yearIndices) ∧
    detectYearColumns [Cell.str "Category", Cell.str "2000", Cell.str "Notes", Cell.str "2001"] =
      ⟨[some 2000, some 2001], [1, 3]⟩ := by
  refine ⟨fun headerRow => ?_, by decide⟩
  have hmem : ∀ i : Nat, i ∈ (List.range headerRow.length).filter (isYearColumn headerRow) ↔
      (1 ≤ i ∧ i < headerRow.length ∧
        (trim (Row.at headerRow i).toText).data.length = 4 ∧
        ∀ c ∈ (trim (Row.at headerRow i).toText).data, 48 ≤ c.toNat ∧ c.toNat ≤ 57) := by
    intro i
    simp only [List.mem_filter, List.mem_range, isYearColumn, isFourDigits, isDigit,
      Bool.and_eq_true, decide_eq_true_eq, List.all_eq_true]
    tauto
  rw [detectYearColumns_eq]
  refine ⟨rfl, hmem, ?_, ?_, ?_⟩
  · exact List.Pairwise.filter _ (List.pairwise_lt_range _)
  · apply List.map_congr_left
    intro i hi
    have h4 : isFourDigits (trim (Row.at headerRow i).toText) = true := by
      have := (List.mem_filter.mp hi).2
      simp only [isYearColumn, Bool.and_eq_true] at this
      exact this.2
    exact parseInt_of_isFourDigits h4
  · intro h0
    have := ((hmem 0).mp h0).1
    omega

/-! ## Claim C3: totals of a transposed table -/

theorem yearCols_length (headerRow : Row) :
    (detectYearColumns headerRow).yearCols.length =
      (detectYearColumns headerRow).yearIndices.length := by
  rw [detectYearColumns_eq]
  simp

/-- Reading the second array at the index of the first walks both in step. -/
theorem enum_map_getElem? {α β γ : Type} (as : List α) (bs : List β)
    (h : as.length = bs.length) (g : α → Option β → γ) :
    as.enum.map (fun e => g e.2 bs[e.1]?) = List.zipWith (fun a b => g a (some b)) as bs := by
  apply List.ext_getElem?
  intro i
  by_cases hi : i < as.length
  · have hb : i < bs.length := h ▸ hi
    simp [List.getElem?_map, List.getElem?_zipWith, List.getElem?_eq_getElem, hi, hb,
      List.enum]
  · have hb : ¬ i < bs.length := h ▸ hi
    have h1 : as.length ≤ i := Nat.le_of_not_lt hi
    have h2 : bs.length ≤ i := Nat.le_of_not_lt hb
    simp [List.getElem?_map, List.getElem?_zipWith, List.getElem?_eq_none, h1, h2, List.enum]

theorem contributes_eq_false_iff (row : Row) :
    contributes row = false ↔
      (toLowerCase (rowLabel row) = "" ∨ toLowerCase (rowLabel row) = "not reported" ∨
        includes (toLowerCase (rowLabel row)) "no response" = true) := by
  unfold contributes
  by_cases h1 : toLowerCase (rowLabel row) = "" <;>
  by_cases h2 : toLowerCase (rowLabel row) = "not reported" <;>
  by_cases h3 : includes (toLowerCase (rowLabel row)) "no response" = true <;>
  simp [h1, h2, h3]

theorem totalOfColumn_foldl (body : List Row) (col : Nat) (init : Int) :
    body.foldl (fun total row =>
      let ageGroup := toLowerCase (rowLabel row)
      if ageGroup = "" ∨ ageGroup = "not reported" ∨ includes ageGroup "no response" = true then
        total
      else total + cleanNumeric (Row.atIndex row (some col))) init =
    init + columnTotal body col := by
  induction body generalizing init with
  | nil => simp [columnTotal]
  | cons row rest ih =>
    rw [List.foldl_cons, ih]
    by_cases hc : contributes row = true
    · have hn : ¬ (toLowerCase (rowLabel row) = "" ∨
          toLowerCase (rowLabel row) = "not reported" ∨
          includes (toLowerCase (rowLabel row)) "no response" = true) := by
        intro h
        rw [(contributes_eq_false_iff row).mpr h] at hc
        exact Bool.false_ne_true hc
      simp only [hn, if_false, columnTotal, List.filter_cons, hc, if_true, List.map_cons,
        List.sum_cons, Row.atIndex]
      omega
    · have hf : contributes row = false := by simpa using hc
      have hy := (contributes_eq_false_iff row).mp hf
      simp only [hy, if_true, columnTotal, List.filter_cons, hf, Bool.false_eq_true, if_false]

theorem totalOfColumn_eq (body : List Row) (col : Nat) :
    totalOfColumn body (some col) = columnTotal body col := by
  unfold totalOfColumn
  rw [totalOfColumn_foldl]
  omega

theorem columnTotal_skip (pre post : List Row) (row : Row) (col : Nat)
    (h : contributes row = false) :
    columnTotal (pre ++ row :: post) col = columnTotal (pre ++ post) col := by
  simp [columnTotal, List.filter_append, List.filter_cons, h]

theorem parseTotalTransposedFromArray_eq (headerRow : Row) (body : List Row) :
    parseTotalTransposedFromArray (headerRow :: body) =
      Except.ok (List.zipWith (fun year col => { year := year, total := columnTotal body col })
        (detectYearColumns headerRow).yearCols (detectYearColumns headerRow).yearIndices) := by
  unfold parseTotalTransposedFromArray
  by_cases h0 : (detectYearColumns headerRow).yearCols.length = 0
  · have hnil : (detectYearColumns headerRow).yearCols = [] := List.length_eq_zero.mp h0
    simp [hnil]
  · simp only [h0, if_false]
    rw [enum_map_getElem? _ _ (yearCols_length headerRow)
      (fun year colIndex => ({ year := year, total := totalOfColumn body colIndex } : TotalRecord))]
    simp only [totalOfColumn_eq]

/-- Claim C3. For every table, `parseTotalTransposedFromArray` emits for each
detected year column the sum of `cleanNumeric` of that column's cell over
exactly the data rows whose trimmed, lower-cased label is non-empty, is not
"not reported" and does not contain "no response"; a row labelled
"Not Reported" in any letter case changes no total. With the rows
`["Not Reported", 5]` and `["Youth", 10]` under the year 2000 the total is 10. -/
theorem parseTotalTransposedFromArray_spec :
    (∀ (headerRow : Row) (body : List Row),
      parseTotalTransposedFromArray (headerRow :: body) =
        Except.ok (List.zipWith
          (fun year col =>
            { year := year
              total := ((body.filter contributes).map
                (fun row => cleanNumeric (Row.at row col))).sum })
          (detectYearColumns headerRow).yearCols (detectYearColumns headerRow).yearIndices)) ∧
    (∀ row : Row, contributes row = true ↔
      (toLowerCase (rowLabel row) ≠ "" ∧ toLowerCase (rowLabel row) ≠ "not reported" ∧
        includes (toLowerCase (rowLabel row)) "no response" = false)) ∧
    (∀ (headerRow : Row) (pre post : List Row) (row : Row),
      toLowerCase (rowLabel row) = "not reported" →
      parseTotalTransposedFromArray (headerRow :: (pre ++ row :: post)) =
        parseTotalTransposedFromArray (headerRow :: (pre ++ post))) ∧
    parseTotalTransposedFromArray [[Cell.str "Category", Cell.str "2000"],
      [Cell.str "Not Reported", Cell.num 5], [Cell.str "Youth", Cell.num 10]] =
      Except.ok [{ year := some 2000, total := 10 }] := by
  refine ⟨fun headerRow body => parseTotalTransposedFromArray_eq headerRow body, ?_, ?_,
    by decide⟩
  · intro row
    have h := contributes_eq_false_iff row
    constructor
    · intro hc
      have hn : ¬ contributes row = false := by simp [hc]
      rw [h] at hn
      refine ⟨fun h1 => hn (Or.inl h1), fun h2 => hn (Or.inr (Or.inl h2)), ?_⟩
      cases hi : includes (toLowerCase (rowLabel row)) "no response"
      · rfl
      · exact absurd (Or.inr (Or.inr hi)) hn
    · rintro ⟨h1, h2, h3⟩
      cases hc : contributes row
      · rcases h.mp hc with h | h | h
        · exact absurd h h1
        · exact absurd h h2
        · rw [h3] at h
          exact absurd h Bool.false_ne_true
      · rfl
  · intro headerRow pre post row hrow
    have hskip : contributes row = false :=
      (contributes_eq_false_iff row).mpr (Or.inr (Or.inl hrow))
    rw [parseTotalTransposedFromArray_eq, parseTotalTransposedFromArray_eq]
    simp only [columnTotal_skip pre post row _ hskip]

/-- Witness for claim C3: a row labelled "NOT reported" between two counted
rows leaves the totals of the table unchanged. -/
theorem parseTotalTransposedFromArray_spec_witness :
    toLowerCase (rowLabel [Cell.str " NOT reported ", Cell.num 5]) = "not reported" ∧
    parseTotalTransposedFromArray ([Cell.str "Category", Cell.str "2000"] ::
        ([[Cell.str "Adult", Cell.num 3]] ++
          [Cell.str " NOT reported ", Cell.num 5] :: [[Cell.str "Youth", Cell.num 10]])) =
      parseTotalTransposedFromArray ([Cell.str "Category", Cell.str "2000"] ::
        ([[Cell.str "Adult", Cell.num 3]] ++ [[Cell.str "Youth", Cell.num 10]])) :=
  ⟨by decide,
    parseTotalTransposedFromArray_spec.2.2.1 [Cell.str "Category", Cell.str "2000"]
      [[Cell.str "Adult", Cell.num 3]] [[Cell.str "Youth", Cell.num 10]]
      [Cell.str " NOT reported ", Cell.num 5] (by decide)⟩

/-! ## Claim C4: excluded categories never reach the output -/

/-- A property of the accumulator that every step keeps holds after the loop. -/
theorem foldl_preserves {α β : Type} (P : β → Prop) (f : β → α → β)
    (hstep : ∀ b a, P b → P (f b a)) (l : List α) (init : β) (h : P init) :
    P (l.foldl f init) := by
  induction l generalizing init with
  | nil => exact h
  | cons a rest ih => exact ih (f init a) (hstep init a h)

theorem ageRowStep_preserves (year : Option Int) (colIndex : Option Nat)
    (results : List AgeRecord) (row : Row)
    (h : ∀ r ∈ results, r.ageGroup ≠ "" ∧ toLowerCase r.ageGroup ≠ "not reported" ∧
      includes (toLowerCase r.ageGroup) "no response" = false) :
    ∀ r ∈ ageRowStep year colIndex results row,
      r.ageGroup ≠ "" ∧ toLowerCase r.ageGroup ≠ "not reported" ∧
        includes (toLowerCase r.ageGroup) "no response" = false := by
  unfold ageRowStep
  by_cases hskip : rowLabel row = "" ∨ toLowerCase (rowLabel row) = "not reported" ∨
      includes (toLowerCase (rowLabel row)) "no response" = true
  · simpa [hskip] using h
  · simp only [hskip, if_false]
    split
    · intro r hr
      rcases List.mem_append.mp hr with hr | hr
      · exact h r hr
      · rw [List.mem_singleton] at hr
        subst hr
        refine ⟨fun h1 => hskip (Or.inl h1), fun h2 => hskip (Or.inr (Or.inl h2)), ?_⟩
        cases hi : includes (toLowerCase (rowLabel row)) "no response"
        · rfl
        · exact absurd (Or.inr (Or.inr hi)) hskip
    · exact h

theorem occupationRowStep_preserves (year : Option Int) (colIndex : Option Nat)
    (results : List OccupationRecord) (row : Row)
    (h : ∀ r ∈ results, r.occupation ≠ "" ∧ toLowerCase r.occupation ≠ "not reported" ∧
      includes (toLowerCase r.occupation) "no response" = false) :
    ∀ r ∈ occupationRowStep year colIndex results row,
      r.occupation ≠ "" ∧ toLowerCase r.occupation ≠ "not reported" ∧
        includes (toLowerCase r.occupation) "no response" = false := by
  unfold occupationRowStep
  by_cases hskip : rowLabel row = "" ∨ toLowerCase (rowLabel row) = "not reported" ∨
      toLowerCase (rowLabel row) = "no occupation reported" ∨
      includes (toLowerCase (rowLabel row)) "no response" = true
  · simpa [hskip] using h
  · simp only [hskip, if_false]
    split
    · intro r hr
      rcases List.mem_append.mp hr with hr | hr
      · exact h r hr
      · rw [List.mem_singleton] at hr
        subst hr
        refine ⟨fun h1 => hskip (Or.inl h1), fun h2 => hskip (Or.inr (Or.inl h2)), ?_⟩
        cases hi : includes (toLowerCase (rowLabel row)) "no response"
        · rfl
        · exact absurd (Or.inr (Or.inr (Or.inr hi))) hskip
    · exact h

/-- Claim C4. For every input table, `parseAgeTransposedFromArray` and
`parseOccupationTransposedFromArray` return a list of records none of whose
category (`ageGroup`, `occupation`) is empty, equals "not reported" without
regard to case, or contains "no response" without regard to case. -/
theorem transposed_categories_not_excluded (headerRow : Row) (body : List Row) :
    (∃ recs, parseAgeTransposedFromArray (headerRow :: body) = Except.ok recs ∧
      ∀ r ∈ recs, r.ageGroup ≠ "" ∧ toLowerCase r.ageGroup ≠ "not reported" ∧
        includes (toLowerCase r.ageGroup) "no response" = false) ∧
    (∃ recs, parseOccupationTransposedFromArray (headerRow :: body) = Except.ok recs ∧
      ∀ r ∈ recs, r.occupation ≠ "" ∧ toLowerCase r.occupation ≠ "not reported" ∧
        includes (toLowerCase r.occupation) "no response" = false) := by
  constructor
  · unfold parseAgeTransposedFromArray
    by_cases h0 : (detectYearColumns headerRow).yearCols.length = 0
    · exact ⟨[], by simp [h0], by simp⟩
    · refine ⟨_, by simp only [h0, if_false]; rfl, ?_⟩
      apply foldl_preserves (fun results : List AgeRecord => ∀ r ∈ results,
        r.ageGroup ≠ "" ∧ toLowerCase r.ageGroup ≠ "not reported" ∧
          includes (toLowerCase r.ageGroup) "no response" = false)
      · intro results entry hres
        apply foldl_preserves (fun results : List AgeRecord => ∀ r ∈ results,
          r.ageGroup ≠ "" ∧ toLowerCase r.ageGroup ≠ "not reported" ∧
            includes (toLowerCase r.ageGroup) "no response" = false)
        · intro b row hb
          exact ageRowStep_preserves _ _ b row hb
        · exact hres
      · simp
  · unfold parseOccupationTransposedFromArray
    by_cases h0 : (detectYearColumns headerRow).yearCols.length = 0
    · exact ⟨[], by simp [h0], by simp⟩
    · refine ⟨_, by simp only [h0, if_false]; rfl, ?_⟩
      apply foldl_preserves (fun results : List OccupationRecord => ∀ r ∈ results,
        r.occupation ≠ "" ∧ toLowerCase r.occupation ≠ "not reported" ∧
          includes (toLowerCase r.occupation) "no response" = false)
      · intro results entry hres
        apply foldl_preserves (fun results : List OccupationRecord => ∀ r ∈ results,
          r.occupation ≠ "" ∧ toLowerCase r.occupation ≠ "not reported" ∧
            includes (toLowerCase r.occupation) "no response" = false)
        · intro b row hb
          exact occupationRowStep_preserves _ _ b row hb
        · exact hres
      · simp

/-! ## Claim C5: the education parser -/

theorem matchesVariation_eq (categoryName : String) (variations : List String) :
    matchesVariation categoryName variations =
      decide (categoryName ∈ variations.map toLowerCase) := by
  induction variations with
  | nil => simp [matchesVariation]
  | cons v rest ih =>
    unfold matchesVariation
    by_cases h : categoryName = toLowerCase v
    · simp [h]
    · simp [h, ih]

/-- The helper `findRow` returns the first data row whose label is one of the
accepted spellings, compared without case. -/
theorem findRow_eq_find? (body : List Row) (variations : List String) :
    findRow body variations =
      body.find? (fun row => decide (toLowerCase (rowLabel row) ∈ variations.map toLowerCase)) := by
  induction body with
  | nil => rfl
  | cons row rest ih =>
    unfold findRow
    rw [List.find?_cons, matchesVariation_eq, ih]
    by_cases h : toLowerCase (rowLabel row) ∈ variations.map toLowerCase
    · simp only [h, decide_True, if_true]
    · simp only [h, decide_False, Bool.false_eq_true, if_false]

theorem cleanNumeric_rowAt?_findRow (body : List Row) (variations : List String) (col : Nat) :
    cleanNumeric (rowAt? (findRow body variations) (some col)) =
      categoryCount body variations col := by
  rw [findRow_eq_find?]
  unfold categoryCount
  cases body.find? (fun row => decide (toLowerCase (rowLabel row) ∈ variations.map toLowerCase))
    with
  | none => rfl
  | some row => rfl

/-- Claim C5. `parseEducationTransposedFromArray` emits exactly one record per
detected year column, in column order, and in each record `elementary`,
`highSchool`, `college` and `postgraduate` are each the cleaned cell of the
"... Level" row plus the cleaned cell of the "... Graduate" row in that column
(for `postgraduate`: "Post Graduate Level" plus "Post Graduate"), a row being
found by its accepted spellings and an absent row contributing 0. -/
theorem parseEducationTransposedFromArray_spec (headerRow : Row) (body : List Row) :
    ∃ recs, parseEducationTransposedFromArray (headerRow :: body) = Except.ok recs ∧
      recs.length = (detectYearColumns headerRow).yearIndices.length ∧
      recs.map (fun r => r.year) = (detectYearColumns headerRow).yearCols ∧
      recs = List.zipWith (fun year col =>
        { year := year
          elementary := categoryCount body ["Elementary Level", "Elementary level"] col +
            categoryCount body ["Elementary Graduate", "Elementary graduate"] col
          highSchool := categoryCount body ["High School Level", "High school level"] col +
            categoryCount body ["High School Graduate", "High school graduate"] col
          college := categoryCount body ["College Level", "College level"] col +
            categoryCount body ["College Graduate", "College graduate"] col
          postgraduate := categoryCount body ["Post Graduate Level", "Postgraduate Level"] col +
            categoryCount body ["Post Graduate", "Postgraduate"] col })
        (detectYearColumns headerRow).yearCols (detectYearColumns headerRow).yearIndices := by
  have hlen := yearCols_length headerRow
  refine ⟨_, ?_, ?_, ?_, rfl⟩
  · unfold parseEducationTransposedFromArray
    simp only
    rw [enum_map_getElem? _ _ hlen (fun year colIndex => ({
      year := year
      elementary :=
        cleanNumeric (rowAt? (findRow body ["Elementary Level", "Elementary level"]) colIndex) +
        cleanNumeric (rowAt? (findRow body ["Elementary Graduate", "Elementary graduate"]) colIndex)
      highSchool :=
        cleanNumeric (rowAt? (findRow body ["High School Level", "High school level"]) colIndex) +
        cleanNumeric (rowAt? (findRow body ["High School Graduate", "High school graduate"]) colIndex)
      college :=
        cleanNumeric (rowAt? (findRow body ["College Level", "College level"]) colIndex) +
        cleanNumeric (rowAt? (findRow body ["College Graduate", "College graduate"]) colIndex)
      postgraduate :=
        cleanNumeric (rowAt? (findRow body ["Post Graduate Level", "Postgraduate Level"]) colIndex) +
        cleanNumeric (rowAt? (findRow body ["Post Graduate", "Postgraduate"]) colIndex) } :
      EducationRecord))]
    simp only [cleanNumeric_rowAt?_findRow]
  · simp [List.length_zipWith, hlen]
  · apply List.ext_getElem?
    intro i
    by_cases hi : i < (detectYearColumns headerRow).yearCols.length
    · have hb : i < (detectYearColumns headerRow).yearIndices.length := hlen ▸ hi
      simp [List.getElem?_map, List.getElem?_zipWith, List.getElem?_eq_getElem, hi, hb]
    · have h1 : (detectYearColumns headerRow).yearCols.length ≤ i := Nat.le_of_not_lt hi
      have h2 : (detectYearColumns headerRow).yearIndices.length ≤ i := hlen ▸ h1
      simp [List.getElem?_map, List.getElem?_zipWith, List.getElem?_eq_none, h1, h2]

/-! ## Claims C6 and C7: the occupation and education join -/

theorem orZero_eq (x : Int) : orZero x = x := by
  unfold orZero
  split
  · rfl
  · omega

/-- After the first loop the object holds, for each year, the values of the
last education record with that year. -/
theorem educationByYear_eq (educationData : List EducationRecord) (key : Option Int) :
    educationData.foldl setEducation (fun _ => none) key =
      (lastEducationOf educationData key).map (fun e =>
        { elementary := e.elementary, highSchool := e.highSchool, college := e.college,
          postgraduate := e.postgraduate }) := by
  induction educationData using List.reverseRecOn with
  | nil => rfl
  | append_singleton l e ih =>
    rw [List.foldl_append, List.foldl_cons, List.foldl_nil]
    unfold lastEducationOf at ih ⊢
    rw [List.reverse_append, List.reverse_singleton, List.singleton_append, List.find?_cons]
    unfold setEducation
    by_cases hk : key = e.year
    · simp [hk, orZero_eq]
    · have hk2 : ¬ e.year = key := fun h => hk h.symm
      simp only [hk, hk2, if_false, decide_False]
      exact ih

theorem foldl_mergeStep (educationByYear : EducationByYear)
    (occupationData : List OccupationRecord) (init : List MergedRecord) :
    occupationData.foldl (mergeStep educationByYear) init =
      init ++ occupationData.filterMap (fun o =>
        (educationByYear o.year).map (fun v =>
          { year := o.year, occupation := o.occupation, totalOccupation := o.count,
            totalEducation := v.elementary + v.highSchool + v.college + v.postgraduate,
            elementary := v.elementary, highSchool := v.highSchool, college := v.college,
            postgraduate := v.postgraduate })) := by
  induction occupationData generalizing init with
  | nil => simp
  | cons o rest ih =>
    rw [List.foldl_cons, ih, List.filterMap_cons]
    unfold mergeStep
    cases educationByYear o.year with
    | none => simp
    | some v => simp

/-- The join as a single pass: each occupation record is kept with the last
education record of its year, or dropped when there is none. -/
theorem mergeOccupationEducationData_eq (occupationData : List OccupationRecord)
    (educationData : List EducationRecord) :
    mergeOccupationEducationData occupationData educationData =
      occupationData.filterMap (fun o =>
        (lastEducationOf educationData o.year).map (joinRecords o)) := by
  unfold mergeOccupationEducationData
  simp only [foldl_mergeStep, List.nil_append]
  apply List.filterMap_congr
  intro o _
  rw [educationByYear_eq]
  cases lastEducationOf educationData o.year with
  | none => rfl
  | some e => rfl

theorem lastEducationOf_isSome (educationData : List EducationRecord) (year : Option Int) :
    (lastEducationOf educationData year).isSome = true ↔
      year ∈ educationData.map (fun e => e.year) := by
  unfold lastEducationOf
  rw [List.find?_isSome]
  simp only [List.mem_reverse, decide_eq_true_eq, List.mem_map]

/-- Claim C6. `mergeOccupationEducationData` is an inner join: the year of
every merged record occurs in the occupation series and in the education
series, so a year present in only one input is never in the output. -/
theorem mergeOccupationEducationData_inner_join (occupationData : List OccupationRecord)
    (educationData : List EducationRecord) (r : MergedRecord)
    (h : r ∈ mergeOccupationEducationData occupationData educationData) :
    r.year ∈ occupationData.map (fun o => o.year) ∧
      r.year ∈ educationData.map (fun e => e.year) := by
  rw [mergeOccupationEducationData_eq, List.mem_filterMap] at h
  obtain ⟨o, ho, hr⟩ := h
  cases hl : lastEducationOf educationData o.year with
  | none => rw [hl] at hr; simp at hr
  | some e =>
    rw [hl] at hr
    simp only [Option.map_some', Option.some.injEq] at hr
    subst hr
    constructor
    · exact List.mem_map.mpr ⟨o, ho, rfl⟩
    · apply (lastEducationOf_isSome educationData o.year).mp
      rw [hl]
      rfl

/-- Witness for claim C6: joining three occupation records with education
records for 2000 and 1999 keeps the 2000 record, whose year is in both series. -/
theorem mergeOccupationEducationData_inner_join_witness :
    (⟨some 2000, "Nurse", 5, 4, 1, 1, 1, 1⟩ : MergedRecord) ∈
      mergeOccupationEducationData
        [⟨some 2000, "Nurse", 5⟩, ⟨some 2001, "Nurse", 6⟩, ⟨some 2002, "Clerk", 7⟩]
        [⟨some 2000, 1, 1, 1, 1⟩, ⟨some 1999, 9, 9, 9, 9⟩] ∧
    (some 2000 : Option Int) ∈
      ([⟨some 2000, "Nurse", 5⟩, ⟨some 2001, "Nurse", 6⟩, ⟨some 2002, "Clerk", 7⟩] :
        List OccupationRecord).map (fun o => o.year) ∧
    (some 2000 : Option Int) ∈
      ([⟨some 2000, 1, 1, 1, 1⟩, ⟨some 1999, 9, 9, 9, 9⟩] :
        List EducationRecord).map (fun e => e.year) :=
  ⟨by decide,
    mergeOccupationEducationData_inner_join
      [⟨some 2000, "Nurse", 5⟩, ⟨some 2001, "Nurse", 6⟩, ⟨some 2002, "Clerk", 7⟩]
      [⟨some 2000, 1, 1, 1, 1⟩, ⟨some 1999, 9, 9, 9, 9⟩]
      ⟨some 2000, "Nurse", 5, 4, 1, 1, 1, 1⟩ (by decide)⟩

theorem filterMap_join_keys (occupationData : List OccupationRecord)
    (educationData : List EducationRecord) :
    (occupationData.filterMap (fun o =>
        (lastEducationOf educationData o.year).map (joinRecords o))).map
        (fun r => (r.year, r.occupation, r.totalOccupation)) =
      (occupationData.filter
        (fun o => decide (o.year ∈ educationData.map (fun e => e.year)))).map
        (fun o => (o.year, o.occupation, o.count)) := by
  induction occupationData with
  | nil => rfl
  | cons o rest ih =>
    rw [List.filterMap_cons, List.filter_cons]
    have hiff := lastEducationOf_isSome educationData o.year
    cases hl : lastEducationOf educationData o.year with
    | none =>
      rw [hl] at hiff
      have hnot : ¬ o.year ∈ educationData.map (fun e => e.year) := fun hm => by
        have := hiff.mpr hm
        simp at this
      simp only [Option.map_none', hnot, decide_False, Bool.false_eq_true, if_false]
      exact ih
    | some e =>
      rw [hl] at hiff
      have hin : o.year ∈ educationData.map (fun e => e.year) := hiff.mp rfl
      simp only [Option.map_some', hin, decide_True, if_true, List.map_cons, ih]
      rfl

/-- Claim C7. The output of `mergeOccupationEducationData` is the subsequence,
in input order, of the occupation records whose year occurs in the education
series; each output record keeps that record's year and occupation, has
`totalOccupation` equal to its count, carries the four education values of the
last education record with that year, and has `totalEducation` equal to their
sum. -/
theorem mergeOccupationEducationData_spec (occupationData : List OccupationRecord)
    (educationData : List EducationRecord) :
    mergeOccupationEducationData occupationData educationData =
      occupationData.filterMap (fun o =>
        (educationData.reverse.find? (fun e => decide (e.year = o.year))).map (fun e =>
          { year := o.year
            occupation := o.occupation
            totalOccupation := o.count
            totalEducation := e.elementary + e.highSchool + e.college + e.postgraduate
            elementary := e.elementary
            highSchool := e.highSchool
            college := e.college
            postgraduate := e.postgraduate })) ∧
    (mergeOccupationEducationData occupationData educationData).map
        (fun r => (r.year, r.occupation, r.totalOccupation)) =
      (occupationData.filter
        (fun o => decide (o.year ∈ educationData.map (fun e => e.year)))).map
        (fun o => (o.year, o.occupation, o.count)) := by
  constructor
  · exact mergeOccupationEducationData_eq occupationData educationData
  · rw [mergeOccupationEducationData_eq]
    exact filterMap_join_keys occupationData educationData

/-! ## Claim C8: the sliding windows -/

theorem createSequencesLoop_eq {α : Type} (data : List α) (lookback : Nat) :
    ∀ (fuel i : Nat) (acc : Sequences α), data.length - i ≤ fuel →
      createSequencesLoop data lookback fuel i acc =
        ⟨acc.X ++ (List.range' i (data.length - i)).map (fun j => slice data (j - lookback) j),
          acc.y ++ data.drop i⟩ := by
  intro fuel
  induction fuel with
  | zero =>
    intro i acc hfuel
    have hi : data.length - i = 0 := Nat.le_zero.mp hfuel
    have hdrop : data.drop i = [] := List.drop_eq_nil_of_le (by omega)
    simp [createSequencesLoop, hi, hdrop]
  | succ fuel ih =>
    intro i acc hfuel
    unfold createSequencesLoop
    by_cases hlt : i < data.length
    · rw [dif_pos hlt, ih (i + 1) _ (by omega)]
      have hlen : data.length - i = (data.length - (i + 1)) + 1 := by omega
      rw [hlen, List.range'_succ, List.drop_eq_getElem_cons hlt]
      simp
    · rw [dif_neg hlt]
      have hi : data.length - i = 0 := by omega
      have hdrop : data.drop i = [] := List.drop_eq_nil_of_le (by omega)
      simp [hi, hdrop]

/-- The windows are the slices starting at each position, the targets are the
series without its first `lookback` elements. -/
theorem createSequences_eq {α : Type} (data : List α) (lookback : Nat) :
    createSequences data lookback =
      ⟨(List.range (data.length - lookback)).map (fun i => (data.drop i).take lookback),
        data.drop lookback⟩ := by
  unfold createSequences
  rw [createSequencesLoop_eq data lookback data.length lookback _ (by omega)]
  simp only [List.nil_append, Sequences.mk.injEq, and_true]
  rw [List.range_eq_range', List.range'_eq_map_range, List.map_map,
    List.range_eq_range']
  apply List.map_congr_left
  intro i _
  simp only [Function.comp, slice]
  rw [List.drop_take]
  congr 1
  · omega
  · congr 1
    omega

/-- Claim C8. For a series of length `L` and a lookback `K < L`,
`createSequences` returns exactly `L - K` windows and `L - K` targets, every
window has length `K`, window `i` holds the elements at positions
`i .. i + K - 1` of the series in their order and target `i` is the element at
position `i + K`. -/
theorem createSequences_spec {α : Type} (data : List α) (K : Nat) (h : K < data.length) :
    (createSequences data K).X.length = data.length - K ∧
    (createSequences data K).y.length = data.length - K ∧
    (∀ w ∈ (createSequences data K).X, w.length = K) ∧
    ∀ i, i < data.length - K →
      (createSequences data K).X[i]? = some ((data.drop i).take K) ∧
      (∀ j, j < K → ((data.drop i).take K)[j]? = data[i + j]?) ∧
      (createSequences data K).y[i]? = data[i + K]? ∧
      (data[i + K]?).isSome = true := by
  rw [createSequences_eq]
  refine ⟨by simp, by simp, ?_, ?_⟩
  · intro w hw
    simp only [List.mem_map, List.mem_range] at hw
    obtain ⟨i, hi, rfl⟩ := hw
    rw [List.length_take, List.length_drop]
    omega
  · intro i hi
    refine ⟨?_, ?_, ?_, ?_⟩
    · simp [List.getElem?_map, List.getElem?_range, hi]
    · intro j hj
      rw [List.getElem?_take_of_lt hj, List.getElem?_drop]
    · simp only [List.getElem?_drop]
      rw [Nat.add_comm]
    · rw [List.getElem?_eq_getElem (by omega : i + K < data.length)]
      rfl

/-- Witness for claim C8: a series of five values with lookback three. -/
theorem createSequences_spec_witness :
    (createSequences [10, 20, 30, 40, 50] 3).X.length = 5 - 3 ∧
    (createSequences [10, 20, 30, 40, 50] 3).y.length = 5 - 3 ∧
    (createSequences [10, 20, 30, 40, 50] 3).X[1]? = some [20, 30, 40] ∧
    (createSequences [10, 20, 30, 40, 50] 3).y[1]? = some 50 := by
  have hspec := createSequences_spec [10, 20, 30, 40, 50] 3 (by decide)
  exact ⟨hspec.1, hspec.2.1, (hspec.2.2.2 1 (by decide)).1, (hspec.2.2.2 1 (by decide)).2.2.1⟩

/-! ## Claim C9: normalize and denormalize -/

theorem denormalize_normalize (data : List ℚ) (min max : ℚ) (h : min < max) :
    denormalizeData (normalizeData data min max) min max = data := by
  have hne : max - min ≠ 0 := sub_ne_zero.mpr (ne_of_gt h)
  unfold denormalizeData normalizeData
  simp only [List.map_map]
  conv_rhs => rw [← List.map_id data]
  apply List.map_congr_left
  intro v _
  simp only [Function.comp, id]
  rw [div_mul_cancel₀ _ hne]
  ring

/-- Claim C9. For all `min < max` and every `v` in `[min, max]`,
`denormalizeData(normalizeData([v], min, max), min, max)` is `[v]`, exactly,
over the rationals. -/
theorem denormalizeData_normalizeData (min max v : ℚ) (h : min < max) (hlo : min ≤ v)
    (hhi : v ≤ max) :
    denormalizeData (normalizeData [v] min max) min max = [v] ∧
    normalizeData [v] min max = [(v - min) / (max - min)] ∧
    (∀ n ∈ normalizeData [v] min max, 0 ≤ n ∧ n ≤ 1) := by
  refine ⟨denormalize_normalize [v] min max h, rfl, ?_⟩
  intro n hn
  have hpos : 0 < max - min := sub_pos.mpr h
  simp only [normalizeData, List.map_cons, List.map_nil, List.mem_singleton] at hn
  subst hn
  constructor
  · exact div_nonneg (by linarith) (le_of_lt hpos)
  · rw [div_le_one hpos]
    linarith

/-- Witness for claim C9: the value 130 between the bounds 100 and 160. -/
theorem denormalizeData_normalizeData_witness :
    denormalizeData (normalizeData [130] 100 160) 100 160 = [130] :=
  (denormalizeData_normalizeData 100 160 130 (by norm_num) (by norm_num) (by norm_num)).1

/-! ## Claim C10: the years of the forecast points -/

theorem forecastStep_years (m : TrainedModel) (lastTrainYear : Int) (indices : List Nat)
    (st : ForecastState) :
    (indices.foldl (forecastStep m lastTrainYear) st).predictions.map (fun p => p.year) =
      st.predictions.map (fun p => p.year) ++
        indices.map (fun (i : Nat) => lastTrainYear + (i : Int) + 1) := by
  induction indices generalizing st with
  | nil => simp
  | cons i rest ih =>
    rw [List.foldl_cons, ih]
    simp [forecastStep]

theorem length_selectTrainData (historicalData : List HistoricalRecord)
    (trainStartYear trainEndYear : Int) :
    (selectTrainData historicalData trainStartYear trainEndYear).length =
      (historicalData.filter (fun d =>
        decide (d.year ≥ trainStartYear) && decide (d.year ≤ trainEndYear))).length := by
  unfold selectTrainData
  exact List.length_insertionSort _ _

theorem length_sliceLast {α : Type} (data : List α) (k : Nat) (hk : 0 < k)
    (hlen : k ≤ data.length) : (sliceLast data k).length = k := by
  unfold sliceLast
  rw [if_neg (by omega), List.length_drop]
  omega

/-- Claim C10. For every trained model (its lookback is positive: training
stores 5), every training range holding at least `lookback` points and every
horizon `H ≥ 0`, `generateForecasts` produces exactly `H` forecast points whose
years are `trainEndYear + 1, ..., trainEndYear + H` in that order. -/
theorem generateForecasts_years (m : TrainedModel) (historicalData : List HistoricalRecord)
    (trainStartYear trainEndYear : Int) (selectedAttribute : Attribute) (H : Nat)
    (hlookback : 0 < m.lookback)
    (hrange : m.lookback ≤ (historicalData.filter (fun d =>
      decide (d.year ≥ trainStartYear) && decide (d.year ≤ trainEndYear))).length) :
    ∃ points, generateForecasts (some m) historicalData trainStartYear trainEndYear
        selectedAttribute H = Except.ok points ∧
      points.length = H ∧
      points.map (fun p => p.year) = (List.range H).map (fun (k : Nat) => trainEndYear + (k : Int) + 1) ∧
      ∀ k, k < H → (points.map (fun p => p.year))[k]? = some (trainEndYear + (k : Int) + 1) := by
  have hne : ¬ historicalData.length = 0 := by
    intro h0
    have hnil : historicalData = [] := List.length_eq_zero.mp h0
    rw [hnil] at hrange
    simp at hrange
    omega
  have hrecent : ¬ ((sliceLast (selectTrainData historicalData trainStartYear trainEndYear)
      m.lookback).map (extractValue selectedAttribute)).length < m.lookback := by
    rw [List.length_map, length_sliceLast _ _ hlookback
      (by rw [length_selectTrainData]; exact hrange)]
    omega
  have hyears := forecastStep_years m trainEndYear (List.range H)
    { sequence := normalizeData ((sliceLast (selectTrainData historicalData trainStartYear
        trainEndYear) m.lookback).map (extractValue selectedAttribute)) m.min m.max,
      predictions := [] }
  simp only [List.map_nil, List.nil_append] at hyears
  refine ⟨_, ?_, ?_, hyears, ?_⟩
  · simp only [generateForecasts, hne, hrecent, if_false]
  · have hlen := congrArg List.length hyears
    simpa using hlen
  · intro k hk
    rw [hyears]
    simp [List.getElem?_map, List.getElem?_range, hk]

/-- Witness for claim C10: the scenario series trained on 2000 to 2006 with a
horizon of two years. -/
theorem generateForecasts_years_witness :
    ∃ points, generateForecasts (some scenarioModel) scenarioSeries 2000 2006
        Attribute.value 2 = Except.ok points ∧
      points.length = 2 ∧
      points.map (fun p => p.year) =
        (List.range 2).map (fun (k : Nat) => (2006 : Int) + (k : Int) + 1) ∧
      ∀ k : Nat, k < 2 →
        (points.map (fun p => p.year))[k]? = some ((2006 : Int) + (k : Int) + 1) :=
  generateForecasts_years scenarioModel scenarioSeries 2000 2006 Attribute.value 2
    (by decide) (by decide)

/-! ## Claim C11: the autoregressive rollout -/

theorem length_lastN {α : Type} (k : Nat) (l : List α) (h : k ≤ l.length) :
    (lastN k l).length = k := by
  unfold lastN
  rw [List.length_drop]
  omega

/-- Sliding a full window: dropping the oldest element and appending a value
gives the last `k` elements of the extended list. -/
theorem lastN_append_singleton {α : Type} (k : Nat) (l : List α) (x : α) (hk : 0 < k)
    (h : k ≤ l.length) : lastN k (l ++ [x]) = (lastN k l).drop 1 ++ [x] := by
  unfold lastN
  rw [List.length_append, List.length_singleton, List.drop_drop,
    List.drop_append_of_le_length (by omega)]
  congr 2
  omega

theorem length_rolloutPredictions (f : List ℚ → ℚ) (lookback : Nat) (init : List ℚ) (n : Nat) :
    (rolloutPredictions f lookback init n).length = n := by
  induction n with
  | zero => rfl
  | succ n ih => simp [rolloutPredictions, ih]

theorem forecastStep_sequence (m : TrainedModel) (lastTrainYear : Int) (st : ForecastState)
    (i : Nat) :
    (forecastStep m lastTrainYear st i).sequence =
      st.sequence.drop 1 ++ [m.predict st.sequence] := by
  simp [forecastStep, slice]

theorem forecastStateAfter_succ (m : TrainedModel) (lastTrainYear : Int) (init : List ℚ)
    (k : Nat) :
    forecastStateAfter m lastTrainYear init (k + 1) =
      forecastStep m lastTrainYear (forecastStateAfter m lastTrainYear init k) k := by
  unfold forecastStateAfter
  rw [List.range_succ, List.foldl_append]
  rfl

/-- The loop invariant of `generateForecasts`: after `k` iterations the window
is the last `lookback` elements of the initial window followed by the
predictions made, and the recorded points carry those predictions, unrounded
as `normalizedValue` and denormalized then rounded as `value`. -/
theorem forecastStateAfter_eq (m : TrainedModel) (lastTrainYear : Int) (init : List ℚ)
    (hk : 0 < m.lookback) (hinit : init.length = m.lookback) (k : Nat) :
    (forecastStateAfter m lastTrainYear init k).sequence =
        lastN m.lookback (init ++ rolloutPredictions m.predict m.lookback init k) ∧
      (forecastStateAfter m lastTrainYear init k).predictions.map (fun p => p.normalizedValue) =
        rolloutPredictions m.predict m.lookback init k ∧
      (forecastStateAfter m lastTrainYear init k).predictions.map (fun p => p.value) =
        (rolloutPredictions m.predict m.lookback init k).map
          (fun p => mathRound (p * (m.max - m.min) + m.min)) := by
  induction k with
  | zero =>
    refine ⟨?_, rfl, rfl⟩
    simp [forecastStateAfter, rolloutPredictions, lastN, hinit]
  | succ k ih =>
    obtain ⟨hseq, hnv, hval⟩ := ih
    rw [forecastStateAfter_succ]
    refine ⟨?_, ?_, ?_⟩
    · rw [forecastStep_sequence, hseq]
      simp only [rolloutPredictions]
      rw [← List.append_assoc, lastN_append_singleton _ _ _ hk
        (by rw [List.length_append]; omega)]
    · simp only [forecastStep, List.map_append, hnv, rolloutPredictions, hseq, List.map_cons,
        List.map_nil]
    · simp only [forecastStep, List.map_append, hval, rolloutPredictions, hseq, List.map_cons,
        List.map_nil, denormalizeData, List.headD_cons]

theorem length_initialWindow (m : TrainedModel) (historicalData : List HistoricalRecord)
    (trainStartYear trainEndYear : Int) (selectedAttribute : Attribute)
    (hlookback : 0 < m.lookback)
    (hrange : m.lookback ≤ (historicalData.filter (fun d =>
      decide (d.year ≥ trainStartYear) && decide (d.year ≤ trainEndYear))).length) :
    (initialWindow m historicalData trainStartYear trainEndYear selectedAttribute).length =
      m.lookback := by
  unfold initialWindow normalizeData
  rw [List.length_map, List.length_map, length_sliceLast _ _ hlookback
    (by rw [length_selectTrainData]; exact hrange)]

/-- Claim C11. In `generateForecasts`, with the model taken as any function `f`
from a window to a number and a trained lookback (positive): the window has
length `lookback` at every step; the `k`-th prediction is `f` applied to the
last `lookback` elements of the normalized last training values followed by
the earlier predictions; the recorded value of a point is the rounding of
`p * (max - min) + min`; and each step drops the oldest element of the window
and then appends the unrounded prediction. -/
theorem generateForecasts_rollout (m : TrainedModel) (historicalData : List HistoricalRecord)
    (trainStartYear trainEndYear : Int) (selectedAttribute : Attribute) (H : Nat)
    (hlookback : 0 < m.lookback)
    (hrange : m.lookback ≤ (historicalData.filter (fun d =>
      decide (d.year ≥ trainStartYear) && decide (d.year ≤ trainEndYear))).length) :
    ∃ points, generateForecasts (some m) historicalData trainStartYear trainEndYear
        selectedAttribute H = Except.ok points ∧
      points.map (fun p => p.normalizedValue) =
        rolloutPredictions m.predict m.lookback
          (initialWindow m historicalData trainStartYear trainEndYear selectedAttribute) H ∧
      points.map (fun p => p.value) =
        (rolloutPredictions m.predict m.lookback
          (initialWindow m historicalData trainStartYear trainEndYear selectedAttribute) H).map
          (fun p => mathRound (p * (m.max - m.min) + m.min)) ∧
      ∀ k : Nat,
        (forecastStateAfter m trainEndYear
          (initialWindow m historicalData trainStartYear trainEndYear selectedAttribute)
          k).sequence.length = m.lookback ∧
        (forecastStateAfter m trainEndYear
          (initialWindow m historicalData trainStartYear trainEndYear selectedAttribute)
          k).sequence =
          lastN m.lookback
            (initialWindow m historicalData trainStartYear trainEndYear selectedAttribute ++
              rolloutPredictions m.predict m.lookback
                (initialWindow m historicalData trainStartYear trainEndYear selectedAttribute)
                k) ∧
        (forecastStateAfter m trainEndYear
          (initialWindow m historicalData trainStartYear trainEndYear selectedAttribute)
          (k + 1)).sequence =
          (forecastStateAfter m trainEndYear
            (initialWindow m historicalData trainStartYear trainEndYear selectedAttribute)
            k).sequence.drop 1 ++
            [m.predict (forecastStateAfter m trainEndYear
              (initialWindow m historicalData trainStartYear trainEndYear selectedAttribute)
              k).sequence] := by
  have hinit := length_initialWindow m historicalData trainStartYear trainEndYear
    selectedAttribute hlookback hrange
  have hne : ¬ historicalData.length = 0 := by
    intro h0
    have hnil : historicalData = [] := List.length_eq_zero.mp h0
    rw [hnil] at hrange
    simp at hrange
    omega
  have hrecent : ¬ ((sliceLast (selectTrainData historicalData trainStartYear trainEndYear)
      m.lookback).map (extractValue selectedAttribute)).length < m.lookback := by
    rw [List.length_map, length_sliceLast _ _ hlookback
      (by rw [length_selectTrainData]; exact hrange)]
    omega
  have hinv := forecastStateAfter_eq m trainEndYear
    (initialWindow m historicalData trainStartYear trainEndYear selectedAttribute) hlookback hinit
  refine ⟨(forecastStateAfter m trainEndYear
    (initialWindow m historicalData trainStartYear trainEndYear selectedAttribute)
    H).predictions, ?_, (hinv H).2.1, (hinv H).2.2, ?_⟩
  · simp only [generateForecasts, hne, hrecent, if_false]
    rfl
  · intro k
    refine ⟨?_, (hinv k).1, ?_⟩
    · rw [(hinv k).1]
      apply length_lastN
      rw [List.length_append, hinit]
      omega
    · rw [forecastStateAfter_succ, forecastStep_sequence]

/-- Witness for claim C11: the scenario series trained on 2000 to 2006 and
rolled out over three years. -/
theorem generateForecasts_rollout_witness :
    ∃ points, generateForecasts (some scenarioModel) scenarioSeries 2000 2006
        Attribute.value 3 = Except.ok points ∧
      points.map (fun p => p.normalizedValue) =
        rolloutPredictions scenarioModel.predict scenarioModel.lookback
          (initialWindow scenarioModel scenarioSeries 2000 2006 Attribute.value) 3 ∧
      (forecastStateAfter scenarioModel 2006
        (initialWindow scenarioModel scenarioSeries 2000 2006 Attribute.value)
        2).sequence.length = scenarioModel.lookback := by
  obtain ⟨points, hok, hnv, _, hwin⟩ :=
    generateForecasts_rollout scenarioModel scenarioSeries 2000 2006 Attribute.value 3
      (by decide) (by decide)
  exact ⟨points, hok, hnv, (hwin 2).1⟩

/-! ## Claims C12, C13 and C14: the checks of `trainModelOnData` -/

theorem foldl_min_const (c : ℚ) (rest : List ℚ) (h : ∀ v ∈ rest, v = c) :
    rest.foldl min c = c := by
  induction rest with
  | nil => rfl
  | cons v tail ih =>
    have hv : v = c := h v (List.mem_cons_self _ _)
    rw [List.foldl_cons, hv, min_self]
    exact ih (fun w hw => h w (List.mem_cons_of_mem _ hw))

theorem foldl_max_const (c : ℚ) (rest : List ℚ) (h : ∀ v ∈ rest, v = c) :
    rest.foldl max c = c := by
  induction rest with
  | nil => rfl
  | cons v tail ih =>
    have hv : v = c := h v (List.mem_cons_self _ _)
    rw [List.foldl_cons, hv, max_self]
    exact ih (fun w hw => h w (List.mem_cons_of_mem _ hw))

theorem mathMin_const (c : ℚ) (values : List ℚ) (hne : values ≠ [])
    (h : ∀ v ∈ values, v = c) : mathMin values = c := by
  cases values with
  | nil => exact absurd rfl hne
  | cons v rest =>
    have hv : v = c := h v (List.mem_cons_self _ _)
    simp only [mathMin, hv]
    exact foldl_min_const c rest (fun w hw => h w (List.mem_cons_of_mem _ hw))

theorem mathMax_const (c : ℚ) (values : List ℚ) (hne : values ≠ [])
    (h : ∀ v ∈ values, v = c) : mathMax values = c := by
  cases values with
  | nil => exact absurd rfl hne
  | cons v rest =>
    have hv : v = c := h v (List.mem_cons_self _ _)
    simp only [mathMax, hv]
    exact foldl_max_const c rest (fun w hw => h w (List.mem_cons_of_mem _ hw))

/-- Over a zero range no normalized value is a finite number. -/
theorem normalizeDataJs_zero_range (values : List ℚ) (c : ℚ) :
    normalizeDataJs values c c = values.map (fun _ => none) := by
  simp [normalizeDataJs, jsQuotient]

/-- Over a non-zero range the two renderings of `normalizeData` agree. -/
theorem normalizeDataJs_eq_normalizeData (values : List ℚ) (min max : ℚ) (h : min ≠ max) :
    normalizeDataJs values min max = (normalizeData values min max).map some := by
  have hne : max - min ≠ 0 := sub_ne_zero.mpr (Ne.symm h)
  simp [normalizeDataJs, normalizeData, jsQuotient, hne]

/-- Once the values are selected, training is refused exactly when fewer than
five windows result, that is when there are fewer than ten values. -/
theorem trainModelOnData_of_selected (historicalData : List HistoricalRecord)
    (trainStartYear trainEndYear : Option Int) (selectedAttribute : Attribute)
    (selected : TrainingData)
    (h : selectTrainingValues historicalData trainStartYear trainEndYear selectedAttribute =
      Except.ok selected) :
    trainModelOnData historicalData trainStartYear trainEndYear selectedAttribute =
      if selected.values.length < 10 then Except.error TrainError.insufficientSequences
      else
        Except.ok
          { X := (createSequences (normalizeDataJs selected.values (mathMin selected.values)
              (mathMax selected.values)) 5).X
            y := (createSequences (normalizeDataJs selected.values (mathMin selected.values)
              (mathMax selected.values)) 5).y
            lookback := 5
            min := mathMin selected.values
            max := mathMax selected.values
            trainYears := selected.filteredData.map (fun d => d.year) } := by
  have hlen : (createSequences (normalizeDataJs selected.values (mathMin selected.values)
      (mathMax selected.values)) 5).X.length = selected.values.length - 5 := by
    rw [createSequences_eq]
    simp [normalizeDataJs]
  unfold trainModelOnData
  rw [h]
  simp only [tooFewSequences, hlen, decide_eq_true_eq]
  by_cases h10 : selected.values.length < 10
  · rw [if_pos (by omega), if_pos h10]
  · rw [if_neg (by omega), if_neg h10]

theorem selectTrainingValues_of_range (historicalData : List HistoricalRecord)
    (startYear endYear : Int) (selectedAttribute : Attribute)
    (hdata : historicalData ≠ []) (hs : startYear ≠ 0) (he : endYear ≠ 0) :
    selectTrainingValues historicalData (some startYear) (some endYear) selectedAttribute =
      if (selectTrainData historicalData startYear endYear).length < 7 then
        Except.error TrainError.needSevenYears
      else if ((selectTrainData historicalData startYear endYear).map
          (extractValue selectedAttribute)).all (fun v => decide (v = 0)) then
        Except.error TrainError.allZero
      else
        Except.ok
          { filteredData := selectTrainData historicalData startYear endYear
            values := (selectTrainData historicalData startYear endYear).map
              (extractValue selectedAttribute) } := by
  have hlen : ¬ historicalData.length = 0 := fun h => hdata (List.length_eq_zero.mp h)
  simp only [selectTrainingValues, hlen, if_false, hs, he, or_self]

/-- A constant non-zero series of at least seven points passes every check
that precedes normalization, and is then normalized over a zero range. -/
theorem constant_series_normalized (historicalData : List HistoricalRecord)
    (startYear endYear : Int) (selectedAttribute : Attribute) (c : ℚ)
    (hdata : historicalData ≠ []) (hs : startYear ≠ 0) (he : endYear ≠ 0)
    (hconst : ∀ d ∈ selectTrainData historicalData startYear endYear,
      extractValue selectedAttribute d = c)
    (hlen : 7 ≤ (selectTrainData historicalData startYear endYear).length) (hc : c ≠ 0) :
    selectTrainingValues historicalData (some startYear) (some endYear) selectedAttribute =
        Except.ok
          { filteredData := selectTrainData historicalData startYear endYear
            values := (selectTrainData historicalData startYear endYear).map
              (extractValue selectedAttribute) } ∧
      mathMin ((selectTrainData historicalData startYear endYear).map
        (extractValue selectedAttribute)) = c ∧
      mathMax ((selectTrainData historicalData startYear endYear).map
        (extractValue selectedAttribute)) = c ∧
      normalizeDataJs
          ((selectTrainData historicalData startYear endYear).map
            (extractValue selectedAttribute)) c c =
        ((selectTrainData historicalData startYear endYear).map
          (extractValue selectedAttribute)).map (fun _ => none) := by
  have hne : selectTrainData historicalData startYear endYear ≠ [] := by
    intro h
    rw [h] at hlen
    simp at hlen
  have hvals : ∀ v ∈ (selectTrainData historicalData startYear endYear).map
      (extractValue selectedAttribute), v = c := by
    intro v hv
    obtain ⟨d, hd, rfl⟩ := List.mem_map.mp hv
    exact hconst d hd
  have hvne : (selectTrainData historicalData startYear endYear).map
      (extractValue selectedAttribute) ≠ [] := by
    simpa using hne
  refine ⟨?_, mathMin_const c _ hvne hvals, mathMax_const c _ hvne hvals,
    normalizeDataJs_zero_range _ c⟩
  rw [selectTrainingValues_of_range _ _ _ _ hdata hs he, if_neg (by omega)]
  have hall : ¬ ((selectTrainData historicalData startYear endYear).map
      (extractValue selectedAttribute)).all (fun v => decide (v = 0)) = true := by
    intro hall
    obtain ⟨d, rest, hd⟩ := List.exists_cons_of_ne_nil hne
    have hmem : d ∈ selectTrainData historicalData startYear endYear := by
      rw [hd]
      exact List.mem_cons_self _ _
    rw [List.all_eq_true] at hall
    have h0 := hall (extractValue selectedAttribute d) (List.mem_map.mpr ⟨d, hmem, rfl⟩)
    rw [hconst d hmem] at h0
    exact hc (by simpa using h0)
  rw [if_neg hall]

/-- Counterexample to claim C12 as stated: the constant series of ten points
of value 50 is not refused. It passes every check, is normalized with
`max - min = 0`, and the targets handed to `fit` are not finite numbers. -/
theorem trainModelOnData_constant_not_refused :
    ∃ t, trainModelOnData (constantSeries 10 50) (some 2000) (some 2009) Attribute.value =
        Except.ok t ∧
      t.max - t.min = 0 ∧ t.y = [none, none, none, none, none] := by
  obtain ⟨hsel, hmin, hmax, hnorm⟩ :=
    constant_series_normalized (constantSeries 10 50) 2000 2009 Attribute.value 50
      (by decide) (by decide) (by decide) (by decide) (by decide) (by norm_num)
  have htrain := trainModelOnData_of_selected _ _ _ _ _ hsel
  have hlen : ¬ ((selectTrainData (constantSeries 10 50) 2000 2009).map
      (extractValue Attribute.value)).length < 10 := by decide
  simp only [hlen, if_false, hmin, hmax, hnorm] at htrain
  refine ⟨_, htrain, by simp, ?_⟩
  simp only [createSequences_eq]
  decide

/-- Claim C12, amended. A series whose selected values are all identical is
refused before normalization only by the seven-year check, when the
year-filtered series has fewer than 7 points, or by the all-zero check, when
the common value is 0. There is no check for a constant series: a non-zero
constant series of 7 or more points passes the checks and `normalizeData` is
evaluated with `max - min = 0`, so that no normalized value is a finite
number. -/
theorem trainModelOnData_constant_series (historicalData : List HistoricalRecord)
    (startYear endYear : Int) (selectedAttribute : Attribute) (c : ℚ)
    (hdata : historicalData ≠ []) (hs : startYear ≠ 0) (he : endYear ≠ 0)
    (hconst : ∀ d ∈ selectTrainData historicalData startYear endYear,
      extractValue selectedAttribute d = c) :
    ((selectTrainData historicalData startYear endYear).length < 7 →
      trainModelOnData historicalData (some startYear) (some endYear) selectedAttribute =
        Except.error TrainError.needSevenYears) ∧
    (7 ≤ (selectTrainData historicalData startYear endYear).length → c = 0 →
      trainModelOnData historicalData (some startYear) (some endYear) selectedAttribute =
        Except.error TrainError.allZero) ∧
    (7 ≤ (selectTrainData historicalData startYear endYear).length → c ≠ 0 →
      selectTrainingValues historicalData (some startYear) (some endYear) selectedAttribute =
          Except.ok
            { filteredData := selectTrainData historicalData startYear endYear
              values := (selectTrainData historicalData startYear endYear).map
                (extractValue selectedAttribute) } ∧
        mathMax ((selectTrainData historicalData startYear endYear).map
            (extractValue selectedAttribute)) -
          mathMin ((selectTrainData historicalData startYear endYear).map
            (extractValue selectedAttribute)) = 0 ∧
        normalizeDataJs
            ((selectTrainData historicalData startYear endYear).map
              (extractValue selectedAttribute))
            (mathMin ((selectTrainData historicalData startYear endYear).map
              (extractValue selectedAttribute)))
            (mathMax ((selectTrainData historicalData startYear endYear).map
              (extractValue selectedAttribute))) =
          ((selectTrainData historicalData startYear endYear).map
            (extractValue selectedAttribute)).map (fun _ => none)) := by
  refine ⟨?_, ?_, ?_⟩
  · intro hlt
    unfold trainModelOnData
    rw [selectTrainingValues_of_range _ _ _ _ hdata hs he, if_pos hlt]
  · intro hlen hc
    have hall : ((selectTrainData historicalData startYear endYear).map
        (extractValue selectedAttribute)).all (fun v => decide (v = 0)) = true := by
      rw [List.all_eq_true]
      intro v hv
      obtain ⟨d, hd, rfl⟩ := List.mem_map.mp hv
      rw [hconst d hd, hc]
      simp
    unfold trainModelOnData
    rw [selectTrainingValues_of_range _ _ _ _ hdata hs he, if_neg (by omega), if_pos hall]
  · intro hlen hc
    obtain ⟨hsel, hmin, hmax, hnorm⟩ := constant_series_normalized historicalData startYear
      endYear selectedAttribute c hdata hs he hconst hlen hc
    refine ⟨hsel, ?_, ?_⟩
    · rw [hmin, hmax, sub_self]
    · rw [hmin, hmax, hnorm]

/-- Witness for claim C12 as amended: the constant series of ten points of
value 50, selected over 2000 to 2009. -/
theorem trainModelOnData_constant_series_witness :
    mathMax ((selectTrainData (constantSeries 10 50) 2000 2009).map
        (extractValue Attribute.value)) -
      mathMin ((selectTrainData (constantSeries 10 50) 2000 2009).map
        (extractValue Attribute.value)) = 0 :=
  ((trainModelOnData_constant_series (constantSeries 10 50) 2000 2009 Attribute.value 50
    (by decide) (by decide) (by decide) (by decide)).2.2 (by decide) (by norm_num)).2.1

/-- A series that passes the seven-year and all-zero checks is still refused
when it has fewer than ten points, and reaches fitting from ten points on. -/
theorem trainModelOnData_threshold (historicalData : List HistoricalRecord)
    (startYear endYear : Int) (selectedAttribute : Attribute)
    (hdata : historicalData ≠ []) (hs : startYear ≠ 0) (he : endYear ≠ 0)
    (hlen : 7 ≤ (selectTrainData historicalData startYear endYear).length)
    (hnonzero : ((selectTrainData historicalData startYear endYear).map
      (extractValue selectedAttribute)).all (fun v => decide (v = 0)) = false) :
    ((selectTrainData historicalData startYear endYear).length < 10 →
      trainModelOnData historicalData (some startYear) (some endYear) selectedAttribute =
        Except.error TrainError.insufficientSequences) ∧
    (10 ≤ (selectTrainData historicalData startYear endYear).length →
      ∃ t, trainModelOnData historicalData (some startYear) (some endYear) selectedAttribute =
        Except.ok t) := by
  have hsel := selectTrainingValues_of_range historicalData startYear endYear selectedAttribute
    hdata hs he
  rw [if_neg (by omega), hnonzero] at hsel
  simp only [Bool.false_eq_true, if_false] at hsel
  have htrain := trainModelOnData_of_selected _ _ _ _ _ hsel
  simp only [List.length_map] at htrain
  constructor
  · intro hlt
    rw [htrain, if_pos hlt]
  · intro hge
    rw [htrain, if_neg (by omega)]
    exact ⟨_, rfl⟩

/-- Claim C13, at its failing input. The seven-point series 100, 110, ..., 160
for 2000 to 2006 passes the seven-year check and the all-zero check, yields 2
windows with lookback 5, and is then refused by the guard on the number of
windows instead of reaching model fitting. -/
theorem trainModelOnData_seven_points_refused :
    (selectTrainData scenarioSeries 2000 2006).length = 7 ∧
    (∃ selected, selectTrainingValues scenarioSeries (some 2000) (some 2006) Attribute.value =
        Except.ok selected ∧
      selected.values = [100, 110, 120, 130, 140, 150, 160] ∧
      (createSequences (normalizeDataJs selected.values (mathMin selected.values)
        (mathMax selected.values)) 5).X.length = 2) ∧
    trainModelOnData scenarioSeries (some 2000) (some 2006) Attribute.value =
      Except.error TrainError.insufficientSequences := by
  refine ⟨by decide, ⟨_, rfl, by decide, ?_⟩, by decide⟩
  rw [createSequences_eq]
  simp [normalizeDataJs]
  decide

/-- Counterexample to claim C14 as stated: on a series of three values and a
lookback of five `createSequences` raises nothing and returns empty arrays. -/
theorem createSequences_short_returns :
    createSequences [(some 0 : Option ℚ), some (1 / 2), some 1] 5 = { X := [], y := [] } := by
  rfl

/-- Claim C14, amended. `createSequences` applied to a series whose length is
at most the lookback raises no error: it returns no window and no target. The
insufficient-data error comes from the guard of its caller `trainModelOnData`,
which refuses an empty list of windows. -/
theorem createSequences_short {α : Type} (data : List α) (lookback : Nat)
    (h : data.length ≤ lookback) :
    createSequences data lookback = { X := [], y := [] } ∧
    tooFewSequences (createSequences data lookback) = true := by
  have heq : createSequences data lookback = { X := [], y := [] } := by
    rw [createSequences_eq]
    have h0 : data.length - lookback = 0 := by omega
    rw [h0, List.drop_eq_nil_of_le h]
    rfl
  rw [heq]
  exact ⟨rfl, rfl⟩

/-- Witness for claim C14 as amended: three values and a lookback of five. -/
theorem createSequences_short_witness :
    createSequences [10, 20, 30] 5 = { X := [], y := [] } ∧
    tooFewSequences (createSequences [10, 20, 30] 5) = true :=
  createSequences_short [10, 20, 30] 5 (by decide)

/-! ## Claim C15: the back-test accuracy -/

theorem foldl_percentError (comparisons : List Comparison) (init : ℚ) :
    comparisons.foldl (fun sum c => sum + c.percentError) init =
      init + (comparisons.map (fun c => c.percentError)).sum := by
  induction comparisons generalizing init with
  | nil => simp
  | cons c rest ih =>
    rw [List.foldl_cons, ih, List.map_cons, List.sum_cons]
    ring

theorem calculateForecastAccuracy_eq (historicalData : List HistoricalRecord)
    (selectedAttribute : Attribute) (predictions : List ForecastPoint) :
    calculateForecastAccuracy historicalData selectedAttribute predictions =
      if forecastComparisons historicalData selectedAttribute predictions = [] then none
      else
        some (((forecastComparisons historicalData selectedAttribute predictions).map
            (fun c => c.percentError)).sum /
          ((forecastComparisons historicalData selectedAttribute predictions).length : ℚ)) := by
  unfold calculateForecastAccuracy
  by_cases hp : predictions.length = 0
  · have hnil : predictions = [] := List.length_eq_zero.mp hp
    simp [hnil, forecastComparisons]
  · rw [if_neg hp]
    by_cases hc : forecastComparisons historicalData selectedAttribute predictions = []
    · simp [hc]
    · have hpos : (forecastComparisons historicalData selectedAttribute predictions).length > 0 :=
        List.length_pos.mpr hc
      simp only [hpos, if_true, hc, if_false, foldl_percentError, zero_add]

/-- With positive actual values a forecast is compared exactly when its year
has a record, and then against the first record of that year. -/
theorem compareForecast_of_positive (historicalData : List HistoricalRecord)
    (selectedAttribute : Attribute)
    (hpos : ∀ d ∈ historicalData, ∃ a, actualValueOf selectedAttribute d = some a ∧ 0 < a)
    (pred : ForecastPoint) :
    (pred.year ∉ historicalData.map (fun d => d.year) ∧
      compareForecast historicalData selectedAttribute pred = none) ∨
    (pred.year ∈ historicalData.map (fun d => d.year) ∧
      ∃ d a, historicalData.find? (fun d => decide (d.year = pred.year)) = some d ∧
        actualValueOf selectedAttribute d = some a ∧ 0 < a ∧
        compareForecast historicalData selectedAttribute pred =
          some { year := pred.year, actual := a, predicted := pred.value,
                 error := |a - (pred.value : ℚ)|,
                 percentError := |a - (pred.value : ℚ)| / a * 100 }) := by
  cases hfind : historicalData.find? (fun d => decide (d.year = pred.year)) with
  | none =>
    left
    constructor
    · intro hmem
      obtain ⟨d, hd, hy⟩ := List.mem_map.mp hmem
      have := List.find?_eq_none.mp hfind d hd
      simp [hy] at this
    · simp [compareForecast, hfind]
  | some d =>
    right
    have hd : d ∈ historicalData := List.mem_of_find?_eq_some hfind
    have hy : d.year = pred.year := by
      have := List.find?_some hfind
      simpa using this
    obtain ⟨a, ha, hapos⟩ := hpos d hd
    refine ⟨List.mem_map.mpr ⟨d, hd, hy⟩, d, a, rfl, ha, hapos, ?_⟩
    simp [compareForecast, hfind, ha, ne_of_gt hapos]

theorem forecastComparisons_years (historicalData : List HistoricalRecord)
    (selectedAttribute : Attribute)
    (hpos : ∀ d ∈ historicalData, ∃ a, actualValueOf selectedAttribute d = some a ∧ 0 < a)
    (predictions : List ForecastPoint) :
    (forecastComparisons historicalData selectedAttribute predictions).map (fun c => c.year) =
      (predictions.filter
        (fun p => decide (p.year ∈ historicalData.map (fun d => d.year)))).map
        (fun p => p.year) := by
  induction predictions with
  | nil => rfl
  | cons p rest ih =>
    unfold forecastComparisons at ih ⊢
    rw [List.filterMap_cons, List.filter_cons]
    rcases compareForecast_of_positive historicalData selectedAttribute hpos p with
      ⟨hnot, hnone⟩ | ⟨hin, d, a, _, _, _, hsome⟩
    · rw [hnone]
      simp only [hnot, decide_False, Bool.false_eq_true, if_false]
      exact ih
    · rw [hsome]
      simp only [hin, decide_True, if_true, List.map_cons, ih]

/-- Claim C15. For every list of forecast points and every historical series
with positive actual values: the accuracy shown for a forecast year that has an
actual value `a` is `100 * (1 - |a - predicted| / a)`; and
`calculateForecastAccuracy` averages the percentage errors
`|a - predicted| / a * 100` over exactly the forecast years that have a record
in the series, a year with no record being left out of the sum and of the
divisor. -/
theorem calculateForecastAccuracy_spec (historicalData : List HistoricalRecord)
    (selectedAttribute : Attribute) (predictions : List ForecastPoint)
    (hpos : ∀ d ∈ historicalData, ∃ a, actualValueOf selectedAttribute d = some a ∧ 0 < a) :
    (∀ (p : ForecastPoint) (d : HistoricalRecord) (a : ℚ),
      historicalData.find? (fun d => decide (d.year = p.year)) = some d →
      actualValueOf selectedAttribute d = some a →
      cardAccuracy historicalData selectedAttribute p =
        some (some (100 * (1 - |a - (p.value : ℚ)| / a)))) ∧
    (∀ p : ForecastPoint, p.year ∉ historicalData.map (fun d => d.year) →
      cardAccuracy historicalData selectedAttribute p = none ∧
      compareForecast historicalData selectedAttribute p = none) ∧
    (forecastComparisons historicalData selectedAttribute predictions).map (fun c => c.year) =
      (predictions.filter
        (fun p => decide (p.year ∈ historicalData.map (fun d => d.year)))).map
        (fun p => p.year) ∧
    (∀ c ∈ forecastComparisons historicalData selectedAttribute predictions,
      0 < c.actual ∧ c.percentError = |c.actual - (c.predicted : ℚ)| / c.actual * 100 ∧
      ∃ p ∈ predictions, ∃ d,
        historicalData.find? (fun d => decide (d.year = p.year)) = some d ∧
        actualValueOf selectedAttribute d = some c.actual ∧ c.predicted = p.value ∧
        c.year = p.year) ∧
    calculateForecastAccuracy historicalData selectedAttribute predictions =
      (if forecastComparisons historicalData selectedAttribute predictions = [] then none
       else
        some (((forecastComparisons historicalData selectedAttribute predictions).map
            (fun c => c.percentError)).sum /
          (((predictions.filter
            (fun p => decide (p.year ∈ historicalData.map (fun d => d.year)))).length :
              Nat) : ℚ))) := by
  have hyears := forecastComparisons_years historicalData selectedAttribute hpos predictions
  refine ⟨?_, ?_, hyears, ?_, ?_⟩
  · intro p d a hfind ha
    have hd : d ∈ historicalData := List.mem_of_find?_eq_some hfind
    obtain ⟨a', ha', hapos⟩ := hpos d hd
    have haa : a' = a := by
      rw [ha] at ha'
      exact (Option.some.inj ha').symm
    subst haa
    have hne : a' ≠ 0 := ne_of_gt hapos
    simp only [cardAccuracy, hfind, ha, jsQuotient, hne, if_false, Option.map_some']
    congr 2
    rw [abs_div, abs_of_pos hapos]
    ring
  · intro p hp
    have hfind : historicalData.find? (fun d => decide (d.year = p.year)) = none := by
      rw [List.find?_eq_none]
      intro d hd hy
      exact hp (List.mem_map.mpr ⟨d, hd, by simpa using hy⟩)
    constructor
    · simp [cardAccuracy, hfind]
    · simp [compareForecast, hfind]
  · intro c hc
    unfold forecastComparisons at hc
    obtain ⟨p, hp, hcp⟩ := List.mem_filterMap.mp hc
    rcases compareForecast_of_positive historicalData selectedAttribute hpos p with
      ⟨_, hnone⟩ | ⟨_, d, a, hfind, ha, hapos, hsome⟩
    · rw [hnone] at hcp
      exact absurd hcp (by simp)
    · rw [hsome] at hcp
      have hc' := Option.some.inj hcp
      subst hc'
      exact ⟨hapos, rfl, p, hp, d, hfind, ha, rfl, rfl⟩
  · rw [calculateForecastAccuracy_eq]
    have hlen := congrArg List.length hyears
    simp only [List.length_map] at hlen
    rw [hlen]

/-- Witness for claim C15: two forecasts, of which only the one for 2006 has a
record in the scenario series. -/
theorem calculateForecastAccuracy_spec_witness :
    (forecastComparisons scenarioSeries Attribute.value scenarioForecasts).map
        (fun c => c.year) =
      (scenarioForecasts.filter
        (fun p => decide (p.year ∈ scenarioSeries.map (fun d => d.year)))).map
        (fun p => p.year) :=
  (calculateForecastAccuracy_spec scenarioSeries Attribute.value scenarioForecasts (by
      intro d hd
      simp only [scenarioSeries, List.mem_cons, List.mem_singleton, List.not_mem_nil,
        or_false] at hd
      rcases hd with rfl | rfl | rfl | rfl | rfl | rfl | rfl <;>
        exact ⟨_, by simp [actualValueOf, orElse, truthyNumber, HistoricalRecord.field]; rfl,
          by norm_num⟩)).2.2.1

/-! ## Claims C16, C17 and C18: years and empty results of the reshapers -/

theorem parseGenderDataFromArray_example :
    parseGenderDataFromArray [[Cell.str "Year", Cell.str "Male", Cell.str " FEMALE "],
      [Cell.str "12345", Cell.str "10", Cell.str "x"], [Cell.str "n/a", Cell.str "1"],
      [Cell.str "5"]] =
    Except.ok [⟨some 12345, 10, 0⟩, ⟨some 5, 0, 0⟩] := by decide

theorem parseGeographicDataFromArray_example :
    parseGeographicDataFromArray [[Cell.str "Year", Cell.str "USA", Cell.str "Total",
        Cell.str " Japan "],
      [Cell.str "1981", Cell.str "40", Cell.str "50", Cell.str "10"],
      [Cell.str "Total", Cell.str "40", Cell.str "50", Cell.str "10"]] =
    Except.ok [⟨some 1981, "USA", 40⟩, ⟨some 1981, "Japan", 10⟩] := by decide

theorem parseTotalDataFromArray_example :
    parseTotalDataFromArray [[Cell.str "YEAR", Cell.str "Total emigrants"],
      [Cell.str "1981", Cell.str "48,867"], [Cell.str "", Cell.str "7"]] =
    Except.ok [⟨some 1981, 48⟩] := by decide

theorem digitValue_lt_ten {c : Char} (h : isDigit c = true) : digitValue c < 10 := by
  simp only [isDigit, Bool.and_eq_true, decide_eq_true_eq] at h
  unfold digitValue
  omega

/-- The decimal value of a text of four digits is at most 9999. -/
theorem decimalValue_le_of_isFourDigits {s : String} (h : isFourDigits s = true) :
    decimalValue s ≤ 9999 := by
  simp only [isFourDigits, Bool.and_eq_true, decide_eq_true_eq, List.all_eq_true] at h
  have hlt : Nat.ofDigits 10 (s.data.reverse.map digitValue) <
      10 ^ (s.data.reverse.map digitValue).length := by
    apply Nat.ofDigits_lt_base_pow_length (by norm_num)
    intro x hx
    obtain ⟨c, hc, rfl⟩ := List.mem_map.mp hx
    exact digitValue_lt_ten (h.2 c (List.mem_reverse.mp hc))
  rw [List.length_map, List.length_reverse, h.1] at hlt
  unfold decimalValue
  omega

/-- Every detected year is a number between 0 and 9999. -/
theorem yearCols_valid (headerRow : Row) :
    ∀ y ∈ (detectYearColumns headerRow).yearCols,
      ∃ n : Int, y = some n ∧ 0 ≤ n ∧ n ≤ 9999 := by
  intro y hy
  rw [detectYearColumns_eq] at hy
  obtain ⟨i, hi, rfl⟩ := List.mem_map.mp hy
  have h4 : isFourDigits (trim (Row.at headerRow i).toText) = true := by
    have := (List.mem_filter.mp hi).2
    simp only [isYearColumn, Bool.and_eq_true] at this
    exact this.2
  refine ⟨_, parseInt_of_isFourDigits h4, Int.natCast_nonneg _, ?_⟩
  have := decimalValue_le_of_isFourDigits h4
  omega

/-- A property of the accumulator that every step on an element of the list
keeps holds after the loop. -/
theorem foldl_preserves_of_mem {α β : Type} (P : β → Prop) (f : β → α → β) (l : List α)
    (hstep : ∀ b, ∀ a ∈ l, P b → P (f b a)) (init : β) (h : P init) :
    P (l.foldl f init) := by
  induction l generalizing init with
  | nil => exact h
  | cons a rest ih =>
    exact ih (fun b x hx hb => hstep b x (List.mem_cons_of_mem _ hx) hb) (f init a)
      (hstep init a (List.mem_cons_self _ _) h)

theorem ageRowStep_year (year : Option Int) (colIndex : Option Nat)
    (results : List AgeRecord) (row : Row) (P : Option Int → Prop) (hyear : P year)
    (h : ∀ r ∈ results, P r.year) : ∀ r ∈ ageRowStep year colIndex results row, P r.year := by
  unfold ageRowStep
  simp only
  split
  · exact h
  · split
    · intro r hr
      rcases List.mem_append.mp hr with hr | hr
      · exact h r hr
      · rw [List.mem_singleton] at hr
        subst hr
        exact hyear
    · exact h

theorem occupationRowStep_year (year : Option Int) (colIndex : Option Nat)
    (results : List OccupationRecord) (row : Row) (P : Option Int → Prop) (hyear : P year)
    (h : ∀ r ∈ results, P r.year) :
    ∀ r ∈ occupationRowStep year colIndex results row, P r.year := by
  unfold occupationRowStep
  simp only
  split
  · exact h
  · split
    · intro r hr
      rcases List.mem_append.mp hr with hr | hr
      · exact h r hr
      · rw [List.mem_singleton] at hr
        subst hr
        exact hyear
    · exact h

/-- The years of the records of the age parser are detected years. -/
theorem parseAgeTransposedFromArray_years (headerRow : Row) (body : List Row) :
    ∃ recs, parseAgeTransposedFromArray (headerRow :: body) = Except.ok recs ∧
      ∀ r ∈ recs, r.year ∈ (detectYearColumns headerRow).yearCols := by
  unfold parseAgeTransposedFromArray
  by_cases h0 : (detectYearColumns headerRow).yearCols.length = 0
  · exact ⟨[], by simp [h0], by simp⟩
  · refine ⟨_, by simp only [h0, if_false]; rfl, ?_⟩
    apply foldl_preserves_of_mem (fun results : List AgeRecord => ∀ r ∈ results,
      r.year ∈ (detectYearColumns headerRow).yearCols)
    · intro results entry hentry hres
      apply foldl_preserves (fun results : List AgeRecord => ∀ r ∈ results,
        r.year ∈ (detectYearColumns headerRow).yearCols)
      · intro b row hb
        exact ageRowStep_year _ _ b row _ (List.snd_mem_of_mem_enum hentry) hb
      · exact hres
    · simp

/-- The years of the records of the occupation parser are detected years. -/
theorem parseOccupationTransposedFromArray_years (headerRow : Row) (body : List Row) :
    ∃ recs, parseOccupationTransposedFromArray (headerRow :: body) = Except.ok recs ∧
      ∀ r ∈ recs, r.year ∈ (detectYearColumns headerRow).yearCols := by
  unfold parseOccupationTransposedFromArray
  by_cases h0 : (detectYearColumns headerRow).yearCols.length = 0
  · exact ⟨[], by simp [h0], by simp⟩
  · refine ⟨_, by simp only [h0, if_false]; rfl, ?_⟩
    apply foldl_preserves_of_mem (fun results : List OccupationRecord => ∀ r ∈ results,
      r.year ∈ (detectYearColumns headerRow).yearCols)
    · intro results entry hentry hres
      apply foldl_preserves (fun results : List OccupationRecord => ∀ r ∈ results,
        r.year ∈ (detectYearColumns headerRow).yearCols)
      · intro b row hb
        exact occupationRowStep_year _ _ b row _ (List.snd_mem_of_mem_enum hentry) hb
      · exact hres
    · simp

/-- The years of the records of the transposed total parser are detected
years. -/
theorem parseTotalTransposedFromArray_years (headerRow : Row) (body : List Row) :
    ∃ recs, parseTotalTransposedFromArray (headerRow :: body) = Except.ok recs ∧
      ∀ r ∈ recs, r.year ∈ (detectYearColumns headerRow).yearCols := by
  unfold parseTotalTransposedFromArray
  by_cases h0 : (detectYearColumns headerRow).yearCols.length = 0
  · exact ⟨[], by simp [h0], by simp⟩
  · refine ⟨_, by simp only [h0, if_false]; rfl, ?_⟩
    intro r hr
    obtain ⟨entry, hentry, rfl⟩ := List.mem_map.mp hr
    exact List.snd_mem_of_mem_enum hentry

/-- The years of the records of the education parser are detected years. -/
theorem parseEducationTransposedFromArray_years (headerRow : Row) (body : List Row) :
    ∃ recs, parseEducationTransposedFromArray (headerRow :: body) = Except.ok recs ∧
      ∀ r ∈ recs, r.year ∈ (detectYearColumns headerRow).yearCols := by
  unfold parseEducationTransposedFromArray
  refine ⟨_, rfl, ?_⟩
  intro r hr
  obtain ⟨entry, hentry, rfl⟩ := List.mem_map.mp hr
  exact List.snd_mem_of_mem_enum hentry

theorem geographicRowStep_year (yearIdx : Nat) (countryColumns : List CountryColumn)
    (results : List GeographicRecord) (row : Row)
    (h : ∀ r ∈ results, ∃ y : Int, r.year = some y) :
    ∀ r ∈ geographicRowStep yearIdx countryColumns results row, ∃ y : Int, r.year = some y := by
  unfold geographicRowStep
  cases parseIntCell (Row.at row yearIdx) with
  | none => exact h
  | some year =>
    apply foldl_preserves (fun results : List GeographicRecord => ∀ r ∈ results,
      ∃ y : Int, r.year = some y)
    · intro b country hb
      simp only
      split
      · intro r hr
        rcases List.mem_append.mp hr with hr | hr
        · exact hb r hr
        · rw [List.mem_singleton] at hr
          subst hr
          exact ⟨year, rfl⟩
      · exact hb
    · exact h

/-- The three flat parsers return on every table with a header row, and the
year of each of their records is a number, not `NaN`. -/
theorem flat_parsers_years (headerRow : Row) (body : List Row) :
    (∃ recs, parseGenderDataFromArray (headerRow :: body) = Except.ok recs ∧
      ∀ r ∈ recs, ∃ y : Int, r.year = some y) ∧
    (∃ recs, parseTotalDataFromArray (headerRow :: body) = Except.ok recs ∧
      ∀ r ∈ recs, ∃ y : Int, r.year = some y) ∧
    (∃ recs, parseGeographicDataFromArray (headerRow :: body) = Except.ok recs ∧
      ∀ r ∈ recs, ∃ y : Int, r.year = some y) := by
  refine ⟨?_, ?_, ?_⟩
  · unfold parseGenderDataFromArray
    simp only
    split
    · refine ⟨_, rfl, ?_⟩
      intro r hr
      have hsome := (List.mem_filter.mp hr).2
      exact Option.isSome_iff_exists.mp hsome
    · exact ⟨[], rfl, by simp⟩
  · unfold parseTotalDataFromArray
    simp only
    split
    · refine ⟨_, rfl, ?_⟩
      intro r hr
      have hsome := (List.mem_filter.mp hr).2
      exact Option.isSome_iff_exists.mp hsome
    · exact ⟨[], rfl, by simp⟩
  · unfold parseGeographicDataFromArray
    simp only
    split
    · exact ⟨[], rfl, by simp⟩
    · refine ⟨_, rfl, ?_⟩
      apply foldl_preserves (fun results : List GeographicRecord => ∀ r ∈ results,
        ∃ y : Int, r.year = some y)
      · intro b row hb
        exact geographicRowStep_year _ _ b row hb
      · simp

/-- Counterexample to claim C16 as stated: the gender parser emits the year
12345 read from a data row, and the transposed total parser emits the year 999
read from the header cell "0999"; neither is between 1000 and 9999. -/
theorem reshaper_year_not_four_digits :
    parseGenderDataFromArray [[Cell.str "Year", Cell.str "Male", Cell.str "Female"],
        [Cell.str "12345", Cell.str "10", Cell.str "20"]] =
      Except.ok [{ year := some 12345, male := 10, female := 20 }] ∧
    ¬ ((1000 : Int) ≤ 12345 ∧ (12345 : Int) ≤ 9999) ∧
    parseTotalTransposedFromArray [[Cell.str "Category", Cell.str "0999"],
        [Cell.str "Youth", Cell.str "10"]] =
      Except.ok [{ year := some 999, total := 10 }] ∧
    ¬ ((1000 : Int) ≤ 999 ∧ (999 : Int) ≤ 9999) := by
  decide

/-- Claim C16, amended. On every table with a header row, every record emitted
by a transposed reshaper (total, education, age, occupation) has as year the
value of a header cell of four digits, an integer between 0 and 9999; every
record emitted by the gender, flat total and geographic reshapers has as year
the integer that `parseInt` reads from the year cell of its row, which is never
`NaN` and is not limited to four digits. -/
theorem reshaper_years (headerRow : Row) (body : List Row) :
    (∃ recs, parseTotalTransposedFromArray (headerRow :: body) = Except.ok recs ∧
      ∀ r ∈ recs, ∃ y : Int, r.year = some y ∧ 0 ≤ y ∧ y ≤ 9999) ∧
    (∃ recs, parseEducationTransposedFromArray (headerRow :: body) = Except.ok recs ∧
      ∀ r ∈ recs, ∃ y : Int, r.year = some y ∧ 0 ≤ y ∧ y ≤ 9999) ∧
    (∃ recs, parseAgeTransposedFromArray (headerRow :: body) = Except.ok recs ∧
      ∀ r ∈ recs, ∃ y : Int, r.year = some y ∧ 0 ≤ y ∧ y ≤ 9999) ∧
    (∃ recs, parseOccupationTransposedFromArray (headerRow :: body) = Except.ok recs ∧
      ∀ r ∈ recs, ∃ y : Int, r.year = some y ∧ 0 ≤ y ∧ y ≤ 9999) ∧
    (∃ recs, parseGenderDataFromArray (headerRow :: body) = Except.ok recs ∧
      ∀ r ∈ recs, ∃ y : Int, r.year = some y) ∧
    (∃ recs, parseTotalDataFromArray (headerRow :: body) = Except.ok recs ∧
      ∀ r ∈ recs, ∃ y : Int, r.year = some y) ∧
    (∃ recs, parseGeographicDataFromArray (headerRow :: body) = Except.ok recs ∧
      ∀ r ∈ recs, ∃ y : Int, r.year = some y) := by
  have hvalid := yearCols_valid headerRow
  obtain ⟨t, ht, hty⟩ := parseTotalTransposedFromArray_years headerRow body
  obtain ⟨e, he, hey⟩ := parseEducationTransposedFromArray_years headerRow body
  obtain ⟨a, ha, hay⟩ := parseAgeTransposedFromArray_years headerRow body
  obtain ⟨o, ho, hoy⟩ := parseOccupationTransposedFromArray_years headerRow body
  obtain ⟨hg, hf, hgeo⟩ := flat_parsers_years headerRow body
  exact ⟨⟨t, ht, fun r hr => hvalid _ (hty r hr)⟩, ⟨e, he, fun r hr => hvalid _ (hey r hr)⟩,
    ⟨a, ha, fun r hr => hvalid _ (hay r hr)⟩, ⟨o, ho, fun r hr => hvalid _ (hoy r hr)⟩,
    hg, hf, hgeo⟩

theorem detectYearColumns_of_no_year (headerRow : Row)
    (h : ∀ i, 1 ≤ i → isFourDigits (trim (Row.at headerRow i).toText) = false) :
    detectYearColumns headerRow = ⟨[], []⟩ := by
  have hfilter : (List.range headerRow.length).filter (isYearColumn headerRow) = [] := by
    rw [List.filter_eq_nil_iff]
    intro i _ hi
    simp only [isYearColumn, Bool.and_eq_true, decide_eq_true_eq] at hi
    rw [h i hi.1] at hi
    exact Bool.false_ne_true hi.2
  rw [detectYearColumns_eq, hfilter]
  rfl

/-- Claim C17. For every table whose header row has no cell of four digits at
an index `≥ 1`, each transposed reshaper (education, age, total, occupation)
returns an empty result: it neither throws nor emits a record. -/
theorem transposed_empty_without_year_columns (headerRow : Row) (body : List Row)
    (h : ∀ i, 1 ≤ i → isFourDigits (trim (Row.at headerRow i).toText) = false) :
    parseEducationTransposedFromArray (headerRow :: body) = Except.ok [] ∧
    parseAgeTransposedFromArray (headerRow :: body) = Except.ok [] ∧
    parseTotalTransposedFromArray (headerRow :: body) = Except.ok [] ∧
    parseOccupationTransposedFromArray (headerRow :: body) = Except.ok [] := by
  have hcols := detectYearColumns_of_no_year headerRow h
  refine ⟨?_, ?_, ?_, ?_⟩
  · simp [parseEducationTransposedFromArray, hcols]
  · simp [parseAgeTransposedFromArray, hcols]
  · simp [parseTotalTransposedFromArray, hcols]
  · simp [parseOccupationTransposedFromArray, hcols]

/-- Witness for claim C17: a table in the flat layout, whose header holds no
year, given to the transposed reshapers. -/
theorem transposed_empty_without_year_columns_witness :
    parseEducationTransposedFromArray ([Cell.str "2000", Cell.str "Total", Cell.str "20001"] ::
        [[Cell.str "1981", Cell.str "5", Cell.str "6"]]) = Except.ok [] ∧
    parseAgeTransposedFromArray ([Cell.str "2000", Cell.str "Total", Cell.str "20001"] ::
        [[Cell.str "1981", Cell.str "5", Cell.str "6"]]) = Except.ok [] ∧
    parseTotalTransposedFromArray ([Cell.str "2000", Cell.str "Total", Cell.str "20001"] ::
        [[Cell.str "1981", Cell.str "5", Cell.str "6"]]) = Except.ok [] ∧
    parseOccupationTransposedFromArray ([Cell.str "2000", Cell.str "Total", Cell.str "20001"] ::
        [[Cell.str "1981", Cell.str "5", Cell.str "6"]]) = Except.ok [] :=
  transposed_empty_without_year_columns [Cell.str "2000", Cell.str "Total", Cell.str "20001"]
    [[Cell.str "1981", Cell.str "5", Cell.str "6"]] (by
      intro i hi
      match i, hi with
      | 1, _ => decide
      | 2, _ => decide
      | (n + 3), _ => rfl)

theorem findIndex_eq_none {α : Type} (p : α → Bool) (l : List α)
    (h : ∀ a ∈ l, p a = false) : findIndex p l = none := by
  induction l with
  | nil => rfl
  | cons a rest ih =>
    have ha : p a = false := h a (List.mem_cons_self _ _)
    simp only [findIndex, ha, Bool.false_eq_true, if_false,
      ih (fun x hx => h x (List.mem_cons_of_mem _ hx)), Option.map_none']

/-- Claim C18. `parseGenderDataFromArray` returns an empty result whenever the
header row has no cell containing "year", none containing "male" but not
"female", or none containing "female"; `parseTotalDataFromArray` returns an
empty result whenever the header has no cell containing "year" or none
containing "total" (headers trimmed and compared in lower case); neither
throws on a table with a header row, whatever the length of its data rows. -/
theorem flat_parsers_missing_columns (headerRow : Row) (body : List Row) :
    (((∀ h ∈ lowerHeaders headerRow, includes h "year" = false) ∨
        (∀ h ∈ lowerHeaders headerRow,
          (includes h "male" && !includes h "female") = false) ∨
        (∀ h ∈ lowerHeaders headerRow, includes h "female" = false)) →
      parseGenderDataFromArray (headerRow :: body) = Except.ok []) ∧
    (((∀ h ∈ lowerHeaders headerRow, includes h "year" = false) ∨
        (∀ h ∈ lowerHeaders headerRow, includes h "total" = false)) →
      parseTotalDataFromArray (headerRow :: body) = Except.ok []) ∧
    (∃ recs, parseGenderDataFromArray (headerRow :: body) = Except.ok recs) ∧
    (∃ recs, parseTotalDataFromArray (headerRow :: body) = Except.ok recs) := by
  refine ⟨?_, ?_, ?_, ?_⟩
  · rintro (h | h | h)
    · simp [parseGenderDataFromArray, findIndex_eq_none _ _ h]
    · have hm := findIndex_eq_none (fun h => includes h "male" && !includes h "female") _ h
      unfold parseGenderDataFromArray
      simp only [hm]
      split <;> simp_all
    · have hf := findIndex_eq_none (fun h => includes h "female") _ h
      unfold parseGenderDataFromArray
      simp only [hf]
      split <;> simp_all
  · rintro (h | h)
    · simp [parseTotalDataFromArray, findIndex_eq_none _ _ h]
    · have ht := findIndex_eq_none (fun h => includes h "total") _ h
      unfold parseTotalDataFromArray
      simp only [ht]
      split <;> simp_all
  · obtain ⟨recs, hrecs, _⟩ := (flat_parsers_years headerRow body).1
    exact ⟨recs, hrecs⟩
  · obtain ⟨recs, hrecs, _⟩ := (flat_parsers_years headerRow body).2.1
    exact ⟨recs, hrecs⟩

/-- Witness for claim C18: a header with a year and a female column but no
male column, over data rows shorter than the header. -/
theorem flat_parsers_missing_columns_witness :
    parseGenderDataFromArray ([Cell.str "Year", Cell.str "Female", Cell.str "Notes"] ::
      [[Cell.str "1981", Cell.str "5"], [Cell.str "1982"]]) = Except.ok [] :=
  (flat_parsers_missing_columns [Cell.str "Year", Cell.str "Female", Cell.str "Notes"]
    [[Cell.str "1981", Cell.str "5"], [Cell.str "1982"]]).1 (Or.inr (Or.inl (by decide)))

/-! ## Claim C19: `findRow` -/

/-- Claim C19. `findRow` returns the first data row, in table order and the
header row left out, whose trimmed first cell equals one of the accepted
spellings when both are lower-cased, and returns `null` exactly when no data
row matches a spelling. -/
theorem findRow_spec (data : List Row) (variations : List String) :
    findRow (data.drop 1) variations =
      (data.drop 1).find?
        (fun row => decide (toLowerCase (rowLabel row) ∈ variations.map toLowerCase)) ∧
    (findRow (data.drop 1) variations = none ↔
      ∀ row ∈ data.drop 1, toLowerCase (rowLabel row) ∉ variations.map toLowerCase) ∧
    (∀ row, findRow (data.drop 1) variations = some row ↔
      (toLowerCase (rowLabel row) ∈ variations.map toLowerCase ∧
        ∃ before after, data.drop 1 = before ++ row :: after ∧
          ∀ earlier ∈ before,
            toLowerCase (rowLabel earlier) ∉ variations.map toLowerCase)) := by
  refine ⟨findRow_eq_find? _ _, ?_, ?_⟩
  · rw [findRow_eq_find?, List.find?_eq_none]
    simp only [decide_eq_true_eq]
  · intro row
    rw [findRow_eq_find?, List.find?_eq_some]
    simp only [decide_eq_true_eq, Bool.not_eq_true', decide_eq_false_iff_not]

/-- The header row is never returned by `findRow`, and the first of two
matching data rows is. -/
theorem findRow_example :
    findRow ([[Cell.str "Elementary Level", Cell.str "2000"]].drop 1)
      ["Elementary Level", "Elementary level"] = none ∧
    findRow ([[Cell.str "Category", Cell.str "2000"],
        [Cell.str "College Level", Cell.str "1"],
        [Cell.str "  ELEMENTARY level ", Cell.str "2"],
        [Cell.str "Elementary Level", Cell.str "3"]].drop 1)
      ["Elementary Level", "Elementary level"] =
      some [Cell.str "  ELEMENTARY level ", Cell.str "2"] := by
  decide

/-! ## Claim C20: what a failed upload changes -/

theorem startUpload_selectedChartType (st : UploadState) (dataType : String) :
    (startUpload st dataType).selectedChartType = dataType := by
  unfold startUpload
  by_cases h : dataType = "occupation"
  · simp [h]
  · simp [h]

/-- Claim C20, at its failing input. After a gender upload, which leaves a
preview of gender records that renders, an age file whose reshape yields no
record is uploaded. The assignments that open `handleFileUpload` already
replace the selected chart type by "age" while the preview keeps the gender
records; the render that follows reads `row.count` of a gender record and
throws, so the component is unmounted before any error message is shown. From
the initial state, where there is no preview, the same file leaves the error
message, and the selected chart type is "age", no longer "gender". -/
theorem handleFileUpload_failure_unmounts :
    handleFileUpload initialUploadState
        (UploadInput.parsed [[Cell.str "Year", Cell.str "Male", Cell.str "Female"],
          [Cell.str "1981", Cell.str "10", Cell.str "20"]]) "gender" = genderUploaded ∧
    previewRenders genderUploaded = true ∧
    reshape "age" [Cell.str "Age", Cell.str "Count"]
        [[Cell.str "Age", Cell.str "Count"], [Cell.str "15", Cell.str "3"]] =
      Except.ok Records.empty ∧
    (startUpload genderUploaded "age").preview = genderUploaded.preview ∧
    (startUpload genderUploaded "age").selectedChartType = "age" ∧
    previewRenders (startUpload genderUploaded "age") = false ∧
    uploadAndRender genderUploaded
        (UploadInput.parsed [[Cell.str "Age", Cell.str "Count"], [Cell.str "15", Cell.str "3"]])
        "age" = none ∧
    (uploadAndRender initialUploadState
        (UploadInput.parsed [[Cell.str "Age", Cell.str "Count"], [Cell.str "15", Cell.str "3"]])
        "age").map (fun st => (st.parseError, st.preview, st.selectedChartType)) =
      some (some "No valid processed data. Please check your CSV format.", none, "age") ∧
    initialUploadState.selectedChartType = "gender" := by
  decide

/-- Whatever the state, the assignments that open `handleFileUpload` keep the
preview and set the selected chart type to the type of the upload; the render
that follows succeeds exactly when there is no preview, the preview has no
row, or its rows have the fields of the new type. -/
theorem startUpload_render (st : UploadState) (dataType : String) :
    (startUpload st dataType).preview = st.preview ∧
    (startUpload st dataType).selectedChartType = dataType ∧
    (previewRenders (startUpload st dataType) = true ↔
      ∀ preview, st.preview = some preview →
        preview.length = 0 ∨ rowFieldsPresent dataType preview = true) := by
  have htype := startUpload_selectedChartType st dataType
  refine ⟨rfl, htype, ?_⟩
  have hprev : (startUpload st dataType).preview = st.preview := rfl
  unfold previewRenders
  rw [hprev, htype]
  cases st.preview with
  | none => simp
  | some preview => simp

/-- The two uploads of the occupation pair render at every step, in both
orders. -/
theorem uploadAndRender_occupation_pair :
    (uploadAndRender initialUploadState (UploadInput.parsed educationFile)
        "occupation-education").bind
      (fun st => uploadAndRender st (UploadInput.parsed occupationFile)
        "occupation-occupation") =
      some (handleFileUpload
        (handleFileUpload initialUploadState (UploadInput.parsed educationFile)
          "occupation-education")
        (UploadInput.parsed occupationFile) "occupation-occupation") ∧
    (uploadAndRender initialUploadState (UploadInput.parsed occupationFile)
        "occupation-occupation").bind
      (fun st => uploadAndRender st (UploadInput.parsed educationFile)
        "occupation-education") =
      some (handleFileUpload
        (handleFileUpload initialUploadState (UploadInput.parsed occupationFile)
          "occupation-occupation")
        (UploadInput.parsed educationFile) "occupation-education") := by
  decide

/-! ## Claim C22: `cleanNumeric` on the text of a number -/

theorem digitChar_isDigit {k : Nat} (h : k < 10) :
    isDigit (Nat.digitChar k) = true ∧ digitValue (Nat.digitChar k) = k := by
  interval_cases k <;> decide

theorem digitsToNat_append_singleton (l : List Char) (c : Char) :
    digitsToNat 10 digitValue (l ++ [c]) = digitsToNat 10 digitValue l * 10 + digitValue c := by
  simp [digitsToNat, List.foldl_append]

/-- The digits that `Nat.toDigits` puts in front of the accumulator are decimal
digits whose value is the number. -/
theorem toDigitsCore_spec (fuel : Nat) :
    ∀ (n : Nat) (ds : List Char), n < fuel →
      ∃ l, Nat.toDigitsCore 10 fuel n ds = l ++ ds ∧ l ≠ [] ∧
        (∀ c ∈ l, isDigit c = true) ∧ digitsToNat 10 digitValue l = n := by
  induction fuel with
  | zero => intro n ds h; omega
  | succ fuel ih =>
    intro n ds h
    have hd := digitChar_isDigit (Nat.mod_lt n (by norm_num : 10 > 0))
    unfold Nat.toDigitsCore
    by_cases h0 : n / 10 = 0
    · simp only [h0, if_true]
      refine ⟨[Nat.digitChar (n % 10)], rfl, by simp, ?_, ?_⟩
      · intro c hc
        rw [List.mem_singleton] at hc
        rw [hc]
        exact hd.1
      · have hlt : n < 10 := by omega
        have hmod : n % 10 = n := Nat.mod_eq_of_lt hlt
        simp only [digitsToNat, List.foldl_cons, List.foldl_nil, hd.2]
        omega
    · simp only [h0, if_false]
      obtain ⟨l, hl, _, hall, hval⟩ := ih (n / 10) (Nat.digitChar (n % 10) :: ds) (by omega)
      refine ⟨l ++ [Nat.digitChar (n % 10)], by rw [hl]; simp, by simp, ?_, ?_⟩
      · intro c hc
        rcases List.mem_append.mp hc with hc | hc
        · exact hall c hc
        · rw [List.mem_singleton] at hc
          rw [hc]
          exact hd.1
      · rw [digitsToNat_append_singleton, hval, hd.2]
        omega

/-- The decimal text of a natural number is a non-empty string of digits whose
value is the number. -/
theorem repr_spec (n : Nat) :
    (toString n).data ≠ [] ∧ (toString n).data.all isDigit = true ∧
      digitsToNat 10 digitValue (toString n).data = n := by
  obtain ⟨l, hl, hne, hall, hval⟩ := toDigitsCore_spec (n + 1) n [] (by omega)
  have hdata : (toString n).data = l := by
    show (Nat.toDigits 10 n) = l
    unfold Nat.toDigits
    rw [hl, List.append_nil]
  rw [hdata]
  exact ⟨hne, List.all_eq_true.mpr hall, hval⟩

/-- On a non-empty text of digits `cleanNumeric` gives the double nearest to
the value of the text. -/
theorem cleanNumeric_of_digits (s : String) (hall : s.data.all isDigit = true) :
    cleanNumeric (Cell.str s) =
      ((nearestDouble (digitsToNat 10 digitValue s.data) : Nat) : Int) := by
  have hfilter : s.data.filter isDigit = s.data := by
    rw [List.filter_eq_self]
    exact List.all_eq_true.mp hall
  have hstrip : stripNonDigits s = s := by
    unfold stripNonDigits
    rw [hfilter]
  rw [cleanNumeric_eq]
  simp only [Cell.toText, hstrip]
  rw [decimalValue, ← digitsToNat_eq_ofDigits]

theorem cleanNumeric_toString (n : Nat) :
    cleanNumeric (Cell.str (toString n)) = ((nearestDouble n : Nat) : Int) := by
  obtain ⟨_, hall, hval⟩ := repr_spec n
  rw [cleanNumeric_of_digits _ hall, hval]

theorem cleanNumeric_nonneg (c : Cell) : 0 ≤ cleanNumeric c := by
  rw [cleanNumeric_eq]
  exact Int.natCast_nonneg _

theorem numberToString_natCast (n : Nat) (h : n < 10 ^ 21) :
    numberToString (n : Int) = toString n := by
  unfold numberToString
  rw [if_pos (by simpa using h)]
  rfl

theorem cleanNumeric_num_natCast (n : Nat) (h : n < 10 ^ 21) :
    cleanNumeric (Cell.num (n : Int)) = ((nearestDouble n : Nat) : Int) := by
  obtain ⟨hne, hall, hval⟩ := repr_spec n
  have htext : (Cell.num (n : Int)).toText = toString n := numberToString_natCast n h
  have hfilter : (toString n).data.filter isDigit = (toString n).data := by
    rw [List.filter_eq_self]
    exact List.all_eq_true.mp hall
  have hstrip : stripNonDigits (toString n) = toString n := by
    unfold stripNonDigits
    rw [hfilter]
  rw [cleanNumeric_eq, htext, hstrip, decimalValue, ← digitsToNat_eq_ofDigits, hval]

/-- Counterexample to claim C22 as stated: the decimal text of `2 ^ 53 + 1` is
cleaned to `2 ^ 53`; and the cell of 22 digits "1000000000000000000000" is
cleaned to `10 ^ 21`, whose text is "1e+21", which is cleaned to 121. -/
theorem cleanNumeric_text_not_fixed :
    toString (9007199254740993 : Nat) = "9007199254740993" ∧
    cleanNumeric (Cell.str (toString (9007199254740993 : Nat))) = 9007199254740992 ∧
    cleanNumeric (Cell.str "1000000000000000000000") = 10 ^ 21 ∧
    (Cell.num (cleanNumeric (Cell.str "1000000000000000000000"))).toText = "1e+21" ∧
    cleanNumeric
      (Cell.str (Cell.num (cleanNumeric (Cell.str "1000000000000000000000"))).toText) = 121 := by
  decide

/-- Claim C22, amended. For every non-negative integer `n` up to `2 ^ 53`,
`cleanNumeric` applied to the decimal text of `n` (or to the number itself)
returns `n`; for a larger `n` within the range of the doubles it returns the
double nearest to `n`; and for every cell whose cleaned value is below
`10 ^ 21`, cleaning the text of the cleaned value (or the cleaned value itself)
changes nothing. -/
theorem cleanNumeric_idempotent :
    (∀ n : Nat, n ≤ 2 ^ 53 →
      cleanNumeric (Cell.str (toString n)) = (n : Int) ∧
      cleanNumeric (Cell.num (n : Int)) = (n : Int)) ∧
    (∀ n : Nat, n < 2 ^ 1024 - 2 ^ 970 →
      cleanNumeric (Cell.str (toString n)) = ((nearestDouble n : Nat) : Int)) ∧
    (∀ c : Cell, cleanNumeric c < 10 ^ 21 →
      cleanNumeric (Cell.str (Cell.num (cleanNumeric c)).toText) = cleanNumeric c ∧
      cleanNumeric (Cell.num (cleanNumeric c)) = cleanNumeric c) := by
  refine ⟨fun n hn => ?_, fun n _ => cleanNumeric_toString n, fun c hc => ?_⟩
  · have hsmall : n < 10 ^ 21 := lt_of_le_of_lt hn (by norm_num)
    rw [cleanNumeric_toString, cleanNumeric_num_natCast n hsmall, nearestDouble_of_le n hn]
    exact ⟨rfl, rfl⟩
  · have hce := cleanNumeric_eq c
    rw [hce] at hc ⊢
    have hsmall : nearestDouble (decimalValue (stripNonDigits c.toText)) < 10 ^ 21 := by
      exact_mod_cast hc
    have htext : (Cell.num
        ((nearestDouble (decimalValue (stripNonDigits c.toText)) : Nat) : Int)).toText =
        toString (nearestDouble (decimalValue (stripNonDigits c.toText))) :=
      numberToString_natCast _ hsmall
    rw [htext, cleanNumeric_toString, cleanNumeric_num_natCast _ hsmall,
      nearestDouble_idempotent]
    exact ⟨rfl, rfl⟩

/-- The theorem `cleanNumeric_idempotent` at the number 1234 and at the cell
"1,234". -/
theorem cleanNumeric_idempotent_witness :
    ((1234 : Nat) ≤ 2 ^ 53 ∧ cleanNumeric (Cell.str (toString (1234 : Nat))) = 1234) ∧
    (cleanNumeric (Cell.str "1,234") < 10 ^ 21 ∧
      cleanNumeric (Cell.str (Cell.num (cleanNumeric (Cell.str "1,234"))).toText) =
        cleanNumeric (Cell.str "1,234")) :=
  ⟨⟨by norm_num, (cleanNumeric_idempotent.1 1234 (by norm_num)).1⟩,
    ⟨by decide, (cleanNumeric_idempotent.2.2 (Cell.str "1,234") (by decide)).1⟩⟩

theorem cleanNumeric_idempotent_example :
    cleanNumeric (Cell.str (toString (cleanNumeric (Cell.str "1,234")))) = 1234 ∧
    cleanNumeric (Cell.str (toString (1234 : Nat))) = 1234 ∧
    (Cell.num (2 ^ 70)).toText = "1.1805916207174113e+21" ∧
    (Cell.num (-(10 ^ 21))).toText = "-1e+21" ∧
    (Cell.num 123456789012345680000).toText = "123456789012345680000" := by
  decide

/-! ## Claim C21: the document id of a geographic record -/

/-- Counterexample to claim C21 as stated: two records of the same year whose
countries differ, by the kind of white space or by an underscore, get the same
document id. -/
theorem geographyDocId_collision :
    ({ year := some 1981, country := "South Korea", count := 5 } : GeographicRecord) ≠
      { year := some 1981, country := "South  Korea", count := 5 } ∧
    geographyDocId { year := some 1981, country := "South Korea", count := 5 } =
      geographyDocId { year := some 1981, country := "South  Korea", count := 5 } ∧
    geographyDocId { year := some 1981, country := "South Korea", count := 5 } =
      geographyDocId { year := some 1981, country := "South_Korea", count := 7 } ∧
    geographyDocId { year := some 1981, country := "South Korea", count := 5 } =
      "1981_South_Korea" := by
  decide

theorem parseInt_toString_nat (n : Nat) : parseInt (toString n) = some (n : Int) := by
  obtain ⟨hne, hall, hval⟩ := repr_spec n
  have h := parseInt_digits (toString n).data hne hall
  rw [decimalValue, ← digitsToNat_eq_ofDigits, hval] at h
  exact h

theorem parseInt_minus_digits (l : List Char) (hne : l ≠ []) (h : l.all isDigit = true) :
    parseInt ⟨'-' :: l⟩ = some (-((digitsToNat 10 digitValue l : Nat) : Int)) := by
  have hall : ∀ x ∈ l, isDigit x = true := by simpa [List.all_eq_true] using h
  have htake : l.takeWhile isDigit = l := List.takeWhile_eq_self_iff.mpr hall
  have hdrop : ('-' :: l).dropWhile isWhiteSpace = '-' :: l := by
    rw [List.dropWhile_cons]
    have : isWhiteSpace '-' = false := by decide
    simp [this]
  have hsign : stripSign ('-' :: l) = (true, l) := by simp [stripSign]
  have hhex : stripHexPrefix l = none := stripHexPrefix_of_digits h
  obtain ⟨c, r, rfl⟩ := List.exists_cons_of_ne_nil hne
  simp only [parseInt, hdrop, hsign, hhex, htake]
  simp

/-- Reading back the text of a number gives the number. -/
theorem parseInt_numberText (year : Option Int) : parseInt (numberText year) = year := by
  cases year with
  | none => decide
  | some n =>
    cases n with
    | ofNat m => exact parseInt_toString_nat m
    | negSucc m =>
      obtain ⟨hne, hall, hval⟩ := repr_spec (m + 1)
      have htext : numberText (some (Int.negSucc m)) = ⟨'-' :: (toString (m + 1)).data⟩ := rfl
      rw [htext, parseInt_minus_digits _ hne hall, hval]
      rfl

theorem numberText_no_underscore (year : Option Int) :
    ∀ c ∈ (numberText year).data, c ≠ '_' := by
  have hdigit : ∀ c : Char, isDigit c = true → c ≠ '_' := by
    intro c hc h
    rw [h] at hc
    revert hc
    decide
  cases year with
  | none => decide
  | some n =>
    cases n with
    | ofNat m =>
      intro c hc
      exact hdigit c (List.all_eq_true.mp (repr_spec m).2.1 c hc)
    | negSucc m =>
      intro c hc
      have htext : (numberText (some (Int.negSucc m))).data =
          '-' :: (toString (m + 1)).data := rfl
      rw [htext, List.mem_cons] at hc
      rcases hc with rfl | hc
      · decide
      · exact hdigit c (List.all_eq_true.mp (repr_spec (m + 1)).2.1 c hc)

/-- Two texts cut at their first underscore agree part by part. -/
theorem split_at_underscore (l₁ l₂ r₁ r₂ : List Char)
    (h₁ : ∀ c ∈ l₁, c ≠ '_') (h₂ : ∀ c ∈ l₂, c ≠ '_')
    (h : l₁ ++ '_' :: r₁ = l₂ ++ '_' :: r₂) : l₁ = l₂ ∧ r₁ = r₂ := by
  induction l₁ generalizing l₂ with
  | nil =>
    cases l₂ with
    | nil => exact ⟨rfl, by simpa using h⟩
    | cons b t =>
      simp only [List.nil_append, List.cons_append, List.cons.injEq] at h
      exact absurd h.1.symm (h₂ b (List.mem_cons_self _ _))
  | cons a t ih =>
    cases l₂ with
    | nil =>
      simp only [List.nil_append, List.cons_append, List.cons.injEq] at h
      exact absurd h.1 (h₁ a (List.mem_cons_self _ _))
    | cons b u =>
      simp only [List.cons_append, List.cons.injEq] at h
      obtain ⟨hl, hr⟩ := ih u (fun c hc => h₁ c (List.mem_cons_of_mem _ hc))
        (fun c hc => h₂ c (List.mem_cons_of_mem _ hc)) h.2
      exact ⟨by rw [h.1, hl], hr⟩

/-- Claim C21, amended. The document id that `addEmigrantByGeography` builds
is a key of the year and of the country with every run of white space replaced
by one underscore: two records get the same id exactly when they have the same
year and their countries are equal after that replacement. Records that differ
in year always get different ids. -/
theorem geographyDocId_eq_iff (a b : GeographicRecord) :
    (geographyDocId a = geographyDocId b ↔
      a.year = b.year ∧ countryKey a.country = countryKey b.country) ∧
    (a.year ≠ b.year → geographyDocId a ≠ geographyDocId b) := by
  have hiff : geographyDocId a = geographyDocId b ↔
      a.year = b.year ∧ countryKey a.country = countryKey b.country := by
    constructor
    · intro h
      have hdata := congrArg String.data h
      simp only [geographyDocId, String.data_append] at hdata
      rw [List.append_assoc, List.append_assoc, List.singleton_append,
        List.singleton_append] at hdata
      obtain ⟨hl, hr⟩ := split_at_underscore _ _ _ _ (numberText_no_underscore a.year)
        (numberText_no_underscore b.year) hdata
      constructor
      · have ha := parseInt_numberText a.year
        have hb := parseInt_numberText b.year
        rw [String.ext hl, hb] at ha
        exact ha.symm
      · exact String.ext hr
    · rintro ⟨hy, hc⟩
      unfold geographyDocId
      rw [hy, hc]
  exact ⟨hiff, fun hne h => hne (hiff.mp h).1⟩

/-- Witness for claim C21 as amended: the same country in two different years. -/
theorem geographyDocId_eq_iff_witness :
    geographyDocId { year := some 1981, country := "Japan", count := 5 } ≠
      geographyDocId { year := some 1982, country := "Japan", count := 5 } :=
  (geographyDocId_eq_iff { year := some 1981, country := "Japan", count := 5 }
    { year := some 1982, country := "Japan", count := 5 }).2 (by decide)

/-! ## Claim C23: `EmigrantForecaster.normalize` -/

theorem foldl_min_le (l : List ℚ) (a : ℚ) :
    l.foldl min a ≤ a ∧ ∀ v ∈ l, l.foldl min a ≤ v := by
  induction l generalizing a with
  | nil => exact ⟨le_refl a, by simp⟩
  | cons x rest ih =>
    rw [List.foldl_cons]
    obtain ⟨h1, h2⟩ := ih (min a x)
    refine ⟨le_trans h1 (min_le_left a x), ?_⟩
    intro v hv
    rcases List.mem_cons.mp hv with rfl | hv
    · exact le_trans h1 (min_le_right a v)
    · exact h2 v hv

theorem foldl_min_mem (l : List ℚ) (a : ℚ) : l.foldl min a ∈ a :: l := by
  induction l generalizing a with
  | nil => simp
  | cons x rest ih =>
    rw [List.foldl_cons]
    have h := ih (min a x)
    rcases List.mem_cons.mp h with h | h
    · rw [h]
      rcases min_choice a x with hm | hm
      · rw [hm]; exact List.mem_cons_self _ _
      · rw [hm]; exact List.mem_cons_of_mem _ (List.mem_cons_self _ _)
    · exact List.mem_cons_of_mem _ (List.mem_cons_of_mem _ h)

theorem foldl_max_ge (l : List ℚ) (a : ℚ) :
    a ≤ l.foldl max a ∧ ∀ v ∈ l, v ≤ l.foldl max a := by
  induction l generalizing a with
  | nil => exact ⟨le_refl a, by simp⟩
  | cons x rest ih =>
    rw [List.foldl_cons]
    obtain ⟨h1, h2⟩ := ih (max a x)
    refine ⟨le_trans (le_max_left a x) h1, ?_⟩
    intro v hv
    rcases List.mem_cons.mp hv with rfl | hv
    · exact le_trans (le_max_right a v) h1
    · exact h2 v hv

theorem foldl_max_mem (l : List ℚ) (a : ℚ) : l.foldl max a ∈ a :: l := by
  induction l generalizing a with
  | nil => simp
  | cons x rest ih =>
    rw [List.foldl_cons]
    have h := ih (max a x)
    rcases List.mem_cons.mp h with h | h
    · rw [h]
      rcases max_choice a x with hm | hm
      · rw [hm]; exact List.mem_cons_self _ _
      · rw [hm]; exact List.mem_cons_of_mem _ (List.mem_cons_self _ _)
    · exact List.mem_cons_of_mem _ (List.mem_cons_of_mem _ h)

/-- On a non-empty list `Math.min` is a member of the list below every
member. -/
theorem mathMin_spec (values : List ℚ) (hne : values ≠ []) :
    mathMin values ∈ values ∧ ∀ v ∈ values, mathMin values ≤ v := by
  cases values with
  | nil => exact absurd rfl hne
  | cons a rest =>
    refine ⟨foldl_min_mem rest a, ?_⟩
    intro v hv
    rcases List.mem_cons.mp hv with rfl | hv
    · exact (foldl_min_le rest v).1
    · exact (foldl_min_le rest a).2 v hv

/-- On a non-empty list `Math.max` is a member of the list above every
member. -/
theorem mathMax_spec (values : List ℚ) (hne : values ≠ []) :
    mathMax values ∈ values ∧ ∀ v ∈ values, v ≤ mathMax values := by
  cases values with
  | nil => exact absurd rfl hne
  | cons a rest =>
    refine ⟨foldl_max_mem rest a, ?_⟩
    intro v hv
    rcases List.mem_cons.mp hv with rfl | hv
    · exact (foldl_max_ge rest v).1
    · exact (foldl_max_ge rest a).2 v hv

/-- Claim C23. For every list of values whose maximum exceeds its minimum,
`EmigrantForecaster.normalize` stores the minimum and the maximum of the list
with `scaler.min ≤ scaler.max` and `scaler.range = max - min`, and returns for
each value `(v - min) / (max - min)`, which lies in `[0, 1]`, is 0 for a
minimum and 1 for a maximum. The `normalizeData` of
`public/Models/trainModel.js` returns the same normalized values. -/
theorem forecaster_normalize_spec (values : List ℚ)
    (hspread : ∃ a ∈ values, ∃ b ∈ values, a < b) :
    ((EmigrantForecaster.normalize values).1.min ∈ values ∧
      ∀ v ∈ values, (EmigrantForecaster.normalize values).1.min ≤ v) ∧
    ((EmigrantForecaster.normalize values).1.max ∈ values ∧
      ∀ v ∈ values, v ≤ (EmigrantForecaster.normalize values).1.max) ∧
    (EmigrantForecaster.normalize values).1.min ≤ (EmigrantForecaster.normalize values).1.max ∧
    (EmigrantForecaster.normalize values).1.range =
      (EmigrantForecaster.normalize values).1.max -
        (EmigrantForecaster.normalize values).1.min ∧
    (EmigrantForecaster.normalize values).2 =
      values.map (fun v => some ((v - (EmigrantForecaster.normalize values).1.min) /
        ((EmigrantForecaster.normalize values).1.max -
          (EmigrantForecaster.normalize values).1.min))) ∧
    (∀ n, some n ∈ (EmigrantForecaster.normalize values).2 → 0 ≤ n ∧ n ≤ 1) ∧
    (∀ i : Nat, values[i]? = some (EmigrantForecaster.normalize values).1.min →
      (EmigrantForecaster.normalize values).2[i]? = some (some 0)) ∧
    (∀ i : Nat, values[i]? = some (EmigrantForecaster.normalize values).1.max →
      (EmigrantForecaster.normalize values).2[i]? = some (some 1)) ∧
    (∀ data : List SeriesPoint, data.map (fun d => d.value) = values →
      (ModelTrainer.normalizeData data).normalized.map (fun p => p.normalizedValue) =
        (EmigrantForecaster.normalize values).2) := by
  obtain ⟨a, ha, b, hb, hab⟩ := hspread
  have hne : values ≠ [] := List.ne_nil_of_mem ha
  obtain ⟨hminmem, hminle⟩ := mathMin_spec values hne
  obtain ⟨hmaxmem, hmaxge⟩ := mathMax_spec values hne
  have hlt : mathMin values < mathMax values :=
    lt_of_le_of_lt (hminle a ha) (lt_of_lt_of_le hab (hmaxge b hb))
  have hpos : 0 < mathMax values - mathMin values := sub_pos.mpr hlt
  have hrange : mathMax values - mathMin values ≠ 0 := ne_of_gt hpos
  have hvalues : (EmigrantForecaster.normalize values).2 =
      values.map (fun v => some ((v - mathMin values) / (mathMax values - mathMin values))) := by
    simp [EmigrantForecaster.normalize, jsQuotient, hrange]
  refine ⟨⟨hminmem, hminle⟩, ⟨hmaxmem, hmaxge⟩, le_of_lt hlt, rfl, hvalues, ?_, ?_, ?_, ?_⟩
  · intro n hn
    rw [hvalues] at hn
    obtain ⟨v, hv, hvn⟩ := List.mem_map.mp hn
    have hn' := Option.some.inj hvn
    subst hn'
    constructor
    · exact div_nonneg (sub_nonneg.mpr (hminle v hv)) (le_of_lt hpos)
    · rw [div_le_one hpos]
      linarith [hmaxge v hv]
  · intro i hi
    have hi' : values[i]? = some (mathMin values) := hi
    rw [hvalues, List.getElem?_map, hi']
    simp
  · intro i hi
    have hi' : values[i]? = some (mathMax values) := hi
    rw [hvalues, List.getElem?_map, hi']
    simp [div_self hrange]
  · intro data hdata
    subst hdata
    simp [ModelTrainer.normalizeData, EmigrantForecaster.normalize, List.map_map,
      Function.comp]

/-- Witness for claim C23: the values 100 to 160 of the scenario series. -/
theorem forecaster_normalize_spec_witness :
    (EmigrantForecaster.normalize [100, 110, 120, 130, 140, 150, 160]).1.min ≤
      (EmigrantForecaster.normalize [100, 110, 120, 130, 140, 150, 160]).1.max ∧
    ∀ n, some n ∈ (EmigrantForecaster.normalize [100, 110, 120, 130, 140, 150, 160]).2 →
      0 ≤ n ∧ n ≤ 1 := by
  have h := forecaster_normalize_spec [100, 110, 120, 130, 140, 150, 160]
    ⟨100, by simp, 160, by simp, by norm_num⟩
  exact ⟨h.2.2.1, h.2.2.2.2.2.1⟩

/-! ## Claim C24: the split into training and validation windows -/

theorem jsSlice_prefix {α : Type} (data : List α) (k : Nat) (hk : k ≤ data.length) :
    jsSlice data 0 (some (k : Int)) = data.take k := by
  have h1 : sliceIndex data.length 0 = 0 := by simp [sliceIndex]
  have h2 : sliceIndex data.length (k : Int) = k := by
    unfold sliceIndex
    rw [if_neg (by omega)]
    omega
  simp [jsSlice, h1, h2]

theorem jsSlice_suffix {α : Type} (data : List α) (k : Nat) (hk : k ≤ data.length) :
    jsSlice data (k : Int) none = data.drop k := by
  have h2 : sliceIndex data.length (k : Int) = k := by
    unfold sliceIndex
    rw [if_neg (by omega)]
    omega
  simp [jsSlice, h2]

/-- With the split fraction 0.8 of `CONFIG` the split index of `n` windows is
the integer quotient of `4 * n` by 5. -/
theorem splitIdx_CONFIG (n : Nat) : splitIdx CONFIG n = ((4 * n / 5 : Nat) : Int) := by
  have h : ((n : ℚ) * CONFIG.trainTestSplit) = (((4 * n : Nat) : ℚ) / ((5 : Nat) : ℚ)) := by
    simp only [CONFIG]
    push_cast
    ring
  unfold splitIdx
  rw [h]
  exact Rat.floor_natCast_div_natCast (4 * n) 5

theorem createSequences_lengths {α : Type} (data : List α) (lookback : Nat) :
    (createSequences data lookback).y.length = (createSequences data lookback).X.length := by
  rw [createSequences_eq]
  simp

/-- Claim C24. `EmigrantForecaster.train` splits the `n` windows by position:
with the fraction 0.8 of `CONFIG` the training set is the first
`floor(0.8 * n)` windows and the validation set is the remaining, most recent
ones, so training followed by validation is the window list in its order, each
position falls in exactly one of the two sets, and the targets are split at the
same index. -/
theorem splitTrainVal_spec {α : Type} (data : List α) (lookback : Nat) :
    splitIdx CONFIG (createSequences data lookback).X.length =
        Rat.floor (((createSequences data lookback).X.length : ℚ) * (4 / 5)) ∧
    splitIdx CONFIG (createSequences data lookback).X.length =
        ((4 * (createSequences data lookback).X.length / 5 : Nat) : Int) ∧
    (EmigrantForecaster.splitTrainVal CONFIG (createSequences data lookback)).X_train_data =
      (createSequences data lookback).X.take (4 * (createSequences data lookback).X.length / 5) ∧
    (EmigrantForecaster.splitTrainVal CONFIG (createSequences data lookback)).X_val_data =
      (createSequences data lookback).X.drop (4 * (createSequences data lookback).X.length / 5) ∧
    (EmigrantForecaster.splitTrainVal CONFIG (createSequences data lookback)).y_train_data =
      (createSequences data lookback).y.take (4 * (createSequences data lookback).X.length / 5) ∧
    (EmigrantForecaster.splitTrainVal CONFIG (createSequences data lookback)).y_val_data =
      (createSequences data lookback).y.drop (4 * (createSequences data lookback).X.length / 5) ∧
    (EmigrantForecaster.splitTrainVal CONFIG (createSequences data lookback)).X_train_data ++
        (EmigrantForecaster.splitTrainVal CONFIG (createSequences data lookback)).X_val_data =
      (createSequences data lookback).X ∧
    (EmigrantForecaster.splitTrainVal CONFIG (createSequences data lookback)).y_train_data ++
        (EmigrantForecaster.splitTrainVal CONFIG (createSequences data lookback)).y_val_data =
      (createSequences data lookback).y ∧
    (EmigrantForecaster.splitTrainVal CONFIG (createSequences data lookback)).X_train_data.length +
        (EmigrantForecaster.splitTrainVal CONFIG
          (createSequences data lookback)).X_val_data.length =
      (createSequences data lookback).X.length := by
  have hk : 4 * (createSequences data lookback).X.length / 5 ≤
      (createSequences data lookback).X.length := by omega
  have hky : 4 * (createSequences data lookback).X.length / 5 ≤
      (createSequences data lookback).y.length := by
    rw [createSequences_lengths]
    exact hk
  have hidx := splitIdx_CONFIG (createSequences data lookback).X.length
  have hXt : (EmigrantForecaster.splitTrainVal CONFIG
      (createSequences data lookback)).X_train_data =
      (createSequences data lookback).X.take
        (4 * (createSequences data lookback).X.length / 5) := by
    simp only [EmigrantForecaster.splitTrainVal, hidx]
    exact jsSlice_prefix _ _ hk
  have hXv : (EmigrantForecaster.splitTrainVal CONFIG
      (createSequences data lookback)).X_val_data =
      (createSequences data lookback).X.drop
        (4 * (createSequences data lookback).X.length / 5) := by
    simp only [EmigrantForecaster.splitTrainVal, hidx]
    exact jsSlice_suffix _ _ hk
  have hyt : (EmigrantForecaster.splitTrainVal CONFIG
      (createSequences data lookback)).y_train_data =
      (createSequences data lookback).y.take
        (4 * (createSequences data lookback).X.length / 5) := by
    simp only [EmigrantForecaster.splitTrainVal, hidx]
    exact jsSlice_prefix _ _ hky
  have hyv : (EmigrantForecaster.splitTrainVal CONFIG
      (createSequences data lookback)).y_val_data =
      (createSequences data lookback).y.drop
        (4 * (createSequences data lookback).X.length / 5) := by
    simp only [EmigrantForecaster.splitTrainVal, hidx]
    exact jsSlice_suffix _ _ hky
  refine ⟨rfl, hidx, hXt, hXv, hyt, hyv, ?_, ?_, ?_⟩
  · rw [hXt, hXv, List.take_append_drop]
  · rw [hyt, hyv, List.take_append_drop]
  · rw [hXt, hXv, List.length_take, List.length_drop]
    omega

theorem splitTrainVal_example :
    EmigrantForecaster.splitTrainVal CONFIG (createSequences [1, 2, 3, 4, 5, 6, 7, 8] 2) =
      { X_train_data := [[1, 2], [2, 3], [3, 4], [4, 5]]
        X_val_data := [[5, 6], [6, 7]]
        y_train_data := [3, 4, 5, 6]
        y_val_data := [7, 8] } := by
  have h := splitIdx_CONFIG 6
  simp only [EmigrantForecaster.splitTrainVal]
  have hx : (createSequences [1, 2, 3, 4, 5, 6, 7, 8] 2).X.length = 6 := by decide
  rw [hx, h]
  decide

/-! ## Claims C25 and C28: the value taken from a record -/

theorem orElse_of_truthy {a : Option ℚ} (b : Option ℚ) (h : truthyNumber a = true) :
    orElse a b = a := by
  simp [orElse, h]

theorem orElse_of_falsy {a : Option ℚ} (b : Option ℚ) (h : truthyNumber a = false) :
    orElse a b = b := by
  simp [orElse, h]

theorem truthyNumber_some (q : ℚ) : truthyNumber (some q) = decide (q ≠ 0) := rfl

/-- The chain of `extractValue` picks the first candidate that is present and
not 0. -/
theorem extractValue_eq_firstNonZero (selectedAttribute : Attribute) (d : HistoricalRecord) :
    extractValue selectedAttribute d =
      firstNonZero [d.field selectedAttribute, d.value, d.totalEmigrants, d.total] := by
  unfold extractValue firstNonZero
  rcases hs : d.field selectedAttribute with _ | s <;>
  rcases hv : d.value with _ | v <;>
  rcases he : d.totalEmigrants with _ | e <;>
  rcases ht : d.total with _ | t <;>
  simp only [orElse, truthyNumber, List.filterMap_cons, List.filterMap_nil, id,
    List.find?_cons, List.find?_nil] <;>
  (try by_cases hs0 : s = 0) <;> (try by_cases hv0 : v = 0) <;>
  (try by_cases he0 : e = 0) <;> (try by_cases ht0 : t = 0) <;>
  simp_all

/-- Counterexample to claim C25 as stated: for a record without `value` that
carries the total 5 and the `totalEmigrants` 7, the value extracted under the
default attribute `value` is 7, the `totalEmigrants`, not the total. -/
theorem extractValue_prefers_totalEmigrants :
    twoTotalsRecord.value = none ∧ twoTotalsRecord.total = some 5 ∧
    twoTotalsRecord.totalEmigrants = some 7 ∧
    extractValue Attribute.value twoTotalsRecord = 7 ∧
    extractValue Attribute.value twoTotalsRecord ≠ 5 := by
  decide

/-- Claim C25, amended. The value extraction of the forecasting component is
the priority chain selected attribute, then `value`, then `totalEmigrants`,
then `total`: for a record with no `value` field that carries a non-zero
`total` and a non-zero `totalEmigrants`, the extracted value is
`totalEmigrants`, unless the selected attribute itself names a non-zero field
of the record; in particular it is `total` only when `total` is the selected
attribute. -/
theorem extractValue_two_totals (selectedAttribute : Attribute) (d : HistoricalRecord)
    (t e : ℚ) (hv : d.value = none) (ht : d.total = some t) (ht0 : t ≠ 0)
    (he : d.totalEmigrants = some e) (he0 : e ≠ 0) :
    extractValue selectedAttribute d =
      firstNonZero [d.field selectedAttribute, d.value, d.totalEmigrants, d.total] ∧
    (truthyNumber (d.field selectedAttribute) = false → extractValue selectedAttribute d = e) ∧
    (selectedAttribute = Attribute.value → extractValue selectedAttribute d = e) ∧
    (selectedAttribute = Attribute.totalEmigrants → extractValue selectedAttribute d = e) ∧
    (selectedAttribute = Attribute.total → extractValue selectedAttribute d = t) := by
  have hnone : truthyNumber (none : Option ℚ) = false := rfl
  have hte : truthyNumber (some e) = true := by simp [truthyNumber, he0]
  have htt : truthyNumber (some t) = true := by simp [truthyNumber, ht0]
  have hfalsy : truthyNumber (d.field selectedAttribute) = false →
      extractValue selectedAttribute d = e := by
    intro hf
    unfold extractValue
    rw [orElse_of_falsy _ hf, hv, orElse_of_falsy _ hnone, he, orElse_of_truthy _ hte,
      orElse_of_truthy _ hte]
    rfl
  refine ⟨extractValue_eq_firstNonZero selectedAttribute d, hfalsy, ?_, ?_, ?_⟩
  · intro hsel
    apply hfalsy
    rw [hsel]
    simp only [HistoricalRecord.field, hv, hnone]
  · intro hsel
    subst hsel
    unfold extractValue
    simp only [HistoricalRecord.field]
    rw [he, orElse_of_truthy _ hte, orElse_of_truthy _ hte, orElse_of_truthy _ hte,
      orElse_of_truthy _ hte]
    rfl
  · intro hsel
    subst hsel
    unfold extractValue
    simp only [HistoricalRecord.field]
    rw [ht, orElse_of_truthy _ htt, orElse_of_truthy _ htt, orElse_of_truthy _ htt,
      orElse_of_truthy _ htt]
    rfl

/-- Witness for claim C25 as amended: the record with the total 5 and the
`totalEmigrants` 7. -/
theorem extractValue_two_totals_witness :
    extractValue Attribute.value twoTotalsRecord = 7 ∧
    extractValue Attribute.total twoTotalsRecord = 5 := by
  have h := fun sel => extractValue_two_totals sel twoTotalsRecord 5 7 rfl rfl (by norm_num)
    rfl (by norm_num)
  exact ⟨(h Attribute.value).2.2.1 rfl, (h Attribute.total).2.2.2.2 rfl⟩

theorem firstNonZero_cons_falsy (a : Option ℚ) (rest : List (Option ℚ))
    (h : truthyNumber a = false) : firstNonZero (a :: rest) = firstNonZero rest := by
  unfold firstNonZero
  cases a with
  | none => rfl
  | some q =>
    have hq : q = 0 := by simpa [truthyNumber] using h
    simp [hq]

theorem firstNonZero_ne_zero (candidates : List (Option ℚ))
    (h : ∃ a ∈ candidates, truthyNumber a = true) : firstNonZero candidates ≠ 0 := by
  obtain ⟨a, ha, hta⟩ := h
  cases a with
  | none => exact absurd hta (by simp [truthyNumber])
  | some q =>
    have hq : q ≠ 0 := by simpa [truthyNumber] using hta
    have hmem : q ∈ candidates.filterMap id := List.mem_filterMap.mpr ⟨some q, ha, rfl⟩
    unfold firstNonZero
    cases hfind : (candidates.filterMap id).find? (fun q => decide (q ≠ 0)) with
    | none =>
      have := List.find?_eq_none.mp hfind q hmem
      simp [hq] at this
    | some r =>
      have hr := List.find?_some hfind
      simpa using hr

/-- Claim C28. In `trainModelOnData` and `generateForecasts` the value taken
from a record is the first non-zero of `record[selectedAttribute]`, `value`,
`totalEmigrants`, `total`, and 0 if none is: a record whose selected attribute
is exactly 0 contributes the first non-zero of the other three fields when
there is one, never 0. -/
theorem extractValue_spec (selectedAttribute : Attribute) (d : HistoricalRecord) :
    extractValue selectedAttribute d =
      firstNonZero [d.field selectedAttribute, d.value, d.totalEmigrants, d.total] ∧
    (d.field selectedAttribute = some 0 →
      (truthyNumber d.value = true ∨ truthyNumber d.totalEmigrants = true ∨
        truthyNumber d.total = true) →
      extractValue selectedAttribute d ≠ 0 ∧
        extractValue selectedAttribute d =
          firstNonZero [d.value, d.totalEmigrants, d.total]) ∧
    ((∀ a ∈ [d.field selectedAttribute, d.value, d.totalEmigrants, d.total],
        truthyNumber a = false) → extractValue selectedAttribute d = 0) ∧
    (∀ (historicalData : List HistoricalRecord) (trainStartYear trainEndYear : Option Int)
        (selected : TrainingData),
      selectTrainingValues historicalData trainStartYear trainEndYear selectedAttribute =
        Except.ok selected →
      selected.values = selected.filteredData.map (extractValue selectedAttribute)) ∧
    (∀ (m : TrainedModel) (historicalData : List HistoricalRecord)
        (trainStartYear trainEndYear : Int),
      initialWindow m historicalData trainStartYear trainEndYear selectedAttribute =
        normalizeData
          ((sliceLast (selectTrainData historicalData trainStartYear trainEndYear)
            m.lookback).map (extractValue selectedAttribute)) m.min m.max) := by
  have hchain := extractValue_eq_firstNonZero selectedAttribute d
  refine ⟨hchain, ?_, ?_, ?_, fun _ _ _ _ => rfl⟩
  · intro hsel hother
    have hrest : firstNonZero [d.field selectedAttribute, d.value, d.totalEmigrants, d.total] =
        firstNonZero [d.value, d.totalEmigrants, d.total] := by
      apply firstNonZero_cons_falsy
      rw [hsel]
      simp [truthyNumber]
    rw [hchain, hrest]
    refine ⟨?_, rfl⟩
    apply firstNonZero_ne_zero
    rcases hother with h | h | h
    · exact ⟨d.value, by simp, h⟩
    · exact ⟨d.totalEmigrants, by simp, h⟩
    · exact ⟨d.total, by simp, h⟩
  · intro hall
    rw [hchain, firstNonZero_cons_falsy _ _ (hall _ (by simp)),
      firstNonZero_cons_falsy _ _ (hall _ (by simp)),
      firstNonZero_cons_falsy _ _ (hall _ (by simp)),
      firstNonZero_cons_falsy _ _ (hall _ (by simp))]
    rfl
  · intro historicalData trainStartYear trainEndYear selected hsel
    unfold selectTrainingValues at hsel
    split at hsel
    · exact absurd hsel (by simp)
    · split at hsel
      · split at hsel
        · exact absurd hsel (by simp)
        · simp only at hsel
          split at hsel
          · exact absurd hsel (by simp)
          · split at hsel
            · exact absurd hsel (by simp)
            · have h := Except.ok.inj hsel
              rw [← h]
      · exact absurd hsel (by simp)

/-- A record whose selected attribute `male` is exactly 0 contributes its
total. -/
theorem extractValue_zero_attribute_example :
    extractValue Attribute.male
      { year := 2000, value := none, total := some 300, totalEmigrants := none,
        male := some 0, female := some 120 } = 300 := by
  decide

/-! ## Claim C26: numbers of the flat parsers -/

/-- Counterexample to claim C26 as stated: the cell "0x1A" has the integer
prefix 0, but the gender parser reads it as 26; and the cell " 12", which
starts with a blank, is read as 12. -/
theorem parseGender_reads_hexadecimal :
    prefixOrZero "0x1A" = 0 ∧
    parseGenderDataFromArray [[Cell.str "Year", Cell.str "Male", Cell.str "Female"],
        [Cell.str "1981", Cell.str "0x1A", Cell.str " 12"]] =
      Except.ok [{ year := some 1981, male := 26, female := 12 }] ∧
    prefixOrZero " 12" = 0 := by
  decide

theorem parseIntOrZero_eq (c : Cell) :
    parseIntOrZero c = (parseInt c.toText).getD 0 := by
  unfold parseIntOrZero parseIntCell
  cases parseInt c.toText with
  | none => rfl
  | some n =>
    simp only [Option.getD_some]
    split
    · rfl
    · rename_i h
      have : n = 0 := by simpa using h
      rw [this]

/-- Without a hexadecimal prefix `parseInt` reads the integer prefix of the
text that follows the leading white space. -/
theorem parseInt_eq_signedIntegerPrefix (s : String)
    (h : stripHexPrefix (stripSign (s.data.dropWhile isWhiteSpace)).2 = none) :
    parseInt s = signedIntegerPrefix (skipWhiteSpace s) := by
  unfold parseInt signedIntegerPrefix skipWhiteSpace
  simp only [h]
  split <;> simp_all

theorem geographicRowStep_count (yearIdx : Nat) (countryColumns : List CountryColumn)
    (results : List GeographicRecord) (row : Row) (P : Int → Prop)
    (hcell : ∀ i, P (parseIntOrZero (Row.at row i)))
    (h : ∀ r ∈ results, P r.count) :
    ∀ r ∈ geographicRowStep yearIdx countryColumns results row, P r.count := by
  unfold geographicRowStep
  cases parseIntCell (Row.at row yearIdx) with
  | none => exact h
  | some year =>
    apply foldl_preserves (fun results : List GeographicRecord => ∀ r ∈ results, P r.count)
    · intro b country hb
      simp only
      split
      · intro r hr
        rcases List.mem_append.mp hr with hr | hr
        · exact hb r hr
        · rw [List.mem_singleton] at hr
          subst hr
          exact hcell _
      · exact hb
    · exact h

/-- Claim C26, amended. The flat parsers read a number cell with `parseInt`
and take 0 for `NaN`: leading white space is skipped, then the cell is read as
its leading, optionally signed, integer prefix (0 when there is none), except
that a text continuing with `0x` or `0X` is read in base 16. No digits-only
cleaning is applied: "1,234" gives 1 and "-5" gives -5, where `cleanNumeric`
gives 1234 and 5. The gender, the flat total and the geographic parser all
read their counts this way. -/
theorem flat_parsers_read_with_parseInt :
    (∀ c : Cell, parseIntOrZero c = (parseInt c.toText).getD 0) ∧
    (∀ c : Cell,
      stripHexPrefix (stripSign (c.toText.data.dropWhile isWhiteSpace)).2 = none →
      parseIntOrZero c = prefixOrZero (skipWhiteSpace c.toText)) ∧
    (∀ (c : Cell) (rest : List Char),
      stripHexPrefix (stripSign (c.toText.data.dropWhile isWhiteSpace)).2 = some rest →
      parseIntOrZero c =
        if (rest.takeWhile isHexDigit).isEmpty then 0
        else if (stripSign (c.toText.data.dropWhile isWhiteSpace)).1 then
          -((digitsToNat 16 hexValue (rest.takeWhile isHexDigit) : Nat) : Int)
        else ((digitsToNat 16 hexValue (rest.takeWhile isHexDigit) : Nat) : Int)) ∧
    (parseIntOrZero (Cell.str "1,234") = 1 ∧ parseIntOrZero (Cell.str "-5") = -5 ∧
      cleanNumeric (Cell.str "1,234") = 1234 ∧ cleanNumeric (Cell.str "-5") = 5) ∧
    (∀ (headerRow : Row) (body : List Row) (yearIdx maleIdx femaleIdx : Nat),
      findIndex (fun h => includes h "year") (lowerHeaders headerRow) = some yearIdx →
      findIndex (fun h => includes h "male" && !includes h "female")
        (lowerHeaders headerRow) = some maleIdx →
      findIndex (fun h => includes h "female") (lowerHeaders headerRow) = some femaleIdx →
      parseGenderDataFromArray (headerRow :: body) =
        Except.ok ((body.map (fun row =>
          ({ year := parseInt (Row.at row yearIdx).toText
             male := parseIntOrZero (Row.at row maleIdx)
             female := parseIntOrZero (Row.at row femaleIdx) } : GenderRecord))).filter
          (fun record => record.year.isSome))) ∧
    (∀ (headerRow : Row) (body : List Row) (yearIdx totalIdx : Nat),
      findIndex (fun h => includes h "year") (lowerHeaders headerRow) = some yearIdx →
      findIndex (fun h => includes h "total") (lowerHeaders headerRow) = some totalIdx →
      parseTotalDataFromArray (headerRow :: body) =
        Except.ok ((body.map (fun row =>
          ({ year := parseInt (Row.at row yearIdx).toText
             total := parseIntOrZero (Row.at row totalIdx) } : TotalRecord))).filter
          (fun record => record.year.isSome))) ∧
    (∀ (headerRow : Row) (body : List Row),
      ∃ recs, parseGeographicDataFromArray (headerRow :: body) = Except.ok recs ∧
        ∀ r ∈ recs, ∃ row ∈ body, ∃ i, r.count = parseIntOrZero (Row.at row i)) := by
  refine ⟨parseIntOrZero_eq, ?_, ?_, by decide, ?_, ?_, ?_⟩
  · intro c h
    rw [parseIntOrZero_eq, parseInt_eq_signedIntegerPrefix _ h]
    unfold prefixOrZero
    cases signedIntegerPrefix (skipWhiteSpace c.toText) <;> rfl
  · intro c rest h
    rw [parseIntOrZero_eq]
    unfold parseInt
    simp only [h]
    by_cases hemp : (rest.takeWhile isHexDigit).isEmpty = true
    · simp only [hemp, if_true]
      rfl
    · simp only [hemp, Bool.false_eq_true, if_false]
      rfl
  · intro headerRow body yearIdx maleIdx femaleIdx hy hm hf
    simp only [parseGenderDataFromArray, hy, hm, hf, parseIntCell]
  · intro headerRow body yearIdx totalIdx hy ht
    simp only [parseTotalDataFromArray, hy, ht, parseIntCell]
  · intro headerRow body
    unfold parseGeographicDataFromArray
    simp only
    split
    · exact ⟨[], rfl, by simp⟩
    · refine ⟨_, rfl, ?_⟩
      apply foldl_preserves_of_mem (fun results : List GeographicRecord => ∀ r ∈ results,
        ∃ row ∈ body, ∃ i, r.count = parseIntOrZero (Row.at row i))
      · intro b row hrow hb
        apply geographicRowStep_count _ _ b row
          (fun count => ∃ row ∈ body, ∃ i, count = parseIntOrZero (Row.at row i))
        · intro i
          exact ⟨row, hrow, i, rfl⟩
        · exact hb
      · simp

/-- Witness for claim C26 as amended: the cell "-5" of a gender table. -/
theorem flat_parsers_read_with_parseInt_witness :
    parseIntOrZero (Cell.str "-5") = prefixOrZero (skipWhiteSpace (Cell.str "-5").toText) ∧
    parseGenderDataFromArray ([Cell.str "Year", Cell.str "Male", Cell.str "Female"] ::
        [[Cell.str "1981", Cell.str "1,234", Cell.str "-5"]]) =
      Except.ok (([[Cell.str "1981", Cell.str "1,234", Cell.str "-5"]].map (fun row =>
        ({ year := parseInt (Row.at row 0).toText
           male := parseIntOrZero (Row.at row 1)
           female := parseIntOrZero (Row.at row 2) } : GenderRecord))).filter
        (fun record => record.year.isSome)) :=
  ⟨flat_parsers_read_with_parseInt.2.1 (Cell.str "-5") (by decide),
    flat_parsers_read_with_parseInt.2.2.2.2.1
      [Cell.str "Year", Cell.str "Male", Cell.str "Female"]
      [[Cell.str "1981", Cell.str "1,234", Cell.str "-5"]] 0 1 2 (by decide) (by decide)
      (by decide)⟩

theorem flat_parsers_example :
    parseTotalDataFromArray [[Cell.str "Year", Cell.str "Total"],
        [Cell.str "1981", Cell.str "1,234"]] = Except.ok [{ year := some 1981, total := 1 }] ∧
    parseGeographicDataFromArray [[Cell.str "Year", Cell.str "USA"],
        [Cell.str "1981", Cell.str "1,234"]] =
      Except.ok [{ year := some 1981, country := "USA", count := 1 }] := by
  decide

/-! ## Claim C27: the chart type passed on with the merged data -/

/-- Claim C27, at its failing input. When the education file is uploaded first
and the occupation file second, the merged data are passed on with the chart
type "occupation-occupation", which `App.handleCSVUpload` does not save and
`App` renders as an unknown chart type; in the other order the type is
"occupation-education", which is saved and rendered as the scatter plot. -/
theorem handleConfirmUpload_occupation_last :
    handleConfirmUpload
        (handleFileUpload
          (handleFileUpload initialUploadState (UploadInput.parsed educationFile)
            "occupation-education")
          (UploadInput.parsed occupationFile) "occupation-occupation") =
      some (Records.merged
        [{ year := some 2000, occupation := "Nurse", totalOccupation := 5, totalEducation := 4,
           elementary := 1, highSchool := 0, college := 3, postgraduate := 0 },
         { year := some 2001, occupation := "Nurse", totalOccupation := 6, totalEducation := 6,
           elementary := 2, highSchool := 0, college := 4, postgraduate := 0 }],
        "occupation-occupation") ∧
    isPersistedChartType "occupation-occupation" = false ∧
    chartViewOf "occupation-occupation" = ChartView.unknownChartType ∧
    (handleConfirmUpload
        (handleFileUpload
          (handleFileUpload initialUploadState (UploadInput.parsed occupationFile)
            "occupation-occupation")
          (UploadInput.parsed educationFile) "occupation-education")).map (fun p => p.2) =
      some "occupation-education" ∧
    isPersistedChartType "occupation-education" = true ∧
    chartViewOf "occupation-education" = ChartView.occupationScatterPlot := by
  decide

/-- Whatever the files hold, the chart type left by an upload of the
occupation file is "occupation-occupation". -/
theorem handleFileUpload_occupation_type (st : UploadState) (firstRow : Row)
    (rest : List Row) :
    (handleFileUpload st (UploadInput.parsed (firstRow :: rest))
      "occupation-occupation").selectedChartType = "occupation-occupation" := by
  have hstart := startUpload_selectedChartType st "occupation-occupation"
  simp only [handleFileUpload, if_true]
  split
  · exact hstart
  · split
    · exact hstart
    · exact hstart

/-! ## Claim C29: the two window builders -/

theorem forwardSequencesLoop_eq (data : List NormalizedPoint)
    (sequenceLength : Nat) :
    ∀ (fuel i : Nat) (acc : ForwardSequences), data.length - sequenceLength - i ≤ fuel →
      ModelTrainer.createSequencesLoop data sequenceLength fuel i acc =
        ⟨acc.sequences ++ (List.range' i (data.length - sequenceLength - i)).map
            (fun j => (slice data j (j + sequenceLength)).map (fun d => d.normalizedValue)),
          acc.targets ++ ((data.drop (i + sequenceLength)).map (fun d => d.normalizedValue))⟩ := by
  intro fuel
  induction fuel with
  | zero =>
    intro i acc hfuel
    have hi : data.length - sequenceLength - i = 0 := Nat.le_zero.mp hfuel
    have hdrop : data.drop (i + sequenceLength) = [] := List.drop_eq_nil_of_le (by omega)
    simp [ModelTrainer.createSequencesLoop, hi, hdrop]
  | succ fuel ih =>
    intro i acc hfuel
    unfold ModelTrainer.createSequencesLoop
    by_cases hlt : (i : Int) < (data.length : Int) - (sequenceLength : Int)
    · have hidx : i + sequenceLength < data.length := by omega
      rw [dif_pos hlt]
      simp only
      rw [ih (i + 1) _ (by omega)]
      have hlen : data.length - sequenceLength - i =
          (data.length - sequenceLength - (i + 1)) + 1 := by omega
      rw [hlen, List.range'_succ, List.drop_eq_getElem_cons hidx]
      have hnext : i + 1 + sequenceLength = i + sequenceLength + 1 := by omega
      have hd := List.drop_eq_getElem_cons (l := data.map (fun d => d.normalizedValue))
        (n := i + sequenceLength) (by simpa using hidx)
      simp [hnext, List.get_eq_getElem]
      rw [hd]
      simp
    · rw [dif_neg hlt]
      have hi : data.length - sequenceLength - i = 0 := by omega
      have hdrop : data.drop (i + sequenceLength) = [] := List.drop_eq_nil_of_le (by omega)
      simp [hi, hdrop]

/-- Claim C29. The two window builders agree: for every list of normalized
points and every lookback `k ≥ 0`, the forward-indexed `createSequences` of
`public/Models/trainModel.js` returns the same windows and the same targets, in
the same order, as the `createSequences` of `ForecastingComponent` and
`EmigrantForecaster` applied to the normalized values. -/
theorem createSequences_agree (data : List NormalizedPoint) (k : Nat) :
    (ModelTrainer.createSequences data k).sequences =
        (createSequences (data.map (fun d => d.normalizedValue)) k).X ∧
    (ModelTrainer.createSequences data k).targets =
        (createSequences (data.map (fun d => d.normalizedValue)) k).y := by
  unfold ModelTrainer.createSequences
  rw [forwardSequencesLoop_eq data k data.length 0 _ (by omega), createSequences_eq]
  simp only [List.nil_append, Nat.sub_zero, Nat.zero_add, List.length_map, List.map_drop,
    and_true]
  rw [← List.range_eq_range']
  apply List.map_congr_left
  intro i _
  simp only [slice, List.map_take, List.map_drop]
  rw [List.drop_take]
  congr 1
  omega

theorem createSequences_agree_example :
    ModelTrainer.createSequences
        [⟨2000, some 0⟩, ⟨2001, some (1 / 4)⟩, ⟨2002, some (1 / 2)⟩, ⟨2003, some 1⟩] 3 =
      { sequences := [[some 0, some (1 / 4), some (1 / 2)]], targets := [some 1] } ∧
    ModelTrainer.createSequences [⟨2000, some 0⟩, ⟨2001, some 1⟩] 3 =
      { sequences := [], targets := [] } := by
  constructor <;> rfl

/-! ## Claim C30: early stopping -/

theorem improves_iff (valLoss : Nat → ℚ) (j : Nat) :
    improves valLoss j = true ↔ ∀ i, i < j → valLoss j < valLoss i := by
  simp [improves, List.all_eq_true, List.mem_range]

theorem historyOf_succ (fit : Nat → EpochResult) (n : Nat) :
    historyOf fit (n + 1) = (historyOf fit n).push (fit n) := by
  simp [historyOf, History.push, List.range_succ]

theorem historyOf_valLoss_length (fit : Nat → EpochResult) (n : Nat) :
    (historyOf fit n).valLoss.length = n := by
  simp [historyOf]

theorem trainModelLoop_spec (config : Config) (fit : Nat → EpochResult)
    (hp : 0 < config.patience) :
    ∀ (fuel epoch : Nat) (st : TrainingState),
      config.epochs - epoch ≤ fuel → epoch ≤ config.epochs →
      st.history = historyOf fit epoch →
      (∀ x, belowBest x st.bestValLoss = true ↔ ∀ i, i < epoch → x < (fit i).valLoss) →
      st.patienceCount = staleCount (fun e => (fit e).valLoss) epoch →
      (∀ m, m ≤ epoch → staleCount (fun e => (fit e).valLoss) m < config.patience) →
      ∃ n, n ≤ config.epochs ∧
        (EmigrantForecaster.trainModelLoop config fit fuel epoch st).history = historyOf fit n ∧
        (∀ m, m < n → staleCount (fun e => (fit e).valLoss) m < config.patience) ∧
        (n < config.epochs → config.patience ≤ staleCount (fun e => (fit e).valLoss) n) := by
  intro fuel
  induction fuel with
  | zero =>
    intro epoch st hfuel hle hhist _ _ hstale
    have heq : epoch = config.epochs := by omega
    refine ⟨epoch, hle, by simpa [EmigrantForecaster.trainModelLoop] using hhist,
      fun m hm => hstale m (Nat.le_of_lt hm), fun hlt => absurd heq (Nat.ne_of_lt hlt)⟩
  | succ fuel ih =>
    intro epoch st hfuel hle hhist hbest hcount hstale
    unfold EmigrantForecaster.trainModelLoop
    by_cases hrun : epoch < config.epochs
    · rw [if_pos hrun]
      simp only
      have hpush : st.history.push (fit epoch) = historyOf fit (epoch + 1) := by
        rw [historyOf_succ, hhist]
      have himp : belowBest (fit epoch).valLoss st.bestValLoss =
          improves (fun e => (fit e).valLoss) epoch := by
        rw [Bool.eq_iff_iff, hbest, improves_iff]
      by_cases hbelow : belowBest (fit epoch).valLoss st.bestValLoss = true
      · rw [if_pos hbelow]
        have hzero : staleCount (fun e => (fit e).valLoss) (epoch + 1) = 0 := by
          simp only [staleCount]
          rw [← himp, if_pos hbelow]
        apply ih (epoch + 1) _ (by omega) hrun hpush
        · intro x
          simp only [belowBest, decide_eq_true_eq]
          constructor
          · intro hx i hi
            rcases Nat.lt_succ_iff_lt_or_eq.mp hi with hlt | heq
            · exact lt_trans hx ((hbest _).mp hbelow i hlt)
            · rw [heq]
              exact hx
          · intro hall
            exact hall epoch (Nat.lt_succ_self epoch)
        · exact hzero.symm
        · intro m hm
          rcases Nat.lt_or_ge m (epoch + 1) with hlt | hge
          · exact hstale m (Nat.lt_succ_iff.mp hlt)
          · have hmeq : m = epoch + 1 := by omega
            rw [hmeq, hzero]
            exact hp
      · rw [if_neg hbelow]
        have hsucc : staleCount (fun e => (fit e).valLoss) (epoch + 1) =
            st.patienceCount + 1 := by
          simp only [staleCount]
          rw [← himp, if_neg hbelow, hcount]
        by_cases hstop : st.patienceCount + 1 ≥ config.patience
        · rw [if_pos hstop]
          refine ⟨epoch + 1, hrun, hpush, fun m hm => hstale m (Nat.lt_succ_iff.mp hm), ?_⟩
          intro _
          rw [hsucc]
          exact hstop
        · rw [if_neg hstop]
          apply ih (epoch + 1) _ (by omega) hrun hpush
          · intro x
            simp only
            rw [hbest x]
            constructor
            · intro hx i hi
              rcases Nat.lt_succ_iff_lt_or_eq.mp hi with hlt | heq
              · exact hx i hlt
              · rw [heq]
                have hnot : ¬ ∀ i, i < epoch → (fit epoch).valLoss < (fit i).valLoss :=
                  fun hall => hbelow ((hbest _).mpr hall)
                push_neg at hnot
                obtain ⟨j, hj, hjle⟩ := hnot
                exact lt_of_lt_of_le (hx j hj) hjle
            · intro hall i hi
              exact hall i (Nat.lt_succ_of_lt hi)
          · exact hsucc.symm
          · intro m hm
            rcases Nat.lt_or_ge m (epoch + 1) with hlt | hge
            · exact hstale m (Nat.lt_succ_iff.mp hlt)
            · have hmeq : m = epoch + 1 := by omega
              rw [hmeq, hsucc]
              omega
    · rw [if_neg hrun]
      have heq : epoch = config.epochs := by omega
      exact ⟨epoch, hle, hhist, fun m hm => hstale m (Nat.le_of_lt hm),
        fun hlt => absurd heq (Nat.ne_of_lt hlt)⟩

theorem staleCount_of_decreasing (valLoss : Nat → ℚ) (epochs : Nat)
    (hdec : ∀ e, e + 1 < epochs → valLoss (e + 1) < valLoss e) :
    ∀ m, m ≤ epochs → staleCount valLoss m = 0 := by
  have hbelow : ∀ j, j < epochs → ∀ i, i < j → valLoss j < valLoss i := by
    intro j
    induction j with
    | zero =>
      intro _ i hi
      exact absurd hi (Nat.not_lt_zero i)
    | succ j ihj =>
      intro hj i hi
      rcases Nat.lt_succ_iff_lt_or_eq.mp hi with hlt | heq
      · exact lt_trans (hdec j hj) (ihj (by omega) i hlt)
      · rw [heq]
        exact hdec j hj
  intro m hm
  cases m with
  | zero => rfl
  | succ m =>
    simp only [staleCount]
    rw [if_pos ((improves_iff valLoss m).mpr (hbelow m (by omega)))]

theorem trainModel_spec (config : Config) (fit : Nat → EpochResult)
    (hp : 0 < config.patience) :
    ∃ n, n ≤ config.epochs ∧
      (EmigrantForecaster.trainModel config fit).history = historyOf fit n ∧
      (∀ m, m < n → staleCount (fun e => (fit e).valLoss) m < config.patience) ∧
      (n < config.epochs → config.patience ≤ staleCount (fun e => (fit e).valLoss) n) := by
  apply trainModelLoop_spec config fit hp config.epochs 0 _ (by omega) (Nat.zero_le _) rfl
  · intro x
    simp [belowBest]
  · rfl
  · intro m hm
    have hm0 : m = 0 := by omega
    rw [hm0]
    exact hp

/-- Claim C30. With a positive `patience`, for every sequence of per-epoch
results the loop of `EmigrantForecaster.trainModel` runs at most
`config.epochs` epochs; its history has, in each of its four lists, one entry
for each epoch run; no `patience` consecutive epochs without a validation loss
strictly below the best seen so far have passed before the last epoch run; when
the loop stops before `config.epochs`, `patience` such epochs have passed at the
last epoch run; and when the validation loss strictly decreases at every epoch
the loop runs exactly `config.epochs` epochs. -/
theorem trainModel_early_stopping (config : Config) (fit : Nat → EpochResult)
    (hp : 0 < config.patience) :
    epochsRun config fit ≤ config.epochs ∧
    (EmigrantForecaster.trainModel config fit).history =
      historyOf fit (epochsRun config fit) ∧
    (∀ m, m < epochsRun config fit →
      staleCount (fun e => (fit e).valLoss) m < config.patience) ∧
    (epochsRun config fit < config.epochs →
      config.patience ≤ staleCount (fun e => (fit e).valLoss) (epochsRun config fit)) ∧
    ((∀ e, e + 1 < config.epochs → (fit (e + 1)).valLoss < (fit e).valLoss) →
      epochsRun config fit = config.epochs) := by
  obtain ⟨n, hle, hhist, hbefore, hstop⟩ := trainModel_spec config fit hp
  have hn : epochsRun config fit = n := by
    rw [epochsRun, hhist, historyOf_valLoss_length]
  rw [hn]
  refine ⟨hle, hhist, hbefore, hstop, ?_⟩
  intro hdec
  by_contra hne
  have hlt : n < config.epochs := lt_of_le_of_ne hle hne
  have hzero := staleCount_of_decreasing (fun e => (fit e).valLoss) config.epochs hdec n hle
  have hge := hstop hlt
  omega

/-- The theorem `trainModel_early_stopping` at the constant `CONFIG` and a
validation loss that never changes. -/
theorem trainModel_early_stopping_witness :
    0 < CONFIG.patience ∧
    (epochsRun CONFIG (fun _ => ⟨1, 1, 1, 1⟩) ≤ CONFIG.epochs ∧
    (EmigrantForecaster.trainModel CONFIG (fun _ => ⟨1, 1, 1, 1⟩)).history =
      historyOf (fun _ => ⟨1, 1, 1, 1⟩) (epochsRun CONFIG (fun _ => ⟨1, 1, 1, 1⟩)) ∧
    (∀ m, m < epochsRun CONFIG (fun _ => ⟨1, 1, 1, 1⟩) →
      staleCount (fun e => ((fun _ => ⟨1, 1, 1, 1⟩ : Nat → EpochResult) e).valLoss) m <
        CONFIG.patience) ∧
    (epochsRun CONFIG (fun _ => ⟨1, 1, 1, 1⟩) < CONFIG.epochs →
      CONFIG.patience ≤ staleCount (fun e => ((fun _ => ⟨1, 1, 1, 1⟩ : Nat → EpochResult) e).valLoss)
        (epochsRun CONFIG (fun _ => ⟨1, 1, 1, 1⟩))) ∧
    ((∀ e, e + 1 < CONFIG.epochs →
        ((fun _ => ⟨1, 1, 1, 1⟩ : Nat → EpochResult) (e + 1)).valLoss <
          ((fun _ => ⟨1, 1, 1, 1⟩ : Nat → EpochResult) e).valLoss) →
      epochsRun CONFIG (fun _ => ⟨1, 1, 1, 1⟩) = CONFIG.epochs)) :=
  ⟨by decide, trainModel_early_stopping CONFIG (fun _ => ⟨1, 1, 1, 1⟩) (by decide)⟩

theorem trainModel_example :
    epochsRun CONFIG (fun _ => ⟨1, 1, 1, 1⟩) = 21 ∧
    epochsRun { CONFIG with epochs := 6, patience := 2 }
      (fun e => ⟨0, [5, 4, 4, 3, 3, 3].getD e 0, 0, 0⟩) = 6 ∧
    epochsRun { CONFIG with epochs := 6, patience := 2 }
      (fun e => ⟨0, [5, 4, 4, 4, 3, 3].getD e 0, 0, 0⟩) = 4 := by
  decide

/-! ## Worked examples -/

theorem cleanNumeric_thousands : cleanNumeric (Cell.str "1,234") = 1234 := by decide

theorem cleanNumeric_empty : cleanNumeric (Cell.str "") = 0 := by decide

theorem cleanNumeric_letters : cleanNumeric (Cell.str "N/A") = 0 := by decide

theorem cleanNumeric_parentheses : cleanNumeric (Cell.str "(500)") = 500 := by decide

theorem cleanNumeric_negative_number : cleanNumeric (Cell.num (-12)) = 12 := by decide

theorem parseInt_hex_example : parseInt " -0x1F" = some (-31) := by decide

theorem trim_example : trim "  a b \n" = "a b" := by decide

theorem toLowerCase_example : toLowerCase "Not Reported" = "not reported" := by decide

theorem includes_example : includes "xx no response" "no response" = true := by decide

theorem detectYearColumns_example : detectYearColumns [Cell.str "Category", Cell.str "2000", Cell.str "Notes",
    Cell.str " 2001 "] = ⟨[some 2000, some 2001], [1, 3]⟩ := by decide

theorem parseTotalTransposedFromArray_example : parseTotalTransposedFromArray [[Cell.str "Category", Cell.str "2000"],
    [Cell.str "Not Reported", Cell.num 5], [Cell.str "Youth", Cell.num 10]] =
    Except.ok [⟨some 2000, 10⟩] := by decide

theorem parseAgeTransposedFromArray_example : parseAgeTransposedFromArray [[Cell.str "Age", Cell.str "2000", Cell.str "2001"],
    [Cell.str "NOT reported", Cell.str "5", Cell.str "6"],
    [Cell.str " 14 - Below ", Cell.str "1,000", Cell.str ""]] =
    Except.ok [⟨some 2000, "14 - Below", 1000⟩] := by decide

theorem parseEducationTransposedFromArray_example : parseEducationTransposedFromArray [[Cell.str "Level", Cell.str "2000"],
    [Cell.str "elementary LEVEL", Cell.str "10"], [Cell.str "Elementary Graduate", Cell.str "5"],
    [Cell.str "Postgraduate", Cell.str "7"]] =
    Except.ok [⟨some 2000, 15, 0, 0, 7⟩] := by decide

theorem mergeOccupationEducationData_example : mergeOccupationEducationData
    [⟨some 2000, "Nurse", 5⟩, ⟨some 2001, "Nurse", 6⟩, ⟨some 2002, "Clerk", 7⟩]
    [⟨some 2002, 1, 2, 3, 4⟩, ⟨some 2000, 1, 1, 1, 1⟩, ⟨some 2002, 10, 20, 30, 40⟩,
      ⟨some 1999, 9, 9, 9, 9⟩] =
    [⟨some 2000, "Nurse", 5, 4, 1, 1, 1, 1⟩, ⟨some 2002, "Clerk", 7, 100, 10, 20, 30, 40⟩] := by
  decide

theorem createSequences_example : createSequences [10, 20, 30, 40, 50] 3 = ⟨[[10, 20, 30], [20, 30, 40]], [40, 50]⟩ := by
  decide

end Case3
